import Mathlib

/-!
# Quantized tensor-parallel linear layers (ScaleLLM)

A shallow embedding of `src/layers/quantization/qlinear_impl.cpp`:
the column- and row-parallel quantized linear layers, their constructors,
the direct and the fused checkpoint loading paths and the completeness check;
of the factories of `src/layers/linear.cpp`; of the attention block of
`src/models/huggingface/aquila.h`; of the loop of `src/common/process_group_test.cpp`;
and of the weight codec declared in `src/layers/quantization/qlinear_gptq_impl.h`.

Conventions of the embedding.

* `int64_t` and `int` values are `Int`. A sum, a difference or a product of
  `int64_t` values is reduced to the range of `int64_t` by `wrap64`
  (two's-complement wrap-around modulo `2^64`, which is what the compiled code
  computes). The C++ operators `/` and `%` are the truncating `Int.tdiv` and
  `Int.tmod`; a zero divisor, and the quotient of the least `int64_t` by `-1`,
  are fatal errors.
* A glog `CHECK` that fails aborts the process, and an exception that libtorch
  throws ends the constructor; a computation that can fail in either way returns
  `Except String _`, the string being the logged message.
* A tensor is its `sizes` together with its elements in row-major order.
  Element types (dtype) and devices are not modelled. `torch::empty` fails on a
  negative dimension, as libtorch does; an allocation with non-negative sizes
  succeeds, exhaustion of memory not being modelled.
-/

namespace llm

/-! ## Machine integers -/

/-- The least value of `int64_t`, `-2^63`. -/
def INT64_MIN : Int := -9223372036854775808

/-- The `int64_t` value of an arithmetic result `x`: the representative of `x`
modulo `2^64` in the range `[-2^63, 2^63)`. -/
def wrap64 (x : Int) : Int :=
  (x + 9223372036854775808) % 18446744073709551616 - 9223372036854775808

/-- The C++ sum `a + b` of two `int64_t` values. -/
def add64 (a b : Int) : Int :=
  wrap64 (a + b)

/-- The C++ difference `a - b` of two `int64_t` values. -/
def sub64 (a b : Int) : Int :=
  wrap64 (a - b)

/-- The C++ product `a * b` of two `int64_t` values. -/
def mul64 (a b : Int) : Int :=
  wrap64 (a * b)

/-! ## Tensors -/

/-- A `torch::Tensor` that is defined: sizes and row-major elements.
An undefined tensor (`torch::Tensor{nullptr}`) is `none : Option Tensor`. -/
structure Tensor where
  sizes : List Int
  data : List Int
deriving DecidableEq, Repr

namespace Tensor

/-- Number of elements of a tensor with the given sizes. -/
def numel (sizes : List Int) : Nat :=
  (sizes.map Int.toNat).prod

/-- The tensor of the given sizes whose elements are all zero. -/
def zeros (sizes : List Int) : Tensor :=
  { sizes := sizes, data := List.replicate (numel sizes) 0 }

/-- The call `torch::empty(sizes, options)`. libtorch throws when a dimension is
negative; otherwise the result is a tensor of the requested sizes, whose storage
is uninitialised in C++ and filled with zeros in the model. -/
def empty (sizes : List Int) : Except String Tensor :=
  if sizes.all (fun d => decide (0 ≤ d)) then Except.ok (zeros sizes)
  else Except.error "Trying to create tensor with negative dimension"

/-- The call `dst.copy_(src)` for tensors of equal sizes: the elements of `src`
are written into the storage of `dst`, whose sizes stay. -/
def copy_ (dst src : Tensor) : Tensor :=
  { sizes := dst.sizes, data := src.data }

/-- Row `i` of a tensor seen as a matrix with `c` columns. -/
def row (t : Tensor) (c i : Nat) : List Int :=
  (t.data.drop (i * c)).take c

/-- The call `torch::cat(tensors, dim)` for two-dimensional tensors and `dim` 0 or 1.
`none` stands for the exception libtorch throws: an empty list, a tensor that is
not two-dimensional, or sizes that differ outside `dim`. -/
def cat (tensors : List Tensor) (dim : Int) : Option Tensor :=
  match tensors with
  | [] => none
  | t :: ts =>
    match t.sizes with
    | [r, c] =>
      if dim = 0 then
        if (t :: ts).all (fun u => u.sizes.length == 2 && u.sizes.drop 1 == [c]) then
          some { sizes := [((t :: ts).map (fun u => u.sizes.headD 0)).sum, c],
                 data := ((t :: ts).map (fun u => u.data)).flatten }
        else none
      else if dim = 1 then
        if (t :: ts).all (fun u => u.sizes.length == 2 && u.sizes.take 1 == [r]) then
          some { sizes := [r, ((t :: ts).map (fun u => u.sizes.getD 1 0)).sum],
                 data := ((List.range r.toNat).map (fun i =>
                   ((t :: ts).map (fun u => u.row (u.sizes.getD 1 0).toNat i)).flatten)).flatten }
        else none
      else none
    | _ => none

/-- The call `t.narrow(dim, start, length)` for a two-dimensional tensor and `dim` 0 or 1:
the block of `length` rows (`dim = 0`) or columns (`dim = 1`) starting at `start`. -/
def narrow (t : Tensor) (dim : Int) (start length : Int) : Tensor :=
  match t.sizes with
  | [r, c] =>
    if dim = 0 then
      { sizes := [length, c],
        data := (t.data.drop (start.toNat * c.toNat)).take (length.toNat * c.toNat) }
    else
      { sizes := [r, length],
        data := ((List.range r.toNat).map (fun i =>
          ((t.row c.toNat i).drop start.toNat).take length.toNat)).flatten }
  | _ => t

end Tensor

/-! ## The checkpoint store -/

/-- The lookup contract of `StateDict` that the layers consume:
`get_sharded_tensor(name, dim, rank, world_size)` returns a tensor, or the
undefined tensor (`none`) when the name is absent. -/
structure StateDict where
  get_sharded_tensor : String → Int → Int → Int → Option Tensor

/-- Modelled from the spec: `StateDict::get_sharded_tensor` over a dictionary of
named tensors (`model_loader/state_dict.h` is not part of the excerpt). It
returns the rank-th contiguous slice along `dim` of the named tensor, each slice
holding `size(dim) / world_size` rows or columns, or the undefined tensor
if the name is absent. -/
def StateDict.ofDict (dict : List (String × Tensor)) : StateDict where
  get_sharded_tensor := fun name dim rank world_size =>
    match dict.lookup name with
    | none => none
    | some t =>
      let chunk := (t.sizes.getD dim.toNat 0).tdiv world_size
      some (t.narrow dim (rank * chunk) chunk)

/-! ## Fatal checks and construction -/

/-- The registry of a `torch::nn::Module`: the parameters registered so far. -/
structure Module where
  parameters : List (String × Tensor)
deriving DecidableEq, Repr

/-- A constructor body. It runs on the registry of the module under construction
and either returns a value or aborts with a message; in both cases the registry
as it stands at that point is returned too. -/
def Ctor (α : Type) : Type :=
  Module → Except String α × Module

/-- Sequencing of constructor statements: an abort skips what follows. -/
def Ctor.bind {α β : Type} (x : Ctor α) (f : α → Ctor β) : Ctor β :=
  fun m =>
    match x m with
    | (Except.ok a, m1) => f a m1
    | (Except.error e, m1) => (Except.error e, m1)

instance : Monad Ctor where
  pure := fun a m => (Except.ok a, m)
  bind := Ctor.bind

/-- The glog macro `CHECK(cond) << msg` inside a constructor. -/
def Ctor.CHECK (cond : Bool) (msg : String) : Ctor Unit :=
  fun m => if cond then (Except.ok (), m) else (Except.error msg, m)

/-- The C++ quotient `a / b` on `int64_t`; a zero divisor kills the process, and so
does the quotient of the least `int64_t` by `-1`, which `int64_t` cannot hold. -/
def Ctor.div (a b : Int) : Ctor Int :=
  fun m =>
    if b = 0 then (Except.error "integer division by zero", m)
    else if a = INT64_MIN ∧ b = -1 then (Except.error "integer division overflow", m)
    else (Except.ok (a.tdiv b), m)

/-- The C++ remainder `a % b` on `int64_t`; a zero divisor kills the process, and so
does the remainder of the least `int64_t` by `-1`, whose quotient `int64_t` cannot
hold. -/
def Ctor.mod (a b : Int) : Ctor Int :=
  fun m =>
    if b = 0 then (Except.error "integer division by zero", m)
    else if a = INT64_MIN ∧ b = -1 then (Except.error "integer division overflow", m)
    else (Except.ok (a.tmod b), m)

/-- A library call inside a constructor body: an exception it throws ends the
constructor, the registry staying as it is. -/
def Ctor.lift {α : Type} (x : Except String α) : Ctor α :=
  fun m => (x, m)

/-- The call `register_parameter(name, tensor, requires_grad)`: the tensor is entered
in the registry and returned. -/
def register_parameter (name : String) (tensor : Tensor) : Ctor Tensor :=
  fun m => (Except.ok tensor, { parameters := m.parameters ++ [(name, tensor)] })

/-- The helper `round_up(num, multiple)` of `qlinear_impl.cpp`, whose body is
`(num + multiple - 1) / multiple` in `int64_t`. It is called only after
`CHECK(group_size > 0)`, with a positive `multiple`, where the quotient cannot
trap. -/
def round_up (num multiple : Int) : Int :=
  (sub64 (add64 num multiple) 1).tdiv multiple

/-- The glog macro `CHECK(cond) << msg` outside a constructor. -/
def CHECK (cond : Bool) (msg : String) : Except String Unit :=
  if cond then Except.ok () else Except.error msg

/-- Modelled from the spec: the initial value of the members `qweight_is_loaded_`,
`qzeros_is_loaded_` and `scales_is_loaded_`, whose declarations are in
`qlinear_impl.h`, outside the excerpt. Each flag is initially false. -/
def is_loaded_initial : Bool := false

/-- Modelled from the spec: the initial value of the members `qweight_list_`,
`qzeros_list_` and `scales_list_`, whose declarations are in `qlinear_impl.h`,
outside the excerpt. An accumulator starts with no slot. -/
def weight_list_initial : List (Option Tensor) := []

/-! ## Column-parallel quantized linear layer -/

/-- State of a `ColumnParallelQLinearImpl`. The members are declared in
`qlinear_impl.h`, which is not part of the excerpt; they are the ones the
member functions of `qlinear_impl.cpp` read and write. -/
structure ColumnParallelQLinearImpl where
  qweight_ : Tensor
  qzeros_ : Tensor
  scales_ : Tensor
  qweight_is_loaded_ : Bool
  qzeros_is_loaded_ : Bool
  scales_is_loaded_ : Bool
  qweight_list_ : List (Option Tensor)
  qzeros_list_ : List (Option Tensor)
  scales_list_ : List (Option Tensor)
  rank_ : Int
  world_size_ : Int
deriving DecidableEq, Repr

namespace ColumnParallelQLinearImpl

/-- The value of `name()` in the log messages. -/
def name : String := "ColumnParallelQLinearImpl"

/-- The constructor `ColumnParallelQLinearImpl::ColumnParallelQLinearImpl`. The members
it does not assign keep their initial values `is_loaded_initial` and
`weight_list_initial`. -/
def ctor (in_features out_features bits group_size qweight_pack_dim rank world_size : Int) :
    Ctor ColumnParallelQLinearImpl := do
  Ctor.CHECK (decide (group_size > 0)) "group_size must be positive"
  Ctor.CHECK (qweight_pack_dim == 0 || qweight_pack_dim == 1) "qweight_pack_dim must be 0 or 1"
  let rem ← Ctor.mod out_features world_size
  Ctor.CHECK (rem == 0)
    ("out_features " ++ toString out_features ++ " not divisible by world_size "
      ++ toString world_size)
  let out_features_per_partition ← Ctor.div out_features world_size
  let pack_factor ← Ctor.div 32 bits
  let qweight_ ←
    if qweight_pack_dim == 0 then do
      let rows ← Ctor.div in_features pack_factor
      let qweight ← Ctor.lift (Tensor.empty [rows, out_features_per_partition])
      register_parameter "qweight" qweight
    else do
      let cols ← Ctor.div out_features_per_partition pack_factor
      let qweight ← Ctor.lift (Tensor.empty [in_features, cols])
      register_parameter "qweight" qweight
  let zcols ← Ctor.div out_features_per_partition pack_factor
  let qzeros ← Ctor.lift (Tensor.empty [round_up in_features group_size, zcols])
  let qzeros_ ← register_parameter "qzeros" qzeros
  let scales ← Ctor.lift
    (Tensor.empty [round_up in_features group_size, out_features_per_partition])
  let scales_ ← register_parameter "scales" scales
  return { qweight_ := qweight_, qzeros_ := qzeros_, scales_ := scales_,
           qweight_is_loaded_ := is_loaded_initial, qzeros_is_loaded_ := is_loaded_initial,
           scales_is_loaded_ := is_loaded_initial,
           qweight_list_ := weight_list_initial, qzeros_list_ := weight_list_initial,
           scales_list_ := weight_list_initial,
           rank_ := rank, world_size_ := world_size }

/-- Construction of a layer: the constructor body run on an empty registry. -/
def construct (in_features out_features bits group_size qweight_pack_dim rank world_size : Int) :
    Except String ColumnParallelQLinearImpl × Module :=
  ctor in_features out_features bits group_size qweight_pack_dim rank world_size
    { parameters := [] }

/-- The direct-mode `ColumnParallelQLinearImpl::load_state_dict(state_dict)`. -/
def load_state_dict (self : ColumnParallelQLinearImpl) (state_dict : StateDict) :
    Except String ColumnParallelQLinearImpl := do
  let qweight := state_dict.get_sharded_tensor "qweight" 1 self.rank_ self.world_size_
  let self ← match qweight with
    | some qweight => do
      CHECK (self.qweight_.sizes == qweight.sizes) ("qweight size mismatch for " ++ name)
      pure { self with qweight_ := self.qweight_.copy_ qweight, qweight_is_loaded_ := true }
    | none => pure self
  let qzeros := state_dict.get_sharded_tensor "qzeros" 1 self.rank_ self.world_size_
  let self ← match qzeros with
    | some qzeros => do
      CHECK (self.qzeros_.sizes == qzeros.sizes) ("qzeros size mismatch for " ++ name)
      pure { self with qzeros_ := self.qzeros_.copy_ qzeros, qzeros_is_loaded_ := true }
    | none => pure self
  let scales := state_dict.get_sharded_tensor "scales" 1 self.rank_ self.world_size_
  let self ← match scales with
    | some scales => do
      CHECK (self.scales_.sizes == scales.sizes) ("scales size mismatch for " ++ name)
      pure { self with scales_ := self.scales_.copy_ scales, scales_is_loaded_ := true }
    | none => pure self
  return self

/-- The check `ColumnParallelQLinearImpl::verify_loaded_weights(prefix)`. -/
def verify_loaded_weights (self : ColumnParallelQLinearImpl) (prefix_ : String) :
    Except String Unit := do
  CHECK self.qweight_is_loaded_ ("qweight is not loaded for " ++ (prefix_ ++ ".qweight"))
  CHECK self.qzeros_is_loaded_ ("qzeros is not loaded for " ++ (prefix_ ++ ".qzeros"))
  CHECK self.scales_is_loaded_ ("scales is not loaded for " ++ (prefix_ ++ ".scales"))

/-- A run of direct-mode `load_state_dict` calls, one per checkpoint store, in
order; the run stops at the first call that aborts. -/
def load_state_dicts (self : ColumnParallelQLinearImpl) (stores : List StateDict) :
    Except String ColumnParallelQLinearImpl :=
  stores.foldlM (fun layer sd => layer.load_state_dict sd) self

end ColumnParallelQLinearImpl

/-! ## Fused loading -/

namespace details

/-- Filling of the accumulator slots with the sub-tensors of one call. A slot that
does not exist yet is created; a defined sub-tensor for a slot that is already
filled is the fatal duplicate fill. -/
def fill_slots (tensor_name : String) :
    List (Option Tensor) → List (Option Tensor) → Except String (List (Option Tensor))
  | [], accumulated => Except.ok accumulated
  | weights, [] => Except.ok weights
  | none :: weights, a :: accumulated =>
    (fill_slots tensor_name weights accumulated).map (fun rest => a :: rest)
  | some w :: weights, none :: accumulated =>
    (fill_slots tensor_name weights accumulated).map (fun rest => some w :: rest)
  | some _ :: _, some _ :: _ => Except.error (tensor_name ++ " weight already loaded")

/-- Modelled from the spec: `details::merge_weights(tensor_name, weight_list, dim,
clone, accumulated_weight_list, weight)`, which is defined outside the excerpt.
Each defined sub-tensor of `weight_list` goes into the slot of its prefix in the
accumulator, a second fill of a slot being fatal. When every slot is filled the
slot tensors are concatenated in prefix order along `dim`, the result must have
the sizes of the pre-allocated `weight` and is copied into it, and the
parameter counts as loaded; otherwise it does not. The result is the returned
flag with the new values of the two reference arguments. -/
def merge_weights (tensor_name : String) (weight_list : List (Option Tensor)) (dim : Int)
    ( clone : Bool) (accumulated_weight_list : List (Option Tensor)) (weight : Tensor) :
    Except String (Bool × List (Option Tensor) × Tensor) := do
  let _ := clone
  let accumulated ← fill_slots tensor_name weight_list accumulated_weight_list
  if accumulated.all Option.isSome then
    match Tensor.cat (accumulated.filterMap id) dim with
    | none => Except.error ("cannot concatenate the weights of " ++ tensor_name)
    | some merged_weight =>
      CHECK (weight.sizes == merged_weight.sizes) ("weight size mismatch for " ++ tensor_name)
      pure (true, accumulated, weight.copy_ merged_weight)
  else
    pure (false, accumulated, weight)

end details

namespace ColumnParallelQLinearImpl

/-- The statement `if (t.defined()) { CHECK(!list[i].defined()) << msg; list[i] = t; }`
of the prefix loop. -/
def assign_slot (list : List (Option Tensor)) (i : Nat) (t : Option Tensor) (msg : String) :
    Except String (List (Option Tensor)) :=
  match t with
  | some t => do
    CHECK (list.getD i none).isNone msg
    pure (list.set i (some t))
  | none => pure list

/-- Body of the prefix loop of the fused `load_state_dict`, for index `i`, on the
three local lists. -/
def fused_loop_body (self : ColumnParallelQLinearImpl) (state_dict : StateDict)
    (prefixes : List String)
    (lists : List (Option Tensor) × List (Option Tensor) × List (Option Tensor)) (i : Nat) :
    Except String (List (Option Tensor) × List (Option Tensor) × List (Option Tensor)) := do
  let tensor_name := prefixes.getD i "" ++ "qweight"
  let qweight := state_dict.get_sharded_tensor tensor_name 1 self.rank_ self.world_size_
  let qweight_list ← assign_slot lists.1 i qweight "qweight already loaded"
  let tensor_name := prefixes.getD i "" ++ "qzeros"
  let qzeros := state_dict.get_sharded_tensor tensor_name 1 self.rank_ self.world_size_
  let qzeros_list ← assign_slot lists.2.1 i qzeros "qzeros already loaded"
  let tensor_name := prefixes.getD i "" ++ "scales"
  let scales := state_dict.get_sharded_tensor tensor_name 1 self.rank_ self.world_size_
  let scales_list ← assign_slot lists.2.2 i scales "scales already loaded"
  pure (qweight_list, qzeros_list, scales_list)

/-- The fused-mode `ColumnParallelQLinearImpl::load_state_dict(state_dict, prefixes)`. -/
def load_state_dict_fused (self : ColumnParallelQLinearImpl) (state_dict : StateDict)
    (prefixes : List String) : Except String ColumnParallelQLinearImpl := do
  let count := prefixes.length
  let lists ← (List.range count).foldlM (fused_loop_body self state_dict prefixes)
    (List.replicate count none, List.replicate count none, List.replicate count none)
  let (qweight_is_loaded, qweight_list, qweight) ←
    details.merge_weights name lists.1 1 true self.qweight_list_ self.qweight_
  let self := { self with qweight_is_loaded_ := qweight_is_loaded,
                          qweight_list_ := qweight_list, qweight_ := qweight }
  let (qzeros_is_loaded, qzeros_list, qzeros) ←
    details.merge_weights name lists.2.1 1 true self.qzeros_list_ self.qzeros_
  let self := { self with qzeros_is_loaded_ := qzeros_is_loaded,
                          qzeros_list_ := qzeros_list, qzeros_ := qzeros }
  let (scales_is_loaded, scales_list, scales) ←
    details.merge_weights name lists.2.2 1 true self.scales_list_ self.scales_
  let self := { self with scales_is_loaded_ := scales_is_loaded,
                          scales_list_ := scales_list, scales_ := scales }
  return self

/-- A run of fused-mode `load_state_dict` calls with one prefix list, one call
per checkpoint store, in order; the run stops at the first call that aborts. -/
def load_state_dicts_fused (self : ColumnParallelQLinearImpl) (stores : List StateDict)
    (prefixes : List String) : Except String ColumnParallelQLinearImpl :=
  stores.foldlM (fun layer sd => layer.load_state_dict_fused sd prefixes) self

/-- The sub-tensor a run of fused calls obtains for the slot of prefix `p` of the
parameter `param`: the first defined tensor the stores return for it. -/
def slot_tensor (self : ColumnParallelQLinearImpl) (stores : List StateDict) (param : String)
    (p : String) : Option Tensor :=
  stores.findSome? (fun sd => sd.get_sharded_tensor (p ++ param) 1 self.rank_ self.world_size_)

end ColumnParallelQLinearImpl

/-! ## Row-parallel quantized linear layer -/

/-- State of a `RowParallelQLinearImpl`; the members are declared in
`qlinear_impl.h`, which is not part of the excerpt. -/
structure RowParallelQLinearImpl where
  qweight_ : Tensor
  qzeros_ : Tensor
  scales_ : Tensor
  qweight_is_loaded_ : Bool
  qzeros_is_loaded_ : Bool
  scales_is_loaded_ : Bool
  rank_ : Int
  world_size_ : Int
deriving DecidableEq, Repr

namespace RowParallelQLinearImpl

/-- The value of `name()` in the log messages. -/
def name : String := "RowParallelQLinearImpl"

/-- The constructor `RowParallelQLinearImpl::RowParallelQLinearImpl`. The members it
does not assign keep their initial value `is_loaded_initial`. -/
def ctor (in_features out_features bits group_size qweight_pack_dim rank world_size : Int) :
    Ctor RowParallelQLinearImpl := do
  Ctor.CHECK (decide (group_size > 0)) "group_size must be positive"
  Ctor.CHECK (qweight_pack_dim == 0 || qweight_pack_dim == 1) "qweight_pack_dim must be 0 or 1"
  let rem ← Ctor.mod in_features world_size
  Ctor.CHECK (rem == 0)
    ("in_features " ++ toString in_features ++ " not divisible by world_size "
      ++ toString world_size)
  let in_features_per_partition ← Ctor.div in_features world_size
  let pack_factor ← Ctor.div 32 bits
  let qweight_ ←
    if qweight_pack_dim == 0 then do
      let rows ← Ctor.div in_features_per_partition pack_factor
      let qweight ← Ctor.lift (Tensor.empty [rows, out_features])
      register_parameter "qweight" qweight
    else do
      let cols ← Ctor.div out_features pack_factor
      let qweight ← Ctor.lift (Tensor.empty [in_features_per_partition, cols])
      register_parameter "qweight" qweight
  let zcols ← Ctor.div out_features pack_factor
  let qzeros ← Ctor.lift
    (Tensor.empty [round_up in_features_per_partition group_size, zcols])
  let qzeros_ ← register_parameter "qzeros" qzeros
  let scales ← Ctor.lift
    (Tensor.empty [round_up in_features_per_partition group_size, out_features])
  let scales_ ← register_parameter "scales" scales
  return { qweight_ := qweight_, qzeros_ := qzeros_, scales_ := scales_,
           qweight_is_loaded_ := is_loaded_initial, qzeros_is_loaded_ := is_loaded_initial,
           scales_is_loaded_ := is_loaded_initial, rank_ := rank, world_size_ := world_size }

/-- Construction of a layer: the constructor body run on an empty registry. -/
def construct (in_features out_features bits group_size qweight_pack_dim rank world_size : Int) :
    Except String RowParallelQLinearImpl × Module :=
  ctor in_features out_features bits group_size qweight_pack_dim rank world_size
    { parameters := [] }

/-- The direct-mode `RowParallelQLinearImpl::load_state_dict(state_dict)`. -/
def load_state_dict (self : RowParallelQLinearImpl) (state_dict : StateDict) :
    Except String RowParallelQLinearImpl := do
  let qweight := state_dict.get_sharded_tensor "qweight" 0 self.rank_ self.world_size_
  let self ← match qweight with
    | some qweight => do
      CHECK (self.qweight_.sizes == qweight.sizes) ("qweight size mismatch for " ++ name)
      pure { self with qweight_ := self.qweight_.copy_ qweight, qweight_is_loaded_ := true }
    | none => pure self
  let qzeros := state_dict.get_sharded_tensor "qzeros" 0 self.rank_ self.world_size_
  let self ← match qzeros with
    | some qzeros => do
      CHECK (self.qzeros_.sizes == qzeros.sizes) ("qzeros size mismatch for " ++ name)
      pure { self with qzeros_ := self.qzeros_.copy_ qzeros, qzeros_is_loaded_ := true }
    | none => pure self
  let scales := state_dict.get_sharded_tensor "scales" 0 self.rank_ self.world_size_
  let self ← match scales with
    | some scales => do
      CHECK (self.scales_.sizes == scales.sizes) ("scales size mismatch for " ++ name)
      pure { self with scales_ := self.scales_.copy_ scales, scales_is_loaded_ := true }
    | none => pure self
  return self

/-- The check `RowParallelQLinearImpl::verify_loaded_weights(prefix)`. -/
def verify_loaded_weights (self : RowParallelQLinearImpl) (prefix_ : String) :
    Except String Unit := do
  CHECK self.qweight_is_loaded_ ("qweight is not loaded for " ++ (prefix_ ++ ".qweight"))
  CHECK self.qzeros_is_loaded_ ("qzeros is not loaded for " ++ (prefix_ ++ ".qzeros"))
  CHECK self.scales_is_loaded_ ("scales is not loaded for " ++ (prefix_ ++ ".scales"))

/-- A run of direct-mode `load_state_dict` calls, one per checkpoint store, in
order; the run stops at the first call that aborts. -/
def load_state_dicts (self : RowParallelQLinearImpl) (stores : List StateDict) :
    Except String RowParallelQLinearImpl :=
  stores.foldlM (fun layer sd => layer.load_state_dict sd) self

end RowParallelQLinearImpl

/-! ## The factories of `linear.cpp` -/

/-- Modelled from the spec: the fields of `QuantizationArgs` (declared in
`models/args.h`, outside the excerpt) that the factories read: the quantization
method, the bits and the group size. -/
structure QuantizationArgs where
  quant_method : String
  bits : Int
  group_size : Int
deriving DecidableEq, Repr

/-- Modelled from the spec: the value-initialised `QuantizationArgs` that the argument
`{}` denotes (the class is declared in `models/args.h`, outside the excerpt): no
quantization is configured, the method is the empty string. -/
def QuantizationArgs.value_initialized : QuantizationArgs :=
  { quant_method := "", bits := 0, group_size := 0 }

/-- Modelled from the spec: the fields of `ParallelArgs` (declared outside the excerpt):
the rank and the world size; the process group reference is left out. -/
structure ParallelArgs where
  rank : Int
  world_size : Int
deriving DecidableEq, Repr

/-- The object that `std::make_shared<...>` builds in a factory: the implementation
class, one constructor per class, with the constructor arguments (dtype and device
apart). -/
inductive ParallelLinearImpl where
  | ColumnParallelQuantLinearImpl (in_features out_features bits group_size : Int)
      (gather_output : Bool) (parallel_args : ParallelArgs)
  | ColumnParallelLinearImpl (in_features out_features : Int) (gather_output : Bool)
      (parallel_args : ParallelArgs)
  | RowParallelQuantLinearImpl (in_features out_features bits group_size : Int)
      (input_is_parallelized : Bool) (parallel_args : ParallelArgs)
  | RowParallelLinearImpl (in_features out_features : Int) (input_is_parallelized : Bool)
      (parallel_args : ParallelArgs)
deriving DecidableEq, Repr

/-- The factory `create_column_parallel_linear` of `linear.cpp`. -/
def create_column_parallel_linear (in_features out_features : Int) (gather_output : Bool)
    (quant_args : QuantizationArgs) (parallel_args : ParallelArgs) : ParallelLinearImpl :=
  if quant_args.quant_method == "gptq" then
    ParallelLinearImpl.ColumnParallelQuantLinearImpl in_features out_features
      quant_args.bits quant_args.group_size gather_output parallel_args
  else
    ParallelLinearImpl.ColumnParallelLinearImpl in_features out_features gather_output
      parallel_args

/-- The factory `create_row_parallel_linear` of `linear.cpp`. -/
def create_row_parallel_linear (in_features out_features : Int) (input_is_parallelized : Bool)
    (quant_args : QuantizationArgs) (parallel_args : ParallelArgs) : ParallelLinearImpl :=
  if quant_args.quant_method == "gptq" then
    ParallelLinearImpl.RowParallelQuantLinearImpl in_features out_features
      quant_args.bits quant_args.group_size input_is_parallelized parallel_args
  else
    ParallelLinearImpl.RowParallelLinearImpl in_features out_features input_is_parallelized
      parallel_args

/-- The module holder `ColumnParallelLinear`: it holds the implementation a factory
built. -/
structure ColumnParallelLinear where
  impl : ParallelLinearImpl
deriving DecidableEq, Repr

/-- The constructor of `ColumnParallelLinear` that takes quantization arguments. -/
def ColumnParallelLinear.ctor (in_features out_features : Int) (gather_output : Bool)
    (quant_args : QuantizationArgs) (parallel_args : ParallelArgs) : ColumnParallelLinear :=
  { impl := create_column_parallel_linear in_features out_features gather_output quant_args
      parallel_args }

/-- The constructor of `ColumnParallelLinear` that takes no quantization arguments: it
passes `{}` to the factory. -/
def ColumnParallelLinear.ctor_no_quant (in_features out_features : Int) (gather_output : Bool)
    (parallel_args : ParallelArgs) : ColumnParallelLinear :=
  { impl := create_column_parallel_linear in_features out_features gather_output
      QuantizationArgs.value_initialized parallel_args }

/-- The module holder `RowParallelLinear`. -/
structure RowParallelLinear where
  impl : ParallelLinearImpl
deriving DecidableEq, Repr

/-- The constructor of `RowParallelLinear`. -/
def RowParallelLinear.ctor (in_features out_features : Int) (input_is_parallelized : Bool)
    (quant_args : QuantizationArgs) (parallel_args : ParallelArgs) : RowParallelLinear :=
  { impl := create_row_parallel_linear in_features out_features input_is_parallelized
      quant_args parallel_args }

/-! ## The weight codec -/

namespace Tensor

/-- The two-dimensional tensor with `rows` rows and `cols` columns whose element
`(i, j)` is `f i j`. -/
def tabulate (rows cols : Nat) (f : Nat → Nat → Int) : Tensor :=
  { sizes := [(rows : Int), (cols : Int)],
    data := ((List.range rows).map (fun i => (List.range cols).map (fun j => f i j))).flatten }

/-- Element `(i, j)` of a two-dimensional tensor. -/
def get2 (t : Tensor) (i j : Nat) : Int :=
  t.data.getD (i * (t.sizes.getD 1 0).toNat + j) 0

end Tensor

namespace details

/-- Modelled from the spec: the unsigned sub-value number `k` (in packing order
0 .. pack_factor - 1) of `bits` bits of a packed 32-bit word. -/
def unpack_word (word : Int) (bits k : Nat) : Int :=
  ((word % 2 ^ 32) / 2 ^ (bits * k)) % 2 ^ bits

/-- Modelled from the spec: `unpack(qweight)[i, j]`, the weights being packed along
dimension 0, `32 / bits` to a word. -/
def unpack_qweight (qweights : Tensor) (bits i j : Nat) : Int :=
  unpack_word (qweights.get2 (i / (32 / bits)) j) bits (i % (32 / bits))

/-- Modelled from the spec: `unpack(qzeros)[g, j]`, the zero-points being packed
along dimension 1, `32 / bits` to a word. -/
def unpack_qzeros (qzeros : Tensor) (bits g j : Nat) : Int :=
  unpack_word (qzeros.get2 g (j / (32 / bits))) bits (j % (32 / bits))

/-- Modelled from the spec: the dequantized matrix `[in_features, out_features]` for
a map `group` from input features to groups, with
`weight[i, j] = scales[group i, j] * (unpack(qweight)[i, j] - unpack(qzeros)[group i, j])`.
The bodies of both `construct_weights` overloads are outside the excerpt; the
scales are taken as exact numbers. -/
def dequantize (qweights qzeros scales : Tensor) (bits : Nat) (group : Nat → Nat) : Tensor :=
  Tensor.tabulate ((qweights.sizes.getD 0 0).toNat * (32 / bits)) (qweights.sizes.getD 1 0).toNat
    (fun i j => scales.get2 (group i) j *
      (unpack_qweight qweights bits i j - unpack_qzeros qzeros bits (group i) j))

/-- Modelled from the spec: the overload `construct_weights(qweights, qzeros, scales,
g_idx, bits)`, declared in `qlinear_gptq_impl.h`: the group of input feature `i` is
`g_idx[i]`. -/
def construct_weights (qweights qzeros scales g_idx : Tensor) (bits : Nat) : Tensor :=
  dequantize qweights qzeros scales bits (fun i => (g_idx.data.getD i 0).toNat)

/-- Modelled from the spec: the overload `construct_weights(qweights, qzeros, scales,
bits)` without `g_idx`, declared in `qlinear_gptq_impl.h`: the group of input feature
`i` is `i / group_size`. The group size, which the declared signature leaves to the
sizes of the tensors, is a parameter. -/
def construct_weights_no_g_idx (qweights qzeros scales : Tensor) (bits group_size : Nat) :
    Tensor :=
  dequantize qweights qzeros scales bits (fun i => i / group_size)

end details

/-! ## The process group and its test -/

namespace Tensor

/-- The call `torch::zeros_like(t)`. -/
def zeros_like (t : Tensor) : Tensor :=
  { sizes := t.sizes, data := t.data.map (fun _ => 0) }

/-- The statement `a += b` for tensors of equal sizes. -/
def add (a b : Tensor) : Tensor :=
  { sizes := a.sizes, data := List.zipWith (fun x y => x + y) a.data b.data }

end Tensor

/-- Modelled from the spec: a `ProcessGroup` (declared in `process_group.h`, outside
the excerpt): the rank of the member and the world size. -/
structure ProcessGroup where
  rank : Nat
  world_size : Nat
deriving DecidableEq, Repr

/-- Modelled from the spec: one lock-step `allreduce`, in which rank `r` of the group
passes `inputs[r]`: afterwards the tensor of every rank holds, element by element,
the sum over the ranks. The elements are exact numbers. -/
def ProcessGroup.allreduce (inputs : List Tensor) : List Tensor :=
  inputs.map (fun t =>
    { sizes := t.sizes,
      data := (List.range t.data.length).map (fun k =>
        (inputs.map (fun u => u.data.getD k 0)).sum) })

/-- The inner loop `for (j = 0; j < world_size; ++j) expected += tensors[i + j]` of
`all_reduce_test`; an index outside the vector is fatal. -/
def all_reduce_expected (tensors : List Tensor) (i : Nat) :
    Nat → Tensor → Except String Tensor
  | 0, expected => Except.ok expected
  | j + 1, expected => do
    let acc ← all_reduce_expected tensors i j expected
    match tensors[i + j]? with
    | some t => Except.ok (acc.add t)
    | none => Except.error "index out of range"

/-- Body of the outer loop of `all_reduce_test` for the window start `i`, all ranks
running it in lock-step: the tensor of this rank after the collective is compared
with the expected sum. The result is the value passed to `EXPECT_TRUE`. -/
def all_reduce_step (tensors : List Tensor) (pg : ProcessGroup) (i : Nat) :
    Except String Bool := do
  let inputs ← (List.range pg.world_size).mapM (fun r =>
    match tensors[i + r]? with
    | some t => Except.ok t
    | none => Except.error "index out of range")
  let tensor ← match (ProcessGroup.allreduce inputs)[pg.rank]? with
    | some t => Except.ok t
    | none => Except.error "rank outside the group"
  let first ← match tensors[i]? with
    | some t => Except.ok t
    | none => Except.error "index out of range"
  let expected ← all_reduce_expected tensors i pg.world_size first.zeros_like
  pure (decide (tensor = expected))

/-- The function `all_reduce_test(tensors, pg)`: the loop
`for (int i = 0; i <= tensors.size() - world_size; ++i)`, whose bound is computed in
`size_t`, modulo `2 ^ 64`. The result lists the values passed to `EXPECT_TRUE`. -/
def all_reduce_test (tensors : List Tensor) (pg : ProcessGroup) : Except String (List Bool) :=
  (List.range ((tensors.length + 2 ^ 64 - pg.world_size) % 2 ^ 64 + 1)).mapM
    (all_reduce_step tensors pg)

/-! ## The Aquila attention block -/

/-- Modelled from the spec: `StateDict::select(prefix)` (declared in
`model_loader/state_dict.h`, outside the excerpt): a view of the store in which a
lookup of `name` is the lookup of `prefix + name`. -/
def StateDict.select (sd : StateDict) (prefix_ : String) : StateDict where
  get_sharded_tensor := fun name dim rank world_size =>
    sd.get_sharded_tensor (prefix_ ++ name) dim rank world_size

/-- A sub-object constructed inside a constructor body: its constructor runs on a
registry of its own, and its abort aborts the enclosing constructor. -/
def Ctor.sub {α : Type} (x : Except String α × Module) : Ctor α :=
  fun m => (x.1, m)

namespace hf

/-- Modelled from the spec: the fields of `ModelArgs` (declared in `models/args.h`,
outside the excerpt) that the Aquila attention constructor reads. -/
structure ModelArgs where
  hidden_size : Int
  n_heads : Int
  n_kv_heads : Option Int
deriving DecidableEq, Repr

/-- State of an `AquilaAttentionImpl` with GPTQ quantization configured, where the
holders `qkv_proj_` and `o_proj_` forward to the quantized layers. The attention
module `atten_`, which holds no parameter, is left out. -/
structure AquilaAttentionImpl where
  qkv_proj_ : ColumnParallelQLinearImpl
  o_proj_ : RowParallelQLinearImpl
  n_local_heads_ : Int
  n_local_kv_heads_ : Int
  head_dim_ : Int
  qkv_sizes_ : List Int
deriving DecidableEq, Repr

namespace AquilaAttentionImpl

/-- The `out_features` argument the constructor passes for `qkv_proj_`, the
`int64_t` expression `(n_heads + 2 * n_kv_heads) * head_dim_`. -/
def qkv_out_features (n_heads n_kv_heads head_dim : Int) : Int :=
  mul64 (add64 n_heads (mul64 2 n_kv_heads)) head_dim

/-- The initialiser of `qkv_sizes_`: the sizes of the q, k and v parts of the output of
`qkv_proj_`, each an `int64_t` product. -/
def qkv_sizes (n_local_heads n_local_kv_heads head_dim : Int) : List Int :=
  [mul64 n_local_heads head_dim, mul64 n_local_kv_heads head_dim,
    mul64 n_local_kv_heads head_dim]

/-- Modelled from the spec: the construction `ColumnParallelLinear(in_features,
out_features, bias, gather_output, quant_args, parallel_args, dtype, device)` that
`aquila.h` performs, with GPTQ quantization configured. The overload with a `bias`
argument and the quantized class that the factory of `linear.cpp` instantiates are
defined outside the excerpt. By the constructor interface of section 6 of the
specification and the configuration errors of its section 7, they are taken to pass
the features, the bits, the group size and the parallel arguments unchanged to the
constructor of `ColumnParallelQLinearImpl`, together with the packing dimension of
the implementation, and to add no check of their own. -/
def construct_qkv_proj (in_features out_features : Int) (quant_args : QuantizationArgs)
    (parallel_args : ParallelArgs) (qweight_pack_dim : Int) :
    Except String ColumnParallelQLinearImpl × Module :=
  ColumnParallelQLinearImpl.construct in_features out_features quant_args.bits
    quant_args.group_size qweight_pack_dim parallel_args.rank parallel_args.world_size

/-- Modelled from the spec: the construction `RowParallelLinear(in_features,
out_features, bias, input_is_parallelized, quant_args, parallel_args, dtype, device)`
that `aquila.h` performs, with GPTQ quantization configured. The overload with a
`bias` argument and the quantized class that the factory of `linear.cpp` instantiates
are defined outside the excerpt; as for `construct_qkv_proj` they are taken to pass
their arguments unchanged to the constructor of `RowParallelQLinearImpl` and to add
no check of their own. -/
def construct_o_proj (in_features out_features : Int) (quant_args : QuantizationArgs)
    (parallel_args : ParallelArgs) (qweight_pack_dim : Int) :
    Except String RowParallelQLinearImpl × Module :=
  RowParallelQLinearImpl.construct in_features out_features quant_args.bits
    quant_args.group_size qweight_pack_dim parallel_args.rank parallel_args.world_size

/-- The constructor `AquilaAttentionImpl::AquilaAttentionImpl` with GPTQ quantization
configured. The two linear layers are built by `construct_qkv_proj` and
`construct_o_proj`; the packing dimension of the quantized implementation is set
outside the excerpt and is a parameter. -/
def ctor (args : ModelArgs) (quant_args : QuantizationArgs) (parallel_args : ParallelArgs)
    (qweight_pack_dim : Int) : Ctor AquilaAttentionImpl := do
  let world_size := parallel_args.world_size
  let hidden_size := args.hidden_size
  let n_heads := args.n_heads
  let n_kv_heads := args.n_kv_heads.getD n_heads
  let n_local_heads_ ← Ctor.div n_heads world_size
  let n_local_kv_heads_ ← Ctor.div n_kv_heads world_size
  let head_dim_ ← Ctor.div hidden_size n_heads
  let qkv_sizes_ := qkv_sizes n_local_heads_ n_local_kv_heads_ head_dim_
  let qkv_proj_ ← Ctor.sub (construct_qkv_proj hidden_size
    (qkv_out_features n_heads n_kv_heads head_dim_) quant_args parallel_args
    qweight_pack_dim)
  let o_proj_ ← Ctor.sub (construct_o_proj hidden_size hidden_size quant_args
    parallel_args qweight_pack_dim)
  return { qkv_proj_ := qkv_proj_, o_proj_ := o_proj_, n_local_heads_ := n_local_heads_,
           n_local_kv_heads_ := n_local_kv_heads_, head_dim_ := head_dim_,
           qkv_sizes_ := qkv_sizes_ }

/-- Construction of an attention block: the constructor body run on an empty registry. -/
def construct (args : ModelArgs) (quant_args : QuantizationArgs) (parallel_args : ParallelArgs)
    (qweight_pack_dim : Int) : Except String AquilaAttentionImpl × Module :=
  ctor args quant_args parallel_args qweight_pack_dim { parameters := [] }

/-- The function `AquilaAttentionImpl::load_state_dict(state_dict)`. -/
def load_state_dict (self : AquilaAttentionImpl) (state_dict : StateDict) :
    Except String AquilaAttentionImpl := do
  let qkv_proj_ ← self.qkv_proj_.load_state_dict_fused state_dict
    ["q_proj.", "k_proj.", "v_proj."]
  let o_proj_ ← self.o_proj_.load_state_dict (state_dict.select "o_proj.")
  return { self with qkv_proj_ := qkv_proj_, o_proj_ := o_proj_ }

/-- The function `AquilaAttentionImpl::verify_loaded_weights(prefix)`. -/
def verify_loaded_weights (self : AquilaAttentionImpl) (prefix_ : String) :
    Except String Unit := do
  self.qkv_proj_.verify_loaded_weights (prefix_ ++ "[q_proj,k_proj,v_proj].")
  self.o_proj_.verify_loaded_weights (prefix_ ++ "o_proj.")

end AquilaAttentionImpl

/-- The statements of `AquilaDecoderLayerImpl::load_state_dict` and
`AquilaDecoderLayerImpl::verify_loaded_weights` for the attention block of a layer
that `AquilaModelImpl` addresses with `layer_prefix_`: the attention block loads
from the view `state_dict.select(layer_prefix_).select("self_attn.")` and is verified
under `layer_prefix_ + "self_attn."`. -/
def load_and_verify_self_attn (self : AquilaAttentionImpl) (state_dict : StateDict)
    (layer_prefix_ : String) : Except String Unit := do
  let self_attn_ ← self.load_state_dict ((state_dict.select layer_prefix_).select "self_attn.")
  self_attn_.verify_loaded_weights (layer_prefix_ ++ "self_attn.")

end hf

/-! ## Example checkpoints -/

/-- A checkpoint that holds `qweight` and `scales` of a layer with 8 input and 6 output
features at 4 bits, and no `qzeros`. -/
def example_partial_store : StateDict :=
  StateDict.ofDict
    [("qweight", { sizes := [1, 6], data := [1, 2, 3, 4, 5, 6] }),
     ("scales", { sizes := [1, 6], data := [7, 8, 9, 10, 11, 12] })]

/-- A checkpoint with separate `q_proj`, `k_proj` and `v_proj` tensors, two output
features each, for a layer with 8 input features at 4 bits in one group. -/
def example_qkv_store : StateDict :=
  StateDict.ofDict
    [("q_proj.qweight", { sizes := [1, 2], data := [1, 2] }),
     ("k_proj.qweight", { sizes := [1, 2], data := [3, 4] }),
     ("v_proj.qweight", { sizes := [1, 2], data := [5, 6] }),
     ("q_proj.qzeros", { sizes := [1, 0], data := [] }),
     ("k_proj.qzeros", { sizes := [1, 0], data := [] }),
     ("v_proj.qzeros", { sizes := [1, 0], data := [] }),
     ("q_proj.scales", { sizes := [1, 2], data := [7, 8] }),
     ("k_proj.scales", { sizes := [1, 2], data := [9, 10] }),
     ("v_proj.scales", { sizes := [1, 2], data := [11, 12] })]

/-- The checkpoint that holds, under the bare parameter names, the tensors of
`example_qkv_store` concatenated along dimension 1 in the order q, k, v. -/
def example_prefused_store : StateDict :=
  StateDict.ofDict
    [("qweight", { sizes := [1, 6], data := [1, 2, 3, 4, 5, 6] }),
     ("qzeros", { sizes := [1, 0], data := [] }),
     ("scales", { sizes := [1, 6], data := [7, 8, 9, 10, 11, 12] })]

/-- The column-parallel layer for 8 input and 6 output features at 4 bits, one group
of 8, packed along dimension 0, on rank 0 of 1, as its constructor leaves it. -/
def example_layer : ColumnParallelQLinearImpl :=
  { qweight_ := Tensor.zeros [1, 6], qzeros_ := Tensor.zeros [1, 0],
    scales_ := Tensor.zeros [1, 6],
    qweight_is_loaded_ := false, qzeros_is_loaded_ := false, scales_is_loaded_ := false,
    qweight_list_ := [], qzeros_list_ := [], scales_list_ := [],
    rank_ := 0, world_size_ := 1 }

/-- The row-parallel layer for 8 input and 6 output features at 4 bits, one group
of 8, packed along dimension 0, on rank 0 of 1, as its constructor leaves it. -/
def example_row_layer : RowParallelQLinearImpl :=
  { qweight_ := Tensor.zeros [1, 6], qzeros_ := Tensor.zeros [1, 0],
    scales_ := Tensor.zeros [1, 6],
    qweight_is_loaded_ := false, qzeros_is_loaded_ := false, scales_is_loaded_ := false,
    rank_ := 0, world_size_ := 1 }

/-- A checkpoint of layer 0 of an Aquila model with hidden size 4, 2 heads, 8 bits and
one group of 4: it holds every tensor of the attention block except
`model.layers.0.self_attn.o_proj.qweight`. -/
def example_aquila_store : StateDict :=
  StateDict.ofDict
    [("model.layers.0.self_attn.q_proj.qweight", Tensor.zeros [1, 4]),
     ("model.layers.0.self_attn.k_proj.qweight", Tensor.zeros [1, 4]),
     ("model.layers.0.self_attn.v_proj.qweight", Tensor.zeros [1, 4]),
     ("model.layers.0.self_attn.q_proj.qzeros", Tensor.zeros [1, 1]),
     ("model.layers.0.self_attn.k_proj.qzeros", Tensor.zeros [1, 1]),
     ("model.layers.0.self_attn.v_proj.qzeros", Tensor.zeros [1, 1]),
     ("model.layers.0.self_attn.q_proj.scales", Tensor.zeros [1, 4]),
     ("model.layers.0.self_attn.k_proj.scales", Tensor.zeros [1, 4]),
     ("model.layers.0.self_attn.v_proj.scales", Tensor.zeros [1, 4]),
     ("model.layers.0.self_attn.o_proj.qzeros", Tensor.zeros [1, 1]),
     ("model.layers.0.self_attn.o_proj.scales", Tensor.zeros [1, 4])]

/-- The checkpoint `example_aquila_store` with the missing
`model.layers.0.self_attn.o_proj.qweight` added. -/
def example_aquila_full_store : StateDict :=
  StateDict.ofDict
    [("model.layers.0.self_attn.q_proj.qweight", Tensor.zeros [1, 4]),
     ("model.layers.0.self_attn.k_proj.qweight", Tensor.zeros [1, 4]),
     ("model.layers.0.self_attn.v_proj.qweight", Tensor.zeros [1, 4]),
     ("model.layers.0.self_attn.q_proj.qzeros", Tensor.zeros [1, 1]),
     ("model.layers.0.self_attn.k_proj.qzeros", Tensor.zeros [1, 1]),
     ("model.layers.0.self_attn.v_proj.qzeros", Tensor.zeros [1, 1]),
     ("model.layers.0.self_attn.q_proj.scales", Tensor.zeros [1, 4]),
     ("model.layers.0.self_attn.k_proj.scales", Tensor.zeros [1, 4]),
     ("model.layers.0.self_attn.v_proj.scales", Tensor.zeros [1, 4]),
     ("model.layers.0.self_attn.o_proj.qweight", Tensor.zeros [1, 4]),
     ("model.layers.0.self_attn.o_proj.qzeros", Tensor.zeros [1, 1]),
     ("model.layers.0.self_attn.o_proj.scales", Tensor.zeros [1, 4])]

/-- The attention block of an Aquila model with hidden size 4, 2 heads, 8 bits, one
group of 4 and packing dimension 0, on rank 0 of 1, as its constructor leaves it. -/
def example_attention : hf.AquilaAttentionImpl :=
  { qkv_proj_ :=
      { qweight_ := Tensor.zeros [1, 12], qzeros_ := Tensor.zeros [1, 3],
        scales_ := Tensor.zeros [1, 12],
        qweight_is_loaded_ := false, qzeros_is_loaded_ := false, scales_is_loaded_ := false,
        qweight_list_ := [], qzeros_list_ := [], scales_list_ := [],
        rank_ := 0, world_size_ := 1 },
    o_proj_ :=
      { qweight_ := Tensor.zeros [1, 4], qzeros_ := Tensor.zeros [1, 1],
        scales_ := Tensor.zeros [1, 4],
        qweight_is_loaded_ := false, qzeros_is_loaded_ := false, scales_is_loaded_ := false,
        rank_ := 0, world_size_ := 1 },
    n_local_heads_ := 2, n_local_kv_heads_ := 2, head_dim_ := 2, qkv_sizes_ := [4, 4, 4] }

/-- The prefix list `AquilaAttentionImpl::load_state_dict` passes to the fused load
of its `qkv_proj` layer. -/
def qkv_prefixes : List String := ["q_proj.", "k_proj.", "v_proj."]

/-! ## Arithmetic of the constructors -/

theorem wrap64_eq (x : Int) (h1 : -2 ^ 63 ≤ x) (h2 : x < 2 ^ 63) : wrap64 x = x := by
  unfold wrap64
  rw [Int.emod_eq_of_lt (by omega) (by omega)]
  omega

theorem wrap64_congr {x y : Int} (h : x % 18446744073709551616 = y % 18446744073709551616) :
    wrap64 x = wrap64 y := by
  unfold wrap64
  omega

theorem wrap64_emod (x : Int) :
    wrap64 x % 18446744073709551616 = x % 18446744073709551616 := by
  unfold wrap64
  omega

theorem wrap64_range (x : Int) : -2 ^ 63 ≤ wrap64 x ∧ wrap64 x < 2 ^ 63 := by
  unfold wrap64
  omega

theorem round_up_eq_wrap (n m : Int) : round_up n m = (wrap64 (n + m - 1)).tdiv m := by
  unfold round_up sub64 add64
  rw [wrap64_congr (x := wrap64 (n + m) - 1) (y := n + m - 1)]
  have := wrap64_emod (n + m)
  omega

theorem round_up_of_bound (n m : Int) (h1 : -2 ^ 63 ≤ n + m - 1) (h2 : n + m - 1 < 2 ^ 63) :
    round_up n m = (n + m - 1).tdiv m := by
  rw [round_up_eq_wrap, wrap64_eq _ h1 h2]

theorem round_up_nonneg (n m : Int) (hn : 0 ≤ n) (hm : 0 < m) (hb : n + m - 1 < 2 ^ 63) :
    0 ≤ round_up n m := by
  rw [round_up_of_bound n m (by omega) hb]
  exact Int.tdiv_nonneg (by omega) (by omega)

theorem round_up_eq_ceil (n m : Int) (hn : 0 ≤ n) (hm : 0 < m) (hb : n + m - 1 < 2 ^ 63) :
    round_up n m = ⌈(n : ℚ) / (m : ℚ)⌉ := by
  have hq : (0 : ℚ) < (m : ℚ) := by exact_mod_cast hm
  rw [round_up_of_bound n m (by omega) hb]
  rw [Int.tdiv_eq_ediv (by omega) (by omega)]
  symm
  rw [Int.ceil_eq_iff]
  have h1 : (n + m - 1) / m * m ≤ n + m - 1 := Int.ediv_mul_le _ (by omega)
  have h2 : n + m - 1 < ((n + m - 1) / m + 1) * m := by
    have := Int.lt_ediv_add_one_mul_self (n + m - 1) hm
    linarith
  constructor
  · rw [lt_div_iff₀ hq]
    have : ((n + m - 1) / m - 1) * m < n := by nlinarith
    exact_mod_cast this
  · rw [div_le_iff₀ hq]
    have : n ≤ (n + m - 1) / m * m := by nlinarith
    exact_mod_cast this

theorem pack_factor_ne_zero {bits : Int} (hb : bits ∣ 32) :
    bits ≠ 0 ∧ (32 : Int).tdiv bits ≠ 0 := by
  obtain ⟨k, hk⟩ := hb
  have h0 : bits ≠ 0 := by
    rintro rfl
    simp at hk
  refine ⟨h0, ?_⟩
  rw [Int.tdiv_eq_ediv_of_dvd ⟨k, hk⟩, hk, Int.mul_ediv_cancel_left _ h0]
  rintro rfl
  simp at hk

theorem pack_factor_pos {bits : Int} (h1 : 0 < bits) (h2 : bits ≤ 32) :
    0 < (32 : Int).tdiv bits := by
  interval_cases bits <;> decide

namespace ColumnParallelQLinearImpl

theorem column_construct_error (in_features out_features bits group_size qweight_pack_dim rank
    world_size : Int)
    (h : ¬ (0 < group_size ∧ (qweight_pack_dim = 0 ∨ qweight_pack_dim = 1) ∧ world_size ≠ 0 ∧
      out_features.tmod world_size = 0 ∧ bits ≠ 0 ∧ (32 : Int).tdiv bits ≠ 0)) :
    ∃ msg, construct in_features out_features bits group_size qweight_pack_dim rank world_size =
      (Except.error msg, { parameters := [] }) := by
  by_cases hg : 0 < group_size
  swap
  · simp [construct, ctor, bind, Ctor.bind, Ctor.CHECK, hg]
  by_cases hp : qweight_pack_dim = 0 ∨ qweight_pack_dim = 1
  swap
  · push_neg at hp
    simp [construct, ctor, bind, Ctor.bind, Ctor.CHECK, hg, hp.1, hp.2]
  by_cases hw : world_size = 0
  · rcases hp with rfl | rfl <;>
    simp [construct, ctor, bind, Ctor.bind, Ctor.CHECK, Ctor.mod, hg, hw]
  by_cases ht : out_features = INT64_MIN ∧ world_size = -1
  · rcases hp with rfl | rfl <;>
    simp [construct, ctor, bind, Ctor.bind, Ctor.CHECK, Ctor.mod, hg, hw, ht.1, ht.2]
  by_cases hd : out_features.tmod world_size = 0
  swap
  · rcases hp with rfl | rfl <;>
    simp [construct, ctor, bind, Ctor.bind, Ctor.CHECK, Ctor.mod, hg, hw, hd, if_neg ht]
  by_cases hb : bits = 0
  · rcases hp with rfl | rfl <;>
    simp [construct, ctor, bind, Ctor.bind, Ctor.CHECK, Ctor.mod, Ctor.div,
      hg, hw, hd, hb, if_neg ht]
  have h32 : ¬ ((32 : Int) = INT64_MIN ∧ bits = -1) := by
    rintro ⟨h1, -⟩
    exact absurd h1 (by decide)
  by_cases hpf : (32 : Int).tdiv bits = 0
  · rcases hp with rfl | rfl <;>
    simp [construct, ctor, bind, Ctor.bind, Ctor.CHECK, Ctor.mod, Ctor.div,
      hg, hw, hd, hb, hpf, if_neg ht, if_neg h32]
  exact absurd ⟨hg, hp, hw, hd, hb, hpf⟩ h

theorem column_construct_inv (in_features out_features bits group_size qweight_pack_dim rank
    world_size : Int) (layer : ColumnParallelQLinearImpl)
    (h : (construct in_features out_features bits group_size qweight_pack_dim rank
      world_size).1 = Except.ok layer) :
    0 < group_size ∧ (qweight_pack_dim = 0 ∨ qweight_pack_dim = 1) ∧ world_size ≠ 0 ∧
    out_features.tmod world_size = 0 ∧ bits ≠ 0 ∧ (32 : Int).tdiv bits ≠ 0 ∧
    0 ≤ round_up in_features group_size ∧ 0 ≤ out_features.tdiv world_size ∧
    0 ≤ (out_features.tdiv world_size).tdiv ((32 : Int).tdiv bits) ∧
    layer =
        { qweight_ := if qweight_pack_dim = 0 then
            Tensor.zeros [in_features.tdiv ((32 : Int).tdiv bits), out_features.tdiv world_size]
            else Tensor.zeros [in_features, (out_features.tdiv world_size).tdiv ((32 : Int).tdiv bits)],
          qzeros_ := Tensor.zeros [round_up in_features group_size,
            (out_features.tdiv world_size).tdiv ((32 : Int).tdiv bits)],
          scales_ := Tensor.zeros [round_up in_features group_size, out_features.tdiv world_size],
          qweight_is_loaded_ := false, qzeros_is_loaded_ := false, scales_is_loaded_ := false,
          qweight_list_ := [], qzeros_list_ := [], scales_list_ := [],
          rank_ := rank, world_size_ := world_size } := by
  by_cases hc : 0 < group_size ∧ (qweight_pack_dim = 0 ∨ qweight_pack_dim = 1) ∧
      world_size ≠ 0 ∧ out_features.tmod world_size = 0 ∧ bits ≠ 0 ∧ (32 : Int).tdiv bits ≠ 0
  swap
  · obtain ⟨msg, he⟩ := column_construct_error in_features out_features bits group_size
      qweight_pack_dim rank world_size hc
    rw [he] at h
    cases h
  obtain ⟨hg, hp, hw0, hd, hb0, hpf0⟩ := hc
  have h32 : ¬ ((32 : Int) = INT64_MIN ∧ bits = -1) := by
    rintro ⟨h1, -⟩
    exact absurd h1 (by decide)
  by_cases ht : out_features = INT64_MIN ∧ world_size = -1
  · exfalso
    rcases hp with rfl | rfl <;>
    simp [construct, ctor, bind, Ctor.bind, Ctor.CHECK, Ctor.mod, hg, hw0, ht.1, ht.2] at h
  rcases hp with rfl | rfl
  · simp only [construct, ctor, bind, Ctor.bind, Ctor.CHECK, Ctor.mod, Ctor.div, Ctor.lift,
      Tensor.empty, register_parameter, pure, hg, hw0, hd, hb0, hpf0, if_neg ht, if_neg h32,
      decide_True, if_true, if_false, beq_self_eq_true, Bool.or_true, Bool.true_or,
      List.all_cons, List.all_nil, Bool.and_true, Bool.and_eq_true, decide_eq_true_eq,
      (by decide : ((1 : Int) == 0) = false), Bool.false_eq_true] at h
    by_cases c1 : in_features = INT64_MIN ∧ (32 : Int).tdiv bits = -1
    · simp [if_pos c1] at h
    simp only [if_neg c1] at h
    by_cases c2 : 0 ≤ in_features.tdiv ((32 : Int).tdiv bits) ∧ 0 ≤ out_features.tdiv world_size
    swap
    · simp [if_neg c2] at h
    simp only [if_pos c2] at h
    by_cases c3 : out_features.tdiv world_size = INT64_MIN ∧ (32 : Int).tdiv bits = -1
    · simp [if_pos c3] at h
    simp only [if_neg c3] at h
    by_cases c4 : 0 ≤ round_up in_features group_size ∧
        0 ≤ (out_features.tdiv world_size).tdiv ((32 : Int).tdiv bits)
    swap
    · simp [if_neg c4] at h
    simp only [if_pos c4] at h
    by_cases c5 : 0 ≤ round_up in_features group_size ∧ 0 ≤ out_features.tdiv world_size
    swap
    · simp [if_neg c5] at h
    simp only [if_pos c5, Except.ok.injEq] at h
    subst h
    refine ⟨hg, Or.inl rfl, hw0, hd, hb0, hpf0, c4.1, c2.2, c4.2, ?_⟩
    simp [is_loaded_initial, weight_list_initial]
  · simp only [construct, ctor, bind, Ctor.bind, Ctor.CHECK, Ctor.mod, Ctor.div, Ctor.lift,
      Tensor.empty, register_parameter, pure, hg, hw0, hd, hb0, hpf0, if_neg ht, if_neg h32,
      decide_True, if_true, if_false, beq_self_eq_true, Bool.or_true, Bool.true_or,
      List.all_cons, List.all_nil, Bool.and_true, Bool.and_eq_true, decide_eq_true_eq,
      (by decide : ((1 : Int) == 0) = false), Bool.false_eq_true] at h
    by_cases c3 : out_features.tdiv world_size = INT64_MIN ∧ (32 : Int).tdiv bits = -1
    · simp [if_pos c3] at h
    simp only [if_neg c3] at h
    by_cases c2 : 0 ≤ in_features ∧
        0 ≤ (out_features.tdiv world_size).tdiv ((32 : Int).tdiv bits)
    swap
    · simp [if_neg c2] at h
    simp only [if_pos c2] at h
    by_cases c4 : 0 ≤ round_up in_features group_size ∧
        0 ≤ (out_features.tdiv world_size).tdiv ((32 : Int).tdiv bits)
    swap
    · simp [if_neg c4] at h
    simp only [if_pos c4] at h
    by_cases c5 : 0 ≤ round_up in_features group_size ∧ 0 ≤ out_features.tdiv world_size
    swap
    · simp [if_neg c5] at h
    simp only [if_pos c5, Except.ok.injEq] at h
    subst h
    refine ⟨hg, Or.inr rfl, hw0, hd, hb0, hpf0, c4.1, c5.2, c4.2, ?_⟩
    simp [is_loaded_initial, weight_list_initial]

theorem column_construct_ok (in_features out_features bits group_size qweight_pack_dim rank
    world_size : Int) (hg : 0 < group_size)
    (hp : qweight_pack_dim = 0 ∨ qweight_pack_dim = 1) (hw : 0 < world_size)
    (hd : out_features.tmod world_size = 0) (hb1 : 0 < bits) (hb2 : bits ≤ 32)
    (hin : 0 ≤ in_features) (hout : 0 ≤ out_features)
    (hbound : in_features + group_size - 1 < 2 ^ 63) :
    (construct in_features out_features bits group_size qweight_pack_dim rank world_size).1 =
      Except.ok
        { qweight_ := if qweight_pack_dim = 0 then
            Tensor.zeros [in_features.tdiv ((32 : Int).tdiv bits), out_features.tdiv world_size]
            else Tensor.zeros [in_features, (out_features.tdiv world_size).tdiv ((32 : Int).tdiv bits)],
          qzeros_ := Tensor.zeros [round_up in_features group_size,
            (out_features.tdiv world_size).tdiv ((32 : Int).tdiv bits)],
          scales_ := Tensor.zeros [round_up in_features group_size, out_features.tdiv world_size],
          qweight_is_loaded_ := false, qzeros_is_loaded_ := false, scales_is_loaded_ := false,
          qweight_list_ := [], qzeros_list_ := [], scales_list_ := [],
          rank_ := rank, world_size_ := world_size } := by
  have hpf := pack_factor_pos hb1 hb2
  have hw0 : world_size ≠ 0 := ne_of_gt hw
  have hb0 : bits ≠ 0 := ne_of_gt hb1
  have hpf0 : (32 : Int).tdiv bits ≠ 0 := ne_of_gt hpf
  have h32 : ¬ ((32 : Int) = INT64_MIN ∧ bits = -1) := by
    rintro ⟨h1, -⟩
    exact absurd h1 (by decide)
  have ht : ¬ (out_features = INT64_MIN ∧ world_size = -1) := by
    rintro ⟨-, h1⟩
    omega
  have c1 : ¬ (in_features = INT64_MIN ∧ (32 : Int).tdiv bits = -1) := by
    rintro ⟨-, h1⟩
    omega
  have c3 : ¬ (out_features.tdiv world_size = INT64_MIN ∧ (32 : Int).tdiv bits = -1) := by
    rintro ⟨-, h1⟩
    omega
  have n1 : 0 ≤ in_features.tdiv ((32 : Int).tdiv bits) :=
    Int.tdiv_nonneg hin (le_of_lt hpf)
  have n2 : 0 ≤ out_features.tdiv world_size := Int.tdiv_nonneg hout (le_of_lt hw)
  have n3 : 0 ≤ (out_features.tdiv world_size).tdiv ((32 : Int).tdiv bits) :=
    Int.tdiv_nonneg n2 (le_of_lt hpf)
  have n4 : 0 ≤ round_up in_features group_size :=
    round_up_nonneg in_features group_size hin hg hbound
  rcases hp with rfl | rfl
  · simp only [construct, ctor, bind, Ctor.bind, Ctor.CHECK, Ctor.mod, Ctor.div, Ctor.lift,
      Tensor.empty, register_parameter, pure, hg, hw0, hd, hb0, hpf0, if_neg ht, if_neg h32,
      decide_True, if_true, if_false, beq_self_eq_true, Bool.or_true, Bool.true_or,
      List.all_cons, List.all_nil, Bool.and_true, Bool.and_eq_true, decide_eq_true_eq,
      (by decide : ((1 : Int) == 0) = false), Bool.false_eq_true, if_neg c1, if_neg c3, n1, n2, n3, n4, and_self,
      is_loaded_initial, weight_list_initial]
  · simp only [construct, ctor, bind, Ctor.bind, Ctor.CHECK, Ctor.mod, Ctor.div, Ctor.lift,
      Tensor.empty, register_parameter, pure, hg, hw0, hd, hb0, hpf0, if_neg ht, if_neg h32,
      decide_True, if_true, if_false, beq_self_eq_true, Bool.or_true, Bool.true_or,
      List.all_cons, List.all_nil, Bool.and_true, Bool.and_eq_true, decide_eq_true_eq,
      (by decide : ((1 : Int) == 0) = false), Bool.false_eq_true, if_neg c1, if_neg c3, hin, n2, n3, n4, and_self,
      is_loaded_initial, weight_list_initial, one_ne_zero]

end ColumnParallelQLinearImpl

namespace RowParallelQLinearImpl

theorem row_construct_error (in_features out_features bits group_size qweight_pack_dim rank
    world_size : Int)
    (h : ¬ (0 < group_size ∧ (qweight_pack_dim = 0 ∨ qweight_pack_dim = 1) ∧ world_size ≠ 0 ∧
      in_features.tmod world_size = 0 ∧ bits ≠ 0 ∧ (32 : Int).tdiv bits ≠ 0)) :
    ∃ msg, construct in_features out_features bits group_size qweight_pack_dim rank world_size =
      (Except.error msg, { parameters := [] }) := by
  by_cases hg : 0 < group_size
  swap
  · simp [construct, ctor, bind, Ctor.bind, Ctor.CHECK, hg]
  by_cases hp : qweight_pack_dim = 0 ∨ qweight_pack_dim = 1
  swap
  · push_neg at hp
    simp [construct, ctor, bind, Ctor.bind, Ctor.CHECK, hg, hp.1, hp.2]
  by_cases hw : world_size = 0
  · rcases hp with rfl | rfl <;>
    simp [construct, ctor, bind, Ctor.bind, Ctor.CHECK, Ctor.mod, hg, hw]
  by_cases ht : in_features = INT64_MIN ∧ world_size = -1
  · rcases hp with rfl | rfl <;>
    simp [construct, ctor, bind, Ctor.bind, Ctor.CHECK, Ctor.mod, hg, hw, ht.1, ht.2]
  by_cases hd : in_features.tmod world_size = 0
  swap
  · rcases hp with rfl | rfl <;>
    simp [construct, ctor, bind, Ctor.bind, Ctor.CHECK, Ctor.mod, hg, hw, hd, if_neg ht]
  by_cases hb : bits = 0
  · rcases hp with rfl | rfl <;>
    simp [construct, ctor, bind, Ctor.bind, Ctor.CHECK, Ctor.mod, Ctor.div,
      hg, hw, hd, hb, if_neg ht]
  have h32 : ¬ ((32 : Int) = INT64_MIN ∧ bits = -1) := by
    rintro ⟨h1, -⟩
    exact absurd h1 (by decide)
  by_cases hpf : (32 : Int).tdiv bits = 0
  · rcases hp with rfl | rfl <;>
    simp [construct, ctor, bind, Ctor.bind, Ctor.CHECK, Ctor.mod, Ctor.div,
      hg, hw, hd, hb, hpf, if_neg ht, if_neg h32]
  exact absurd ⟨hg, hp, hw, hd, hb, hpf⟩ h

theorem row_construct_inv (in_features out_features bits group_size qweight_pack_dim rank
    world_size : Int) (layer : RowParallelQLinearImpl)
    (h : (construct in_features out_features bits group_size qweight_pack_dim rank
      world_size).1 = Except.ok layer) :
    0 < group_size ∧ (qweight_pack_dim = 0 ∨ qweight_pack_dim = 1) ∧ world_size ≠ 0 ∧
    in_features.tmod world_size = 0 ∧ bits ≠ 0 ∧ (32 : Int).tdiv bits ≠ 0 ∧
    0 ≤ round_up (in_features.tdiv world_size) group_size ∧ 0 ≤ out_features ∧
    0 ≤ out_features.tdiv ((32 : Int).tdiv bits) ∧
    layer =
        { qweight_ := if qweight_pack_dim = 0 then
            Tensor.zeros [(in_features.tdiv world_size).tdiv ((32 : Int).tdiv bits), out_features]
            else Tensor.zeros [in_features.tdiv world_size, out_features.tdiv ((32 : Int).tdiv bits)],
          qzeros_ := Tensor.zeros [round_up (in_features.tdiv world_size) group_size,
            out_features.tdiv ((32 : Int).tdiv bits)],
          scales_ := Tensor.zeros [round_up (in_features.tdiv world_size) group_size, out_features],
          qweight_is_loaded_ := false, qzeros_is_loaded_ := false, scales_is_loaded_ := false,
          rank_ := rank, world_size_ := world_size } := by
  by_cases hc : 0 < group_size ∧ (qweight_pack_dim = 0 ∨ qweight_pack_dim = 1) ∧
      world_size ≠ 0 ∧ in_features.tmod world_size = 0 ∧ bits ≠ 0 ∧ (32 : Int).tdiv bits ≠ 0
  swap
  · obtain ⟨msg, he⟩ := row_construct_error in_features out_features bits group_size
      qweight_pack_dim rank world_size hc
    rw [he] at h
    cases h
  obtain ⟨hg, hp, hw0, hd, hb0, hpf0⟩ := hc
  have h32 : ¬ ((32 : Int) = INT64_MIN ∧ bits = -1) := by
    rintro ⟨h1, -⟩
    exact absurd h1 (by decide)
  by_cases ht : in_features = INT64_MIN ∧ world_size = -1
  · exfalso
    rcases hp with rfl | rfl <;>
    simp [construct, ctor, bind, Ctor.bind, Ctor.CHECK, Ctor.mod, hg, hw0, ht.1, ht.2] at h
  rcases hp with rfl | rfl
  · simp only [construct, ctor, bind, Ctor.bind, Ctor.CHECK, Ctor.mod, Ctor.div, Ctor.lift,
      Tensor.empty, register_parameter, pure, hg, hw0, hd, hb0, hpf0, if_neg ht, if_neg h32,
      decide_True, if_true, if_false, beq_self_eq_true, Bool.or_true, Bool.true_or,
      List.all_cons, List.all_nil, Bool.and_true, Bool.and_eq_true, decide_eq_true_eq,
      (by decide : ((1 : Int) == 0) = false), Bool.false_eq_true] at h
    by_cases c1 : in_features.tdiv world_size = INT64_MIN ∧ (32 : Int).tdiv bits = -1
    · simp [if_pos c1] at h
    simp only [if_neg c1] at h
    by_cases c2 : 0 ≤ (in_features.tdiv world_size).tdiv ((32 : Int).tdiv bits) ∧
        0 ≤ out_features
    swap
    · simp [if_neg c2] at h
    simp only [if_pos c2] at h
    by_cases c3 : out_features = INT64_MIN ∧ (32 : Int).tdiv bits = -1
    · simp [if_pos c3] at h
    simp only [if_neg c3] at h
    by_cases c4 : 0 ≤ round_up (in_features.tdiv world_size) group_size ∧
        0 ≤ out_features.tdiv ((32 : Int).tdiv bits)
    swap
    · simp [if_neg c4] at h
    simp only [if_pos c4] at h
    by_cases c5 : 0 ≤ round_up (in_features.tdiv world_size) group_size ∧ 0 ≤ out_features
    swap
    · simp [if_neg c5] at h
    simp only [if_pos c5, Except.ok.injEq] at h
    subst h
    refine ⟨hg, Or.inl rfl, hw0, hd, hb0, hpf0, c4.1, c2.2, c4.2, ?_⟩
    simp [is_loaded_initial]
  · simp only [construct, ctor, bind, Ctor.bind, Ctor.CHECK, Ctor.mod, Ctor.div, Ctor.lift,
      Tensor.empty, register_parameter, pure, hg, hw0, hd, hb0, hpf0, if_neg ht, if_neg h32,
      decide_True, if_true, if_false, beq_self_eq_true, Bool.or_true, Bool.true_or,
      List.all_cons, List.all_nil, Bool.and_true, Bool.and_eq_true, decide_eq_true_eq,
      (by decide : ((1 : Int) == 0) = false), Bool.false_eq_true] at h
    by_cases c3 : out_features = INT64_MIN ∧ (32 : Int).tdiv bits = -1
    · simp [if_pos c3] at h
    simp only [if_neg c3] at h
    by_cases c2 : 0 ≤ in_features.tdiv world_size ∧
        0 ≤ out_features.tdiv ((32 : Int).tdiv bits)
    swap
    · simp [if_neg c2] at h
    simp only [if_pos c2] at h
    by_cases c4 : 0 ≤ round_up (in_features.tdiv world_size) group_size ∧
        0 ≤ out_features.tdiv ((32 : Int).tdiv bits)
    swap
    · simp [if_neg c4] at h
    simp only [if_pos c4] at h
    by_cases c5 : 0 ≤ round_up (in_features.tdiv world_size) group_size ∧ 0 ≤ out_features
    swap
    · simp [if_neg c5] at h
    simp only [if_pos c5, Except.ok.injEq] at h
    subst h
    refine ⟨hg, Or.inr rfl, hw0, hd, hb0, hpf0, c4.1, c5.2, c4.2, ?_⟩
    simp [is_loaded_initial]

theorem row_construct_ok (in_features out_features bits group_size qweight_pack_dim rank
    world_size : Int) (hg : 0 < group_size)
    (hp : qweight_pack_dim = 0 ∨ qweight_pack_dim = 1) (hw : 0 < world_size)
    (hd : in_features.tmod world_size = 0) (hb1 : 0 < bits) (hb2 : bits ≤ 32)
    (hin : 0 ≤ in_features) (hout : 0 ≤ out_features)
    (hbound : in_features.tdiv world_size + group_size - 1 < 2 ^ 63) :
    (construct in_features out_features bits group_size qweight_pack_dim rank world_size).1 =
      Except.ok
        { qweight_ := if qweight_pack_dim = 0 then
            Tensor.zeros [(in_features.tdiv world_size).tdiv ((32 : Int).tdiv bits), out_features]
            else Tensor.zeros [in_features.tdiv world_size, out_features.tdiv ((32 : Int).tdiv bits)],
          qzeros_ := Tensor.zeros [round_up (in_features.tdiv world_size) group_size,
            out_features.tdiv ((32 : Int).tdiv bits)],
          scales_ := Tensor.zeros [round_up (in_features.tdiv world_size) group_size, out_features],
          qweight_is_loaded_ := false, qzeros_is_loaded_ := false, scales_is_loaded_ := false,
          rank_ := rank, world_size_ := world_size } := by
  have hpf := pack_factor_pos hb1 hb2
  have hw0 : world_size ≠ 0 := ne_of_gt hw
  have hb0 : bits ≠ 0 := ne_of_gt hb1
  have hpf0 : (32 : Int).tdiv bits ≠ 0 := ne_of_gt hpf
  have h32 : ¬ ((32 : Int) = INT64_MIN ∧ bits = -1) := by
    rintro ⟨h1, -⟩
    exact absurd h1 (by decide)
  have ht : ¬ (in_features = INT64_MIN ∧ world_size = -1) := by
    rintro ⟨-, h1⟩
    omega
  have c1 : ¬ (in_features.tdiv world_size = INT64_MIN ∧ (32 : Int).tdiv bits = -1) := by
    rintro ⟨-, h1⟩
    omega
  have c3 : ¬ (out_features = INT64_MIN ∧ (32 : Int).tdiv bits = -1) := by
    rintro ⟨-, h1⟩
    omega
  have n0 : 0 ≤ in_features.tdiv world_size := Int.tdiv_nonneg hin (le_of_lt hw)
  have n1 : 0 ≤ (in_features.tdiv world_size).tdiv ((32 : Int).tdiv bits) :=
    Int.tdiv_nonneg n0 (le_of_lt hpf)
  have n3 : 0 ≤ out_features.tdiv ((32 : Int).tdiv bits) :=
    Int.tdiv_nonneg hout (le_of_lt hpf)
  have n4 : 0 ≤ round_up (in_features.tdiv world_size) group_size :=
    round_up_nonneg (in_features.tdiv world_size) group_size n0 hg hbound
  rcases hp with rfl | rfl
  · simp only [construct, ctor, bind, Ctor.bind, Ctor.CHECK, Ctor.mod, Ctor.div, Ctor.lift,
      Tensor.empty, register_parameter, pure, hg, hw0, hd, hb0, hpf0, if_neg ht, if_neg h32,
      decide_True, if_true, if_false, beq_self_eq_true, Bool.or_true, Bool.true_or,
      List.all_cons, List.all_nil, Bool.and_true, Bool.and_eq_true, decide_eq_true_eq,
      (by decide : ((1 : Int) == 0) = false), Bool.false_eq_true, if_neg c1, if_neg c3, n0, n1, hout, n3, n4, and_self,
      is_loaded_initial]
  · simp only [construct, ctor, bind, Ctor.bind, Ctor.CHECK, Ctor.mod, Ctor.div, Ctor.lift,
      Tensor.empty, register_parameter, pure, hg, hw0, hd, hb0, hpf0, if_neg ht, if_neg h32,
      decide_True, if_true, if_false, beq_self_eq_true, Bool.or_true, Bool.true_or,
      List.all_cons, List.all_nil, Bool.and_true, Bool.and_eq_true, decide_eq_true_eq,
      (by decide : ((1 : Int) == 0) = false), Bool.false_eq_true, if_neg c1, if_neg c3, n0, n1, hout, n3, n4, and_self,
      is_loaded_initial, one_ne_zero]

end RowParallelQLinearImpl

/-! ## Construction: the claims -/

/-- C4, refuted as stated: 3 divides -12 and 12, and -4 divides 32, yet construction of the
column-parallel layer fails for `out_features = -12` on 3 ranks, for `in_features = -8`
and for `bits = -4`, where `torch::empty` is handed a negative dimension; and it fails for
`in_features = 2^63 - 1` in groups of 2 with `out_features = 12` on 3 ranks, where the sum
in `round_up` overflows `int64_t` and the row count of `qzeros` comes out as `-2^62`. -/
theorem column_partition_divisibility_counterexample :
    ((3 : Int) ∣ -12 ∧
      (ColumnParallelQLinearImpl.construct 8 (-12) 4 8 0 0 3).1.isOk = false) ∧
    ((3 : Int) ∣ 12 ∧
      (ColumnParallelQLinearImpl.construct (-8) 12 4 8 0 0 3).1.isOk = false) ∧
    ((-4 : Int) ∣ 32 ∧
      (ColumnParallelQLinearImpl.construct 8 12 (-4) 8 0 0 3).1.isOk = false) ∧
    (round_up (2 ^ 63 - 1) 2 = -2 ^ 62 ∧
      (ColumnParallelQLinearImpl.construct (2 ^ 63 - 1) 12 4 2 0 0 3).1.isOk = false) := by
  refine ⟨⟨by decide, by decide⟩, ⟨by decide, by decide⟩, ⟨by decide, by decide⟩,
    ⟨by decide, by decide⟩⟩

/-- C4, amended. Column-parallel partition divisibility: for non-negative `in_features`
and `out_features`, a positive world size, a positive group size with
`in_features + group_size - 1 < 2^63`, a pack dimension 0 or 1 and positive bits
dividing 32, construction of the column-parallel layer fails exactly when
`out_features` is not divisible by `world_size`; on success the per-rank output width
(the second size of `scales`) is `out_features / world_size`. With
`out_features = 10`, `world_size = 3` construction fails, with `out_features = 12`,
`world_size = 3` it succeeds with width 4. -/
theorem column_partition_divisibility
    (in_features out_features bits group_size qweight_pack_dim rank world_size : Int)
    (hw : 0 < world_size) (hg : 0 < group_size)
    (hp : qweight_pack_dim = 0 ∨ qweight_pack_dim = 1) (hb : bits ∣ 32) (hb0 : 0 < bits)
    (hin : 0 ≤ in_features) (hout : 0 ≤ out_features)
    (hbound : in_features + group_size - 1 < 2 ^ 63) :
    ((ColumnParallelQLinearImpl.construct in_features out_features bits group_size
        qweight_pack_dim rank world_size).1.isOk = false ↔ ¬ world_size ∣ out_features) ∧
    (∀ layer, (ColumnParallelQLinearImpl.construct in_features out_features bits group_size
        qweight_pack_dim rank world_size).1 = Except.ok layer →
      layer.scales_.sizes = [round_up in_features group_size, out_features / world_size]) ∧
    (ColumnParallelQLinearImpl.construct in_features 10 bits group_size
        qweight_pack_dim rank 3).1.isOk = false ∧
    (∃ layer, (ColumnParallelQLinearImpl.construct in_features 12 bits group_size
        qweight_pack_dim rank 3).1 = Except.ok layer ∧
      layer.scales_.sizes = [round_up in_features group_size, 4]) := by
  have hb2 : bits ≤ 32 := Int.le_of_dvd (by decide) hb
  have key : ∀ (o w : Int), 0 < w → 0 ≤ o →
      ((ColumnParallelQLinearImpl.construct in_features o bits group_size
        qweight_pack_dim rank w).1.isOk = false ↔ ¬ w ∣ o) ∧
      (∀ layer, (ColumnParallelQLinearImpl.construct in_features o bits group_size
        qweight_pack_dim rank w).1 = Except.ok layer →
        w ∣ o ∧ layer.scales_.sizes = [round_up in_features group_size, o / w]) := by
    intro o w hw0 ho
    by_cases hd : w ∣ o
    · have hm : o.tmod w = 0 := Int.tmod_eq_zero_of_dvd hd
      have hok := ColumnParallelQLinearImpl.column_construct_ok in_features o bits group_size
        qweight_pack_dim rank w hg hp hw0 hm hb0 hb2 hin ho hbound
      rw [hok]
      refine ⟨by simp [Except.isOk, Except.toBool, hd], ?_⟩
      intro layer hl
      injection hl with hl
      subst hl
      exact ⟨hd, by simp [Tensor.zeros, Int.tdiv_eq_ediv_of_dvd hd]⟩
    · have hm : ¬ o.tmod w = 0 := fun h => hd (Int.dvd_of_tmod_eq_zero h)
      obtain ⟨msg, he⟩ := ColumnParallelQLinearImpl.column_construct_error in_features o bits
        group_size qweight_pack_dim rank w (fun h => hm h.2.2.2.1)
      rw [he]
      exact ⟨by simp [Except.isOk, Except.toBool, hd], by intro layer hl; cases hl⟩
  refine ⟨(key out_features world_size hw hout).1,
    fun layer hl => ((key out_features world_size hw hout).2 layer hl).2,
    ((key 10 3 (by decide) (by decide)).1).2 (by decide), ?_⟩
  have hok := ColumnParallelQLinearImpl.column_construct_ok in_features 12 bits group_size
    qweight_pack_dim rank 3 hg hp (by decide) (by decide) hb0 hb2 hin (by decide) hbound
  exact ⟨_, hok, by simp [Tensor.zeros]; decide⟩

/-- C4 amended, at a concrete layer: 8 input features, 12 output features, 4 bits,
groups of 8, three ranks. -/
theorem column_partition_divisibility_witness :
    ((ColumnParallelQLinearImpl.construct 8 12 4 8 0 0 3).1.isOk = false ↔ ¬ (3 : Int) ∣ 12) ∧
    (ColumnParallelQLinearImpl.construct 8 10 4 8 0 0 3).1.isOk = false :=
  ⟨(column_partition_divisibility 8 12 4 8 0 0 3 (by decide) (by decide) (by decide)
      (by decide) (by decide) (by decide) (by decide) (by decide)).1,
   (column_partition_divisibility 8 12 4 8 0 0 3 (by decide) (by decide) (by decide)
      (by decide) (by decide) (by decide) (by decide) (by decide)).2.2.1⟩

/-- C5, refuted as stated: 3 divides -24 and 24, and -4 divides 32, yet construction of
the row-parallel layer fails for `in_features = -24` on 3 ranks, for
`out_features = -16` and for `bits = -4`, where `torch::empty` is handed a negative
dimension; and it fails for `in_features = 2^63 - 1` on one rank in groups of 2, where
the sum in `round_up` overflows `int64_t` and the row count of `qzeros` comes out as
`-2^62`. -/
theorem row_partition_divisibility_counterexample :
    ((3 : Int) ∣ -24 ∧
      (RowParallelQLinearImpl.construct (-24) 16 4 8 0 0 3).1.isOk = false) ∧
    ((3 : Int) ∣ 24 ∧
      (RowParallelQLinearImpl.construct 24 (-16) 4 8 0 0 3).1.isOk = false) ∧
    ((-4 : Int) ∣ 32 ∧
      (RowParallelQLinearImpl.construct 24 16 (-4) 8 0 0 3).1.isOk = false) ∧
    ((1 : Int) ∣ 2 ^ 63 - 1 ∧ round_up ((2 ^ 63 - 1 : Int).tdiv 1) 2 = -2 ^ 62 ∧
      (RowParallelQLinearImpl.construct (2 ^ 63 - 1) 16 4 2 0 0 1).1.isOk = false) := by
  refine ⟨⟨by decide, by decide⟩, ⟨by decide, by decide⟩, ⟨by decide, by decide⟩,
    ⟨by decide, by decide, by decide⟩⟩

/-- C5, amended. Row-parallel partition divisibility: for non-negative `in_features` and
`out_features`, a positive world size, a positive group size with
`in_features / world_size + group_size - 1 < 2^63`, a pack dimension 0 or 1 and
positive bits dividing 32, construction of the row-parallel layer fails exactly when
`in_features` is not divisible by `world_size`; on success the per-rank input width is
`in_features / world_size`: it is the row count of `qweight` packed along dimension 1,
and the packed dimension-0 rows and the group rows of `qzeros` and `scales` are
computed from it. -/
theorem row_partition_divisibility
    (in_features out_features bits group_size qweight_pack_dim rank world_size : Int)
    (hw : 0 < world_size) (hg : 0 < group_size)
    (hp : qweight_pack_dim = 0 ∨ qweight_pack_dim = 1) (hb : bits ∣ 32) (hb0 : 0 < bits)
    (hin : 0 ≤ in_features) (hout : 0 ≤ out_features)
    (hbound : in_features.tdiv world_size + group_size - 1 < 2 ^ 63) :
    ((RowParallelQLinearImpl.construct in_features out_features bits group_size
        qweight_pack_dim rank world_size).1.isOk = false ↔ ¬ world_size ∣ in_features) ∧
    (∀ layer, (RowParallelQLinearImpl.construct in_features out_features bits group_size
        qweight_pack_dim rank world_size).1 = Except.ok layer →
      layer.qweight_.sizes =
        (if qweight_pack_dim = 0 then
          [(in_features / world_size).tdiv ((32 : Int).tdiv bits), out_features]
        else [in_features / world_size, out_features.tdiv ((32 : Int).tdiv bits)]) ∧
      layer.qzeros_.sizes = [round_up (in_features / world_size) group_size,
        out_features.tdiv ((32 : Int).tdiv bits)] ∧
      layer.scales_.sizes = [round_up (in_features / world_size) group_size, out_features]) := by
  have hb2 : bits ≤ 32 := Int.le_of_dvd (by decide) hb
  by_cases hd : world_size ∣ in_features
  · have hm : in_features.tmod world_size = 0 := Int.tmod_eq_zero_of_dvd hd
    have hok := RowParallelQLinearImpl.row_construct_ok in_features out_features bits group_size
      qweight_pack_dim rank world_size hg hp hw hm hb0 hb2 hin hout hbound
    rw [hok]
    refine ⟨by simp [Except.isOk, Except.toBool, hd], ?_⟩
    intro layer hl
    injection hl with hl
    subst hl
    rw [← Int.tdiv_eq_ediv_of_dvd hd]
    rcases hp with rfl | rfl <;> simp [Tensor.zeros]
  · have hm : ¬ in_features.tmod world_size = 0 := fun h => hd (Int.dvd_of_tmod_eq_zero h)
    obtain ⟨msg, he⟩ := RowParallelQLinearImpl.row_construct_error in_features out_features bits
      group_size qweight_pack_dim rank world_size (fun h => hm h.2.2.2.1)
    rw [he]
    exact ⟨by simp [Except.isOk, Except.toBool, hd], by intro layer hl; cases hl⟩

/-- C5 amended, at a concrete layer: 12 input features on three ranks and 10 on three
ranks. -/
theorem row_partition_divisibility_witness :
    ((RowParallelQLinearImpl.construct 12 8 4 2 1 0 3).1.isOk = false ↔ ¬ (3 : Int) ∣ 12) ∧
    ((RowParallelQLinearImpl.construct 10 8 4 2 1 0 3).1.isOk = false ↔ ¬ (3 : Int) ∣ 10) :=
  ⟨(row_partition_divisibility 12 8 4 2 1 0 3 (by decide) (by decide) (by decide)
      (by decide) (by decide) (by decide) (by decide) (by decide)).1,
   (row_partition_divisibility 10 8 4 2 1 0 3 (by decide) (by decide) (by decide)
      (by decide) (by decide) (by decide) (by decide) (by decide)).1⟩

/-- C9, refuted as stated: `round_up (2^63 - 1) 2` is `-2^62`, because the sum
`num + multiple - 1` overflows `int64_t`, while the ceiling of `(2^63 - 1) / 2` is
`2^62`. With `in_features = -5` in groups of 4, at 4 bits with packing dimension 0 and
8 output features on one rank, construction succeeds and `qzeros` has 0 rows, while the
ceiling of `-5 / 4` is `-1`. With `in_features = 2^63 - 1` in groups of `2^63 - 1`,
packing dimension 1 and no output feature, construction succeeds and `qzeros` has 0
rows, while the ceiling is 1. -/
theorem column_allocated_shapes_counterexample :
    (round_up (2 ^ 63 - 1) 2 = -2 ^ 62 ∧
      ⌈(((2 ^ 63 - 1 : Int)) : ℚ) / (((2 : Int)) : ℚ)⌉ = 2 ^ 62) ∧
    ((ColumnParallelQLinearImpl.construct (-5) 8 4 4 0 0 1).1.map
        (fun layer => layer.qzeros_.sizes) = Except.ok [0, 1] ∧
      ⌈(((-5 : Int)) : ℚ) / (((4 : Int)) : ℚ)⌉ = -1) ∧
    ((ColumnParallelQLinearImpl.construct (2 ^ 63 - 1) 0 4 (2 ^ 63 - 1) 1 0 1).1.map
        (fun layer => layer.qzeros_.sizes) = Except.ok [0, 0] ∧
      ⌈(((2 ^ 63 - 1 : Int)) : ℚ) / (((2 ^ 63 - 1 : Int)) : ℚ)⌉ = 1) := by
  refine ⟨⟨by decide, ?_⟩, ⟨by rfl, ?_⟩, ⟨by rfl, ?_⟩⟩
  · rw [Int.ceil_eq_iff]
    norm_num
  · rw [Int.ceil_eq_iff]
    norm_num
  · rw [Int.ceil_eq_iff]
    norm_num

/-- C9, amended. Allocated shapes of the column-parallel parameter set: after a
successful construction with `0 ≤ in_features` and
`in_features + group_size - 1 < 2^63`, writing `pack_factor = 32 / bits` and
`out_pp = out_features / world_size` (C++ quotients), `qweight` has sizes
`[in_features / pack_factor, out_pp]` when packed along dimension 0 and
`[in_features, out_pp / pack_factor]` when packed along dimension 1, `qzeros` has
sizes `[ceil(in_features / group_size), out_pp / pack_factor]` and `scales` has
sizes `[ceil(in_features / group_size), out_pp]`, the ceiling being that of the
rational quotient; and `round_up n m` is that ceiling for all `n ≥ 0`, `m > 0` with
`n + m - 1 < 2^63`. -/
theorem column_allocated_shapes
    (in_features out_features bits group_size qweight_pack_dim rank world_size : Int)
    (layer : ColumnParallelQLinearImpl) (hin : 0 ≤ in_features)
    (hbound : in_features + group_size - 1 < 2 ^ 63)
    (hok : (ColumnParallelQLinearImpl.construct in_features out_features bits group_size
        qweight_pack_dim rank world_size).1 = Except.ok layer) :
    (qweight_pack_dim = 0 →
      layer.qweight_.sizes =
        [in_features.tdiv ((32 : Int).tdiv bits), out_features.tdiv world_size]) ∧
    (qweight_pack_dim = 1 →
      layer.qweight_.sizes =
        [in_features, (out_features.tdiv world_size).tdiv ((32 : Int).tdiv bits)]) ∧
    layer.qzeros_.sizes = [⌈(in_features : ℚ) / (group_size : ℚ)⌉,
      (out_features.tdiv world_size).tdiv ((32 : Int).tdiv bits)] ∧
    layer.scales_.sizes = [⌈(in_features : ℚ) / (group_size : ℚ)⌉,
      out_features.tdiv world_size] ∧
    (∀ n m : Int, 0 ≤ n → 0 < m → n + m - 1 < 2 ^ 63 →
      round_up n m = ⌈(n : ℚ) / (m : ℚ)⌉) := by
  obtain ⟨hg, -, -, -, -, -, -, -, -, hl⟩ :=
    ColumnParallelQLinearImpl.column_construct_inv in_features out_features bits group_size
      qweight_pack_dim rank world_size layer hok
  subst hl
  rw [← round_up_eq_ceil in_features group_size hin hg hbound]
  refine ⟨?_, ?_, ?_, ?_, round_up_eq_ceil⟩
  · intro h0
    simp [h0, Tensor.zeros]
  · intro h1
    simp [h1, Tensor.zeros]
  · simp [Tensor.zeros]
  · simp [Tensor.zeros]

/-- C9 amended, at a concrete layer: 10 input features in groups of 4 give 3 group
rows. -/
theorem column_allocated_shapes_witness :
    (ColumnParallelQLinearImpl.construct 10 16 4 4 1 0 2).1.isOk = true ∧
    (Tensor.zeros [round_up 10 4, ((16 : Int).tdiv 2).tdiv ((32 : Int).tdiv 4)]).sizes =
      [⌈((10 : Int) : ℚ) / ((4 : Int) : ℚ)⌉, ((16 : Int).tdiv 2).tdiv ((32 : Int).tdiv 4)] :=
  ⟨by decide,
   (column_allocated_shapes 10 16 4 4 1 0 2 _ (by decide) (by decide)
     (ColumnParallelQLinearImpl.column_construct_ok 10 16 4 4 1 0 2 (by decide) (by decide)
       (by decide) (by decide) (by decide) (by decide) (by decide) (by decide)
       (by decide))).2.2.1⟩

/-- C10. Configuration rejection (group size and packing dimension): whatever the other
arguments are, when `group_size ≤ 0` or the packing dimension is neither 0 nor 1 the
column-parallel and the row-parallel constructor both abort, and at the abort the
registry of the module holds no parameter: none of `qweight`, `qzeros`, `scales` has
been allocated and registered. -/
theorem config_rejection_group_size_pack_dim
    (in_features out_features bits group_size qweight_pack_dim rank world_size : Int)
    (h : group_size ≤ 0 ∨ (qweight_pack_dim ≠ 0 ∧ qweight_pack_dim ≠ 1)) :
    (∃ msg, ColumnParallelQLinearImpl.construct in_features out_features bits group_size
        qweight_pack_dim rank world_size = (Except.error msg, { parameters := [] })) ∧
    (∃ msg, RowParallelQLinearImpl.construct in_features out_features bits group_size
        qweight_pack_dim rank world_size = (Except.error msg, { parameters := [] })) := by
  constructor
  · apply ColumnParallelQLinearImpl.column_construct_error
    rintro ⟨hg, hp, -⟩
    rcases h with h | h
    · omega
    · rcases hp with hp | hp
      · exact h.1 hp
      · exact h.2 hp
  · apply RowParallelQLinearImpl.row_construct_error
    rintro ⟨hg, hp, -⟩
    rcases h with h | h
    · omega
    · rcases hp with hp | hp
      · exact h.1 hp
      · exact h.2 hp

/-- C10, at concrete arguments: a group size of 0 and a packing dimension of 2. -/
theorem config_rejection_group_size_pack_dim_witness :
    ((∃ msg, ColumnParallelQLinearImpl.construct 8 12 4 0 0 0 3 =
        (Except.error msg, { parameters := [] })) ∧
     (∃ msg, RowParallelQLinearImpl.construct 8 12 4 0 0 0 3 =
        (Except.error msg, { parameters := [] }))) ∧
    ((∃ msg, ColumnParallelQLinearImpl.construct 8 12 4 4 2 0 3 =
        (Except.error msg, { parameters := [] })) ∧
     (∃ msg, RowParallelQLinearImpl.construct 8 12 4 4 2 0 3 =
        (Except.error msg, { parameters := [] }))) :=
  ⟨config_rejection_group_size_pack_dim 8 12 4 0 0 0 3 (Or.inl (by decide)),
   config_rejection_group_size_pack_dim 8 12 4 4 2 0 3 (Or.inr ⟨by decide, by decide⟩)⟩


/-! ## Direct-mode loading -/

theorem Tensor.copy_eq_of_sizes (dst src : Tensor) (h : dst.sizes = src.sizes) :
    dst.copy_ src = src := by
  cases src
  simp_all [Tensor.copy_]

namespace ColumnParallelQLinearImpl

theorem column_load_state_dict_step (self layer : ColumnParallelQLinearImpl) (sd : StateDict)
    (h : self.load_state_dict sd = Except.ok layer) :
    layer.rank_ = self.rank_ ∧ layer.world_size_ = self.world_size_ ∧
    layer.qweight_.sizes = self.qweight_.sizes ∧ layer.qzeros_.sizes = self.qzeros_.sizes ∧
    layer.scales_.sizes = self.scales_.sizes ∧
    (∀ t, sd.get_sharded_tensor "qweight" 1 self.rank_ self.world_size_ = some t →
      t.sizes = self.qweight_.sizes ∧ layer.qweight_ = t ∧ layer.qweight_is_loaded_ = true) ∧
    (sd.get_sharded_tensor "qweight" 1 self.rank_ self.world_size_ = none →
      layer.qweight_ = self.qweight_ ∧ layer.qweight_is_loaded_ = self.qweight_is_loaded_) ∧
    (∀ t, sd.get_sharded_tensor "qzeros" 1 self.rank_ self.world_size_ = some t →
      t.sizes = self.qzeros_.sizes ∧ layer.qzeros_ = t ∧ layer.qzeros_is_loaded_ = true) ∧
    (sd.get_sharded_tensor "qzeros" 1 self.rank_ self.world_size_ = none →
      layer.qzeros_ = self.qzeros_ ∧ layer.qzeros_is_loaded_ = self.qzeros_is_loaded_) ∧
    (∀ t, sd.get_sharded_tensor "scales" 1 self.rank_ self.world_size_ = some t →
      t.sizes = self.scales_.sizes ∧ layer.scales_ = t ∧ layer.scales_is_loaded_ = true) ∧
    (sd.get_sharded_tensor "scales" 1 self.rank_ self.world_size_ = none →
      layer.scales_ = self.scales_ ∧ layer.scales_is_loaded_ = self.scales_is_loaded_) := by
  unfold load_state_dict at h
  cases hq : sd.get_sharded_tensor "qweight" 1 self.rank_ self.world_size_ <;>
  cases hz : sd.get_sharded_tensor "qzeros" 1 self.rank_ self.world_size_ <;>
  cases hs : sd.get_sharded_tensor "scales" 1 self.rank_ self.world_size_ <;>
  simp [hq, hz, hs, CHECK, bind, Except.bind, pure, Except.pure] at h
  all_goals
    (try split_ifs at h)
    all_goals (try simp at h)
    all_goals subst h
    all_goals simp [Tensor.copy_eq_of_sizes, Tensor.copy_, *]

theorem column_load_state_dict_isOk (self : ColumnParallelQLinearImpl) (sd : StateDict) :
    (self.load_state_dict sd).isOk = true ↔
      (∀ t, sd.get_sharded_tensor "qweight" 1 self.rank_ self.world_size_ = some t →
        self.qweight_.sizes = t.sizes) ∧
      (∀ t, sd.get_sharded_tensor "qzeros" 1 self.rank_ self.world_size_ = some t →
        self.qzeros_.sizes = t.sizes) ∧
      (∀ t, sd.get_sharded_tensor "scales" 1 self.rank_ self.world_size_ = some t →
        self.scales_.sizes = t.sizes) := by
  unfold load_state_dict
  cases hq : sd.get_sharded_tensor "qweight" 1 self.rank_ self.world_size_ <;>
  cases hz : sd.get_sharded_tensor "qzeros" 1 self.rank_ self.world_size_ <;>
  cases hs : sd.get_sharded_tensor "scales" 1 self.rank_ self.world_size_ <;>
  simp only [hq, hz, hs, CHECK, bind, Except.bind, pure, Except.pure, beq_iff_eq,
    decide_eq_true_eq]
  all_goals
    (try split_ifs) <;>
    simp [Except.isOk, Except.toBool, Tensor.copy_, *]

theorem column_construct_fresh (in_features out_features bits group_size qweight_pack_dim rank
    world_size : Int) (layer : ColumnParallelQLinearImpl)
    (h : (construct in_features out_features bits group_size qweight_pack_dim rank
      world_size).1 = Except.ok layer) :
    layer.qweight_is_loaded_ = false ∧ layer.qzeros_is_loaded_ = false ∧
    layer.scales_is_loaded_ = false ∧ layer.qweight_list_ = [] ∧ layer.qzeros_list_ = [] ∧
    layer.scales_list_ = [] := by
  obtain ⟨-, -, -, -, -, -, -, -, -, hl⟩ := column_construct_inv in_features out_features bits
    group_size qweight_pack_dim rank world_size layer h
  subst hl
  simp

theorem column_load_state_dicts_inv (stores : List StateDict) :
    ∀ self layer : ColumnParallelQLinearImpl, self.load_state_dicts stores = Except.ok layer →
      layer.rank_ = self.rank_ ∧ layer.world_size_ = self.world_size_ ∧
      layer.qweight_.sizes = self.qweight_.sizes ∧ layer.qzeros_.sizes = self.qzeros_.sizes ∧
      layer.scales_.sizes = self.scales_.sizes ∧
      (layer.qweight_is_loaded_ = (self.qweight_is_loaded_ || stores.any (fun sd =>
        (sd.get_sharded_tensor "qweight" 1 self.rank_ self.world_size_).isSome))) ∧
      (layer.qzeros_is_loaded_ = (self.qzeros_is_loaded_ || stores.any (fun sd =>
        (sd.get_sharded_tensor "qzeros" 1 self.rank_ self.world_size_).isSome))) ∧
      (layer.scales_is_loaded_ = (self.scales_is_loaded_ || stores.any (fun sd =>
        (sd.get_sharded_tensor "scales" 1 self.rank_ self.world_size_).isSome))) ∧
      (∀ sd ∈ stores, ∀ t, sd.get_sharded_tensor "qweight" 1 self.rank_ self.world_size_ = some t →
        t.sizes = self.qweight_.sizes) ∧
      (∀ sd ∈ stores, ∀ t, sd.get_sharded_tensor "qzeros" 1 self.rank_ self.world_size_ = some t →
        t.sizes = self.qzeros_.sizes) ∧
      (∀ sd ∈ stores, ∀ t, sd.get_sharded_tensor "scales" 1 self.rank_ self.world_size_ = some t →
        t.sizes = self.scales_.sizes) := by
  induction stores with
  | nil =>
    intro self layer h
    simp [load_state_dicts, pure, Except.pure] at h
    subst h
    simp
  | cons sd rest ih =>
    intro self layer h
    simp only [load_state_dicts, List.foldlM_cons, bind, Except.bind] at h
    cases hmid : self.load_state_dict sd with
    | error e => rw [hmid] at h; cases h
    | ok mid =>
      rw [hmid] at h
      obtain ⟨hr, hw, s1, s2, s3, q1, q2, z1, z2, c1, c2⟩ := column_load_state_dict_step self mid sd hmid
      obtain ⟨ir, iw, i1, i2, i3, f1, f2, f3, m1, m2, m3⟩ := ih mid layer h
      rw [hr, hw] at f1 f2 f3 m1 m2 m3
      refine ⟨ir.trans hr, iw.trans hw, i1.trans s1, i2.trans s2, i3.trans s3, ?_, ?_, ?_,
        ?_, ?_, ?_⟩
      · rw [f1, List.any_cons]
        cases hq : sd.get_sharded_tensor "qweight" 1 self.rank_ self.world_size_ with
        | none => simp [(q2 hq).2]
        | some t => simp [(q1 t hq).2.2]
      · rw [f2, List.any_cons]
        cases hq : sd.get_sharded_tensor "qzeros" 1 self.rank_ self.world_size_ with
        | none => simp [(z2 hq).2]
        | some t => simp [(z1 t hq).2.2]
      · rw [f3, List.any_cons]
        cases hq : sd.get_sharded_tensor "scales" 1 self.rank_ self.world_size_ with
        | none => simp [(c2 hq).2]
        | some t => simp [(c1 t hq).2.2]
      · intro sd' hmem t ht
        rcases List.mem_cons.mp hmem with rfl | hmem
        · exact (q1 t ht).1
        · exact (m1 sd' hmem t ht).trans s1
      · intro sd' hmem t ht
        rcases List.mem_cons.mp hmem with rfl | hmem
        · exact (z1 t ht).1
        · exact (m2 sd' hmem t ht).trans s2
      · intro sd' hmem t ht
        rcases List.mem_cons.mp hmem with rfl | hmem
        · exact (c1 t ht).1
        · exact (m3 sd' hmem t ht).trans s3

theorem column_verify_loaded_weights_isOk (self : ColumnParallelQLinearImpl) (prefix_ : String) :
    (self.verify_loaded_weights prefix_).isOk =
      (self.qweight_is_loaded_ && self.qzeros_is_loaded_ && self.scales_is_loaded_) := by
  unfold verify_loaded_weights
  cases self.qweight_is_loaded_ <;> cases self.qzeros_is_loaded_ <;>
  cases self.scales_is_loaded_ <;>
  simp [CHECK, bind, Except.bind, Except.isOk, Except.toBool]

end ColumnParallelQLinearImpl

namespace RowParallelQLinearImpl

theorem row_load_state_dict_step (self layer : RowParallelQLinearImpl) (sd : StateDict)
    (h : self.load_state_dict sd = Except.ok layer) :
    layer.rank_ = self.rank_ ∧ layer.world_size_ = self.world_size_ ∧
    layer.qweight_.sizes = self.qweight_.sizes ∧ layer.qzeros_.sizes = self.qzeros_.sizes ∧
    layer.scales_.sizes = self.scales_.sizes ∧
    (∀ t, sd.get_sharded_tensor "qweight" 0 self.rank_ self.world_size_ = some t →
      t.sizes = self.qweight_.sizes ∧ layer.qweight_ = t ∧ layer.qweight_is_loaded_ = true) ∧
    (sd.get_sharded_tensor "qweight" 0 self.rank_ self.world_size_ = none →
      layer.qweight_ = self.qweight_ ∧ layer.qweight_is_loaded_ = self.qweight_is_loaded_) ∧
    (∀ t, sd.get_sharded_tensor "qzeros" 0 self.rank_ self.world_size_ = some t →
      t.sizes = self.qzeros_.sizes ∧ layer.qzeros_ = t ∧ layer.qzeros_is_loaded_ = true) ∧
    (sd.get_sharded_tensor "qzeros" 0 self.rank_ self.world_size_ = none →
      layer.qzeros_ = self.qzeros_ ∧ layer.qzeros_is_loaded_ = self.qzeros_is_loaded_) ∧
    (∀ t, sd.get_sharded_tensor "scales" 0 self.rank_ self.world_size_ = some t →
      t.sizes = self.scales_.sizes ∧ layer.scales_ = t ∧ layer.scales_is_loaded_ = true) ∧
    (sd.get_sharded_tensor "scales" 0 self.rank_ self.world_size_ = none →
      layer.scales_ = self.scales_ ∧ layer.scales_is_loaded_ = self.scales_is_loaded_) := by
  unfold load_state_dict at h
  cases hq : sd.get_sharded_tensor "qweight" 0 self.rank_ self.world_size_ <;>
  cases hz : sd.get_sharded_tensor "qzeros" 0 self.rank_ self.world_size_ <;>
  cases hs : sd.get_sharded_tensor "scales" 0 self.rank_ self.world_size_ <;>
  simp [hq, hz, hs, CHECK, bind, Except.bind, pure, Except.pure] at h
  all_goals
    (try split_ifs at h)
    all_goals (try simp at h)
    all_goals subst h
    all_goals simp [Tensor.copy_eq_of_sizes, Tensor.copy_, *]

theorem row_load_state_dict_isOk (self : RowParallelQLinearImpl) (sd : StateDict) :
    (self.load_state_dict sd).isOk = true ↔
      (∀ t, sd.get_sharded_tensor "qweight" 0 self.rank_ self.world_size_ = some t →
        self.qweight_.sizes = t.sizes) ∧
      (∀ t, sd.get_sharded_tensor "qzeros" 0 self.rank_ self.world_size_ = some t →
        self.qzeros_.sizes = t.sizes) ∧
      (∀ t, sd.get_sharded_tensor "scales" 0 self.rank_ self.world_size_ = some t →
        self.scales_.sizes = t.sizes) := by
  unfold load_state_dict
  cases hq : sd.get_sharded_tensor "qweight" 0 self.rank_ self.world_size_ <;>
  cases hz : sd.get_sharded_tensor "qzeros" 0 self.rank_ self.world_size_ <;>
  cases hs : sd.get_sharded_tensor "scales" 0 self.rank_ self.world_size_ <;>
  simp only [hq, hz, hs, CHECK, bind, Except.bind, pure, Except.pure, beq_iff_eq,
    decide_eq_true_eq]
  all_goals
    (try split_ifs) <;>
    simp [Except.isOk, Except.toBool, Tensor.copy_, *]

theorem row_construct_fresh (in_features out_features bits group_size qweight_pack_dim rank
    world_size : Int) (layer : RowParallelQLinearImpl)
    (h : (construct in_features out_features bits group_size qweight_pack_dim rank
      world_size).1 = Except.ok layer) :
    layer.qweight_is_loaded_ = false ∧ layer.qzeros_is_loaded_ = false ∧
    layer.scales_is_loaded_ = false := by
  obtain ⟨-, -, -, -, -, -, -, -, -, hl⟩ := row_construct_inv in_features out_features bits
    group_size qweight_pack_dim rank world_size layer h
  subst hl
  simp

theorem row_load_state_dicts_inv (stores : List StateDict) :
    ∀ self layer : RowParallelQLinearImpl, self.load_state_dicts stores = Except.ok layer →
      layer.rank_ = self.rank_ ∧ layer.world_size_ = self.world_size_ ∧
      layer.qweight_.sizes = self.qweight_.sizes ∧ layer.qzeros_.sizes = self.qzeros_.sizes ∧
      layer.scales_.sizes = self.scales_.sizes ∧
      (layer.qweight_is_loaded_ = (self.qweight_is_loaded_ || stores.any (fun sd =>
        (sd.get_sharded_tensor "qweight" 0 self.rank_ self.world_size_).isSome))) ∧
      (layer.qzeros_is_loaded_ = (self.qzeros_is_loaded_ || stores.any (fun sd =>
        (sd.get_sharded_tensor "qzeros" 0 self.rank_ self.world_size_).isSome))) ∧
      (layer.scales_is_loaded_ = (self.scales_is_loaded_ || stores.any (fun sd =>
        (sd.get_sharded_tensor "scales" 0 self.rank_ self.world_size_).isSome))) ∧
      (∀ sd ∈ stores, ∀ t, sd.get_sharded_tensor "qweight" 0 self.rank_ self.world_size_ = some t →
        t.sizes = self.qweight_.sizes) ∧
      (∀ sd ∈ stores, ∀ t, sd.get_sharded_tensor "qzeros" 0 self.rank_ self.world_size_ = some t →
        t.sizes = self.qzeros_.sizes) ∧
      (∀ sd ∈ stores, ∀ t, sd.get_sharded_tensor "scales" 0 self.rank_ self.world_size_ = some t →
        t.sizes = self.scales_.sizes) := by
  induction stores with
  | nil =>
    intro self layer h
    simp [load_state_dicts, pure, Except.pure] at h
    subst h
    simp
  | cons sd rest ih =>
    intro self layer h
    simp only [load_state_dicts, List.foldlM_cons, bind, Except.bind] at h
    cases hmid : self.load_state_dict sd with
    | error e => rw [hmid] at h; cases h
    | ok mid =>
      rw [hmid] at h
      obtain ⟨hr, hw, s1, s2, s3, q1, q2, z1, z2, c1, c2⟩ := row_load_state_dict_step self mid sd hmid
      obtain ⟨ir, iw, i1, i2, i3, f1, f2, f3, m1, m2, m3⟩ := ih mid layer h
      rw [hr, hw] at f1 f2 f3 m1 m2 m3
      refine ⟨ir.trans hr, iw.trans hw, i1.trans s1, i2.trans s2, i3.trans s3, ?_, ?_, ?_,
        ?_, ?_, ?_⟩
      · rw [f1, List.any_cons]
        cases hq : sd.get_sharded_tensor "qweight" 0 self.rank_ self.world_size_ with
        | none => simp [(q2 hq).2]
        | some t => simp [(q1 t hq).2.2]
      · rw [f2, List.any_cons]
        cases hq : sd.get_sharded_tensor "qzeros" 0 self.rank_ self.world_size_ with
        | none => simp [(z2 hq).2]
        | some t => simp [(z1 t hq).2.2]
      · rw [f3, List.any_cons]
        cases hq : sd.get_sharded_tensor "scales" 0 self.rank_ self.world_size_ with
        | none => simp [(c2 hq).2]
        | some t => simp [(c1 t hq).2.2]
      · intro sd' hmem t ht
        rcases List.mem_cons.mp hmem with rfl | hmem
        · exact (q1 t ht).1
        · exact (m1 sd' hmem t ht).trans s1
      · intro sd' hmem t ht
        rcases List.mem_cons.mp hmem with rfl | hmem
        · exact (z1 t ht).1
        · exact (m2 sd' hmem t ht).trans s2
      · intro sd' hmem t ht
        rcases List.mem_cons.mp hmem with rfl | hmem
        · exact (c1 t ht).1
        · exact (m3 sd' hmem t ht).trans s3

theorem row_verify_loaded_weights_isOk (self : RowParallelQLinearImpl) (prefix_ : String) :
    (self.verify_loaded_weights prefix_).isOk =
      (self.qweight_is_loaded_ && self.qzeros_is_loaded_ && self.scales_is_loaded_) := by
  unfold verify_loaded_weights
  cases self.qweight_is_loaded_ <;> cases self.qzeros_is_loaded_ <;>
  cases self.scales_is_loaded_ <;>
  simp [CHECK, bind, Except.bind, Except.isOk, Except.toBool]

end RowParallelQLinearImpl


/-! ## Direct-mode loading: the claims -/

/-- C1. Completeness gate: for a freshly constructed column-parallel (and likewise
row-parallel) layer and a run of direct-mode `load_state_dict` calls none of which
aborts, `verify_loaded_weights` fails exactly when for at least one of `qweight`,
`qzeros`, `scales` no call of the run got from its store a defined tensor with the
sizes of the parameter. -/
theorem completeness_gate
    (in_features out_features bits group_size qweight_pack_dim rank world_size : Int)
    (cfresh clayer : ColumnParallelQLinearImpl) (cstores : List StateDict) (cprefix_ : String)
    (hc : (ColumnParallelQLinearImpl.construct in_features out_features bits group_size
      qweight_pack_dim rank world_size).1 = Except.ok cfresh)
    (hcl : cfresh.load_state_dicts cstores = Except.ok clayer)
    (rin_features rout_features rbits rgroup_size rqweight_pack_dim rrank rworld_size : Int)
    (rfresh rlayer : RowParallelQLinearImpl) (rstores : List StateDict) (rprefix_ : String)
    (hr : (RowParallelQLinearImpl.construct rin_features rout_features rbits rgroup_size
      rqweight_pack_dim rrank rworld_size).1 = Except.ok rfresh)
    (hrl : rfresh.load_state_dicts rstores = Except.ok rlayer) :
    ((clayer.verify_loaded_weights cprefix_).isOk = false ↔
      (∀ sd ∈ cstores, ¬ ∃ t, sd.get_sharded_tensor "qweight" 1 cfresh.rank_ cfresh.world_size_
          = some t ∧ t.sizes = cfresh.qweight_.sizes) ∨
      (∀ sd ∈ cstores, ¬ ∃ t, sd.get_sharded_tensor "qzeros" 1 cfresh.rank_ cfresh.world_size_
          = some t ∧ t.sizes = cfresh.qzeros_.sizes) ∨
      (∀ sd ∈ cstores, ¬ ∃ t, sd.get_sharded_tensor "scales" 1 cfresh.rank_ cfresh.world_size_
          = some t ∧ t.sizes = cfresh.scales_.sizes)) ∧
    ((rlayer.verify_loaded_weights rprefix_).isOk = false ↔
      (∀ sd ∈ rstores, ¬ ∃ t, sd.get_sharded_tensor "qweight" 0 rfresh.rank_ rfresh.world_size_
          = some t ∧ t.sizes = rfresh.qweight_.sizes) ∨
      (∀ sd ∈ rstores, ¬ ∃ t, sd.get_sharded_tensor "qzeros" 0 rfresh.rank_ rfresh.world_size_
          = some t ∧ t.sizes = rfresh.qzeros_.sizes) ∨
      (∀ sd ∈ rstores, ¬ ∃ t, sd.get_sharded_tensor "scales" 0 rfresh.rank_ rfresh.world_size_
          = some t ∧ t.sizes = rfresh.scales_.sizes)) := by
  have aux : ∀ (stores : List StateDict) (flag : Bool) (f : StateDict → Option Tensor)
      (sizes : List Int),
      flag = (false || stores.any (fun sd => (f sd).isSome)) →
      (∀ sd ∈ stores, ∀ t, f sd = some t → t.sizes = sizes) →
      (flag = false ↔ ∀ sd ∈ stores, ¬ ∃ t, f sd = some t ∧ t.sizes = sizes) := by
    intro stores flag f sizes hf hm
    rw [hf, Bool.false_or]
    constructor
    · intro hany sd hsd ⟨t, ht, _⟩
      have : stores.any (fun sd => (f sd).isSome) = true :=
        List.any_eq_true.mpr ⟨sd, hsd, by simp [ht]⟩
      rw [hany] at this
      cases this
    · intro hall
      rw [Bool.eq_false_iff]
      intro hany
      obtain ⟨sd, hsd, hsome⟩ := List.any_eq_true.mp hany
      obtain ⟨t, ht⟩ := Option.isSome_iff_exists.mp hsome
      exact hall sd hsd ⟨t, ht, hm sd hsd t ht⟩
  constructor
  · obtain ⟨fq, fz, fs, -⟩ := ColumnParallelQLinearImpl.column_construct_fresh _ _ _ _ _ _ _ _ hc
    obtain ⟨-, -, -, -, -, lq, lz, ls, mq, mz, ms⟩ :=
      ColumnParallelQLinearImpl.column_load_state_dicts_inv cstores cfresh clayer hcl
    rw [fq] at lq
    rw [fz] at lz
    rw [fs] at ls
    rw [ColumnParallelQLinearImpl.column_verify_loaded_weights_isOk,
      ← aux _ _ _ _ lq mq, ← aux _ _ _ _ lz mz, ← aux _ _ _ _ ls ms]
    cases clayer.qweight_is_loaded_ <;> cases clayer.qzeros_is_loaded_ <;>
      cases clayer.scales_is_loaded_ <;> simp
  · obtain ⟨fq, fz, fs⟩ := RowParallelQLinearImpl.row_construct_fresh _ _ _ _ _ _ _ _ hr
    obtain ⟨-, -, -, -, -, lq, lz, ls, mq, mz, ms⟩ :=
      RowParallelQLinearImpl.row_load_state_dicts_inv rstores rfresh rlayer hrl
    rw [fq] at lq
    rw [fz] at lz
    rw [fs] at ls
    rw [RowParallelQLinearImpl.row_verify_loaded_weights_isOk,
      ← aux _ _ _ _ lq mq, ← aux _ _ _ _ lz mz, ← aux _ _ _ _ ls ms]
    cases rlayer.qweight_is_loaded_ <;> cases rlayer.qzeros_is_loaded_ <;>
      cases rlayer.scales_is_loaded_ <;> simp

/-- C2. Direct-mode load post-state and frame: after a direct-mode `load_state_dict`
that does not abort, for each of `qweight`, `qzeros`, `scales`: if
`get_sharded_tensor` (along dimension 1 for the column-parallel layer, along
dimension 0 for the row-parallel layer, with the rank and world size of the layer)
returned a defined tensor, the parameter equals that tensor and its `is_loaded`
flag is true; if it returned the undefined tensor, the parameter and its flag are
what they were before the call. -/
theorem direct_load_post_state_and_frame
    (cself clayer : ColumnParallelQLinearImpl) (sd : StateDict)
    (hc : cself.load_state_dict sd = Except.ok clayer)
    (rself rlayer : RowParallelQLinearImpl) (rsd : StateDict)
    (hr : rself.load_state_dict rsd = Except.ok rlayer) :
    ((∀ t, sd.get_sharded_tensor "qweight" 1 cself.rank_ cself.world_size_ = some t →
        clayer.qweight_ = t ∧ clayer.qweight_is_loaded_ = true) ∧
     (sd.get_sharded_tensor "qweight" 1 cself.rank_ cself.world_size_ = none →
        clayer.qweight_ = cself.qweight_ ∧
        clayer.qweight_is_loaded_ = cself.qweight_is_loaded_) ∧
     (∀ t, sd.get_sharded_tensor "qzeros" 1 cself.rank_ cself.world_size_ = some t →
        clayer.qzeros_ = t ∧ clayer.qzeros_is_loaded_ = true) ∧
     (sd.get_sharded_tensor "qzeros" 1 cself.rank_ cself.world_size_ = none →
        clayer.qzeros_ = cself.qzeros_ ∧
        clayer.qzeros_is_loaded_ = cself.qzeros_is_loaded_) ∧
     (∀ t, sd.get_sharded_tensor "scales" 1 cself.rank_ cself.world_size_ = some t →
        clayer.scales_ = t ∧ clayer.scales_is_loaded_ = true) ∧
     (sd.get_sharded_tensor "scales" 1 cself.rank_ cself.world_size_ = none →
        clayer.scales_ = cself.scales_ ∧
        clayer.scales_is_loaded_ = cself.scales_is_loaded_)) ∧
    ((∀ t, rsd.get_sharded_tensor "qweight" 0 rself.rank_ rself.world_size_ = some t →
        rlayer.qweight_ = t ∧ rlayer.qweight_is_loaded_ = true) ∧
     (rsd.get_sharded_tensor "qweight" 0 rself.rank_ rself.world_size_ = none →
        rlayer.qweight_ = rself.qweight_ ∧
        rlayer.qweight_is_loaded_ = rself.qweight_is_loaded_) ∧
     (∀ t, rsd.get_sharded_tensor "qzeros" 0 rself.rank_ rself.world_size_ = some t →
        rlayer.qzeros_ = t ∧ rlayer.qzeros_is_loaded_ = true) ∧
     (rsd.get_sharded_tensor "qzeros" 0 rself.rank_ rself.world_size_ = none →
        rlayer.qzeros_ = rself.qzeros_ ∧
        rlayer.qzeros_is_loaded_ = rself.qzeros_is_loaded_) ∧
     (∀ t, rsd.get_sharded_tensor "scales" 0 rself.rank_ rself.world_size_ = some t →
        rlayer.scales_ = t ∧ rlayer.scales_is_loaded_ = true) ∧
     (rsd.get_sharded_tensor "scales" 0 rself.rank_ rself.world_size_ = none →
        rlayer.scales_ = rself.scales_ ∧
        rlayer.scales_is_loaded_ = rself.scales_is_loaded_)) := by
  obtain ⟨-, -, -, -, -, q1, q2, z1, z2, s1, s2⟩ :=
    ColumnParallelQLinearImpl.column_load_state_dict_step cself clayer sd hc
  obtain ⟨-, -, -, -, -, q1r, q2r, z1r, z2r, s1r, s2r⟩ :=
    RowParallelQLinearImpl.row_load_state_dict_step rself rlayer rsd hr
  exact ⟨⟨fun t ht => (q1 t ht).2, q2, fun t ht => (z1 t ht).2, z2, fun t ht => (s1 t ht).2, s2⟩,
    ⟨fun t ht => (q1r t ht).2, q2r, fun t ht => (z1r t ht).2, z2r,
      fun t ht => (s1r t ht).2, s2r⟩⟩

/-- C3. Direct-mode load failure condition: a direct-mode `load_state_dict` call, of
the column-parallel or of the row-parallel layer, aborts exactly when for at least
one of `qweight`, `qzeros`, `scales` the store returns a defined tensor whose sizes
differ from those of the pre-allocated parameter; when the store returns the
undefined tensor for all three, the call succeeds and leaves the layer as it was. -/
theorem direct_load_fails_iff_shape_mismatch
    (cself : ColumnParallelQLinearImpl) (sd : StateDict)
    (rself : RowParallelQLinearImpl) (rsd : StateDict) :
    ((cself.load_state_dict sd).isOk = false ↔
      (∃ t, sd.get_sharded_tensor "qweight" 1 cself.rank_ cself.world_size_ = some t ∧
        t.sizes ≠ cself.qweight_.sizes) ∨
      (∃ t, sd.get_sharded_tensor "qzeros" 1 cself.rank_ cself.world_size_ = some t ∧
        t.sizes ≠ cself.qzeros_.sizes) ∨
      (∃ t, sd.get_sharded_tensor "scales" 1 cself.rank_ cself.world_size_ = some t ∧
        t.sizes ≠ cself.scales_.sizes)) ∧
    ((rself.load_state_dict rsd).isOk = false ↔
      (∃ t, rsd.get_sharded_tensor "qweight" 0 rself.rank_ rself.world_size_ = some t ∧
        t.sizes ≠ rself.qweight_.sizes) ∨
      (∃ t, rsd.get_sharded_tensor "qzeros" 0 rself.rank_ rself.world_size_ = some t ∧
        t.sizes ≠ rself.qzeros_.sizes) ∨
      (∃ t, rsd.get_sharded_tensor "scales" 0 rself.rank_ rself.world_size_ = some t ∧
        t.sizes ≠ rself.scales_.sizes)) ∧
    (sd.get_sharded_tensor "qweight" 1 cself.rank_ cself.world_size_ = none ∧
      sd.get_sharded_tensor "qzeros" 1 cself.rank_ cself.world_size_ = none ∧
      sd.get_sharded_tensor "scales" 1 cself.rank_ cself.world_size_ = none →
      cself.load_state_dict sd = Except.ok cself) ∧
    (rsd.get_sharded_tensor "qweight" 0 rself.rank_ rself.world_size_ = none ∧
      rsd.get_sharded_tensor "qzeros" 0 rself.rank_ rself.world_size_ = none ∧
      rsd.get_sharded_tensor "scales" 0 rself.rank_ rself.world_size_ = none →
      rself.load_state_dict rsd = Except.ok rself) := by
  refine ⟨?_, ?_, ?_, ?_⟩
  · rw [← Bool.not_eq_true, ColumnParallelQLinearImpl.column_load_state_dict_isOk]
    simp only [not_and_or, not_forall, exists_prop, ne_eq, eq_comm]
  · rw [← Bool.not_eq_true, RowParallelQLinearImpl.row_load_state_dict_isOk]
    simp only [not_and_or, not_forall, exists_prop, ne_eq, eq_comm]
  · rintro ⟨hq, hz, hs⟩
    simp [ColumnParallelQLinearImpl.load_state_dict, hq, hz, hs, pure, Except.pure, bind,
      Except.bind]
  · rintro ⟨hq, hz, hs⟩
    simp [RowParallelQLinearImpl.load_state_dict, hq, hz, hs, pure, Except.pure, bind,
      Except.bind]

/-! ## Fused loading: the prefix loop, the accumulator and the run invariant -/

namespace ColumnParallelQLinearImpl

theorem assign_slot_range (n k : Nat) (g : Nat → Option Tensor) (msg : String) :
    assign_slot ((List.range n).map (fun j => if j < k then g j else none)) k (g k) msg =
      Except.ok ((List.range n).map (fun j => if j < k + 1 then g j else none)) := by
  have hcongr : ∀ t, g k = t →
      ((List.range n).map (fun j => if j < k then g j else none)).set k t =
        (List.range n).map (fun j => if j < k + 1 then g j else none) := by
    intro t ht
    apply List.ext_getElem?
    intro i
    rw [List.getElem?_set]
    by_cases hin : i < n
    · by_cases hik : k = i
      · subst hik
        simp [hin, List.getElem?_range, ht]
      · have : (i < k + 1) ↔ (i < k) := by omega
        simp [hik, hin, List.getElem?_range, this]
    · have hge : n ≤ i := Nat.le_of_not_lt hin
      by_cases hik : k = i
      · subst hik
        simp [hin, List.getElem?_eq_none, hge]
      · simp [hik, List.getElem?_eq_none, hge]
  cases hg : g k with
  | none =>
    simp only [assign_slot, pure, Except.pure]
    congr 1
    apply List.map_congr_left
    intro j _
    by_cases hjk : j < k
    · have : j < k + 1 := by omega
      simp [hjk, this]
    · by_cases hj : j = k
      · subst hj
        simp [hg]
      · have : ¬ j < k + 1 := by omega
        simp [hjk, this]
  | some t =>
    have hnone : (((List.range n).map (fun j => if j < k then g j else none)).getD k none).isNone
        = true := by
      rw [List.getD_eq_getElem?_getD]
      by_cases hkn : k < n
      · simp [List.getElem?_range hkn]
      · simp [List.getElem?_eq_none, Nat.le_of_not_lt hkn]
    simp only [assign_slot, CHECK, hnone, if_true, bind, Except.bind, pure, Except.pure]
    rw [hcongr (some t) hg]

theorem fused_loop_upto (self : ColumnParallelQLinearImpl) (sd : StateDict)
    (prefixes : List String) (k : Nat) :
    (List.range k).foldlM (fused_loop_body self sd prefixes)
      (List.replicate prefixes.length none, List.replicate prefixes.length none,
        List.replicate prefixes.length none) =
    Except.ok
      ((List.range prefixes.length).map (fun j => if j < k then
          sd.get_sharded_tensor (prefixes.getD j "" ++ "qweight") 1 self.rank_ self.world_size_
          else none),
       (List.range prefixes.length).map (fun j => if j < k then
          sd.get_sharded_tensor (prefixes.getD j "" ++ "qzeros") 1 self.rank_ self.world_size_
          else none),
       (List.range prefixes.length).map (fun j => if j < k then
          sd.get_sharded_tensor (prefixes.getD j "" ++ "scales") 1 self.rank_ self.world_size_
          else none)) := by
  induction k with
  | zero =>
    simp only [List.range_zero, List.foldlM_nil, pure, Except.pure, Nat.not_lt_zero, if_false]
    have h : ∀ n : Nat, List.replicate n (none : Option Tensor) =
        (List.range n).map (fun _ => none) := by
      intro n
      apply List.ext_getElem?
      intro i
      by_cases hin : i < n
      · simp [hin, List.getElem?_range]
      · simp [List.getElem?_eq_none, Nat.le_of_not_lt hin]
    rw [h]
  | succ k ih =>
    rw [List.range_succ, List.foldlM_append, ih]
    simp only [bind, Except.bind, List.foldlM_cons, List.foldlM_nil, fused_loop_body]
    rw [assign_slot_range prefixes.length k (fun j =>
        sd.get_sharded_tensor (prefixes.getD j "" ++ "qweight") 1 self.rank_ self.world_size_),
      assign_slot_range prefixes.length k (fun j =>
        sd.get_sharded_tensor (prefixes.getD j "" ++ "qzeros") 1 self.rank_ self.world_size_),
      assign_slot_range prefixes.length k (fun j =>
        sd.get_sharded_tensor (prefixes.getD j "" ++ "scales") 1 self.rank_ self.world_size_)]
    rfl

theorem range_map_getD (prefixes : List String) (f : String → Option Tensor) :
    (List.range prefixes.length).map (fun j => if j < prefixes.length then
        f (prefixes.getD j "") else none) = prefixes.map f := by
  apply List.ext_getElem?
  intro i
  by_cases hin : i < prefixes.length
  · simp [hin, List.getElem?_range, List.getElem?_eq_getElem]
  · simp [List.getElem?_eq_none, Nat.le_of_not_lt hin]

theorem fused_loop_eq (self : ColumnParallelQLinearImpl) (sd : StateDict)
    (prefixes : List String) :
    (List.range prefixes.length).foldlM (fused_loop_body self sd prefixes)
      (List.replicate prefixes.length none, List.replicate prefixes.length none,
        List.replicate prefixes.length none) =
    Except.ok
      (prefixes.map (fun p =>
          sd.get_sharded_tensor (p ++ "qweight") 1 self.rank_ self.world_size_),
       prefixes.map (fun p =>
          sd.get_sharded_tensor (p ++ "qzeros") 1 self.rank_ self.world_size_),
       prefixes.map (fun p =>
          sd.get_sharded_tensor (p ++ "scales") 1 self.rank_ self.world_size_)) := by
  rw [fused_loop_upto,
    range_map_getD prefixes (fun p =>
      sd.get_sharded_tensor (p ++ "qweight") 1 self.rank_ self.world_size_),
    range_map_getD prefixes (fun p =>
      sd.get_sharded_tensor (p ++ "qzeros") 1 self.rank_ self.world_size_),
    range_map_getD prefixes (fun p =>
      sd.get_sharded_tensor (p ++ "scales") 1 self.rank_ self.world_size_)]

end ColumnParallelQLinearImpl


namespace details

theorem fill_slots_nil (nm : String) (weights : List (Option Tensor)) :
    fill_slots nm weights [] = Except.ok weights := by
  cases weights <;> simp [fill_slots]

theorem fill_slots_map (nm : String) (g h : String → Option Tensor) (ps : List String) :
    ∀ acc, fill_slots nm (ps.map g) (ps.map h) = Except.ok acc →
      acc = ps.map (fun p => (h p).or (g p)) ∧ ∀ p ∈ ps, (h p).isSome = true → g p = none := by
  induction ps with
  | nil =>
    intro acc hok
    simp [fill_slots] at hok
    subst hok
    simp
  | cons p ps ih =>
    intro acc hok
    simp only [List.map_cons] at hok
    cases hg : g p with
    | none =>
      rw [hg] at hok
      simp only [fill_slots] at hok
      cases hrest : fill_slots nm (ps.map g) (ps.map h) with
      | error e => rw [hrest] at hok; cases hok
      | ok rest =>
        rw [hrest] at hok
        simp only [Except.map] at hok
        injection hok with hok
        obtain ⟨hr, hd⟩ := ih rest hrest
        subst hok
        refine ⟨by simp [hg, hr], ?_⟩
        intro q hq hsome
        rcases List.mem_cons.mp hq with rfl | hq
        · exact hg
        · exact hd q hq hsome
    | some w =>
      rw [hg] at hok
      cases hh : h p with
      | some a =>
        rw [hh] at hok
        simp only [fill_slots] at hok
        cases hok
      | none =>
        rw [hh] at hok
        simp only [fill_slots] at hok
        cases hrest : fill_slots nm (ps.map g) (ps.map h) with
        | error e => rw [hrest] at hok; cases hok
        | ok rest =>
          rw [hrest] at hok
          simp only [Except.map] at hok
          injection hok with hok
          obtain ⟨hr, hd⟩ := ih rest hrest
          subst hok
          refine ⟨by simp [hg, hh, hr], ?_⟩
          intro q hq hsome
          rcases List.mem_cons.mp hq with rfl | hq
          · rw [hh] at hsome
            cases hsome
          · exact hd q hq hsome

theorem merge_weights_ok (nm : String) (weight_list : List (Option Tensor)) (dim : Int)
    (cl : Bool) (acc : List (Option Tensor)) (weight : Tensor) (flag : Bool)
    (acc1 : List (Option Tensor)) (weight1 : Tensor)
    (h : merge_weights nm weight_list dim cl acc weight = Except.ok (flag, acc1, weight1)) :
    fill_slots nm weight_list acc = Except.ok acc1 ∧ flag = acc1.all Option.isSome ∧
    (flag = true → Tensor.cat (acc1.filterMap id) dim = some weight1) ∧
    (flag = false → weight1 = weight) := by
  unfold merge_weights at h
  cases hf : fill_slots nm weight_list acc with
  | error e =>
    rw [hf] at h
    cases h
  | ok filled =>
    rw [hf] at h
    simp only [bind, Except.bind] at h
    by_cases hall : filled.all Option.isSome = true
    · rw [if_pos hall] at h
      cases hcat : Tensor.cat (filled.filterMap id) dim with
      | none =>
        rw [hcat] at h
        cases h
      | some merged =>
        rw [hcat] at h
        simp only [CHECK] at h
        by_cases hs : weight.sizes = merged.sizes
        · simp only [hs, beq_self_eq_true, if_true, pure, Except.pure] at h
          injection h with h
          injection h with h1 h2
          injection h2 with h2 h3
          subst h1 h2 h3
          refine ⟨rfl, hall.symm, ?_, ?_⟩
          · intro _
            rw [hcat, Tensor.copy_eq_of_sizes _ _ hs]
          · intro hc
            cases hc
        · have : (weight.sizes == merged.sizes) = false := by simpa using hs
          simp only [this] at h
          cases h
    · rw [if_neg hall] at h
      simp only [pure, Except.pure] at h
      injection h with h
      injection h with h1 h2
      injection h2 with h2 h3
      subst h1 h2 h3
      refine ⟨rfl, ?_, ?_, ?_⟩
      · simpa using hall
      · intro hc
        cases hc
      · intro _
        rfl

theorem merge_weights_error (nm : String) (weight_list : List (Option Tensor)) (dim : Int)
    (cl : Bool) (acc : List (Option Tensor)) (weight : Tensor) (e : String)
    (h : fill_slots nm weight_list acc = Except.error e) :
    merge_weights nm weight_list dim cl acc weight = Except.error e := by
  unfold merge_weights
  rw [h]
  rfl

end details


namespace ColumnParallelQLinearImpl

theorem load_state_dict_fused_ok (self layer : ColumnParallelQLinearImpl) (sd : StateDict)
    (prefixes : List String) (h : self.load_state_dict_fused sd prefixes = Except.ok layer) :
    layer.rank_ = self.rank_ ∧ layer.world_size_ = self.world_size_ ∧
    details.merge_weights name
      (prefixes.map (fun p =>
        sd.get_sharded_tensor (p ++ "qweight") 1 self.rank_ self.world_size_))
      1 true self.qweight_list_ self.qweight_ =
        Except.ok (layer.qweight_is_loaded_, layer.qweight_list_, layer.qweight_) ∧
    details.merge_weights name
      (prefixes.map (fun p =>
        sd.get_sharded_tensor (p ++ "qzeros") 1 self.rank_ self.world_size_))
      1 true self.qzeros_list_ self.qzeros_ =
        Except.ok (layer.qzeros_is_loaded_, layer.qzeros_list_, layer.qzeros_) ∧
    details.merge_weights name
      (prefixes.map (fun p =>
        sd.get_sharded_tensor (p ++ "scales") 1 self.rank_ self.world_size_))
      1 true self.scales_list_ self.scales_ =
        Except.ok (layer.scales_is_loaded_, layer.scales_list_, layer.scales_) := by
  unfold load_state_dict_fused at h
  simp only [fused_loop_eq, bind, Except.bind] at h
  cases hq : details.merge_weights name
      (prefixes.map (fun p =>
        sd.get_sharded_tensor (p ++ "qweight") 1 self.rank_ self.world_size_))
      1 true self.qweight_list_ self.qweight_ with
  | error e => rw [hq] at h; cases h
  | ok rq =>
    obtain ⟨fq, lq, wq⟩ := rq
    rw [hq] at h
    simp only at h
    cases hz : details.merge_weights name
        (prefixes.map (fun p =>
          sd.get_sharded_tensor (p ++ "qzeros") 1 self.rank_ self.world_size_))
        1 true self.qzeros_list_ self.qzeros_ with
    | error e => rw [hz] at h; cases h
    | ok rz =>
      obtain ⟨fz, lz, wz⟩ := rz
      rw [hz] at h
      simp only at h
      cases hs : details.merge_weights name
          (prefixes.map (fun p =>
            sd.get_sharded_tensor (p ++ "scales") 1 self.rank_ self.world_size_))
          1 true self.scales_list_ self.scales_ with
      | error e => rw [hs] at h; cases h
      | ok rs =>
        obtain ⟨fs, ls, ws⟩ := rs
        rw [hs] at h
        simp only [pure, Except.pure] at h
        injection h with h
        subst h
        simp

theorem load_state_dict_fused_error (self : ColumnParallelQLinearImpl) (sd : StateDict)
    (prefixes : List String)
    (h : (∃ e, details.merge_weights name
        (prefixes.map (fun p =>
          sd.get_sharded_tensor (p ++ "qweight") 1 self.rank_ self.world_size_))
        1 true self.qweight_list_ self.qweight_ = Except.error e) ∨
      (∃ e, details.merge_weights name
        (prefixes.map (fun p =>
          sd.get_sharded_tensor (p ++ "qzeros") 1 self.rank_ self.world_size_))
        1 true self.qzeros_list_ self.qzeros_ = Except.error e) ∨
      (∃ e, details.merge_weights name
        (prefixes.map (fun p =>
          sd.get_sharded_tensor (p ++ "scales") 1 self.rank_ self.world_size_))
        1 true self.scales_list_ self.scales_ = Except.error e)) :
    ∃ msg, self.load_state_dict_fused sd prefixes = Except.error msg := by
  cases hl : self.load_state_dict_fused sd prefixes with
  | error msg => exact ⟨msg, rfl⟩
  | ok layer =>
    obtain ⟨-, -, hq, hz, hs⟩ := load_state_dict_fused_ok self layer sd prefixes hl
    rcases h with ⟨e, he⟩ | ⟨e, he⟩ | ⟨e, he⟩
    · rw [hq] at he; cases he
    · rw [hz] at he; cases he
    · rw [hs] at he; cases he

end ColumnParallelQLinearImpl


namespace ColumnParallelQLinearImpl

theorem slot_tensor_append (self : ColumnParallelQLinearImpl) (init : List StateDict)
    (sd : StateDict) (param p : String) :
    slot_tensor self (init ++ [sd]) param p =
      (slot_tensor self init param p).or
        (sd.get_sharded_tensor (p ++ param) 1 self.rank_ self.world_size_) := by
  unfold slot_tensor
  rw [List.findSome?_append]
  congr 1
  cases h : sd.get_sharded_tensor (p ++ param) 1 self.rank_ self.world_size_ <;>
    simp [List.findSome?, h]

theorem slot_tensor_isSome (self : ColumnParallelQLinearImpl) (stores : List StateDict)
    (param p : String) :
    (slot_tensor self stores param p).isSome = true ↔
      ∃ sd ∈ stores, ∃ t,
        sd.get_sharded_tensor (p ++ param) 1 self.rank_ self.world_size_ = some t := by
  unfold slot_tensor
  induction stores with
  | nil => simp
  | cons sd rest ih =>
    cases h : sd.get_sharded_tensor (p ++ param) 1 self.rank_ self.world_size_ with
    | none => simp [List.findSome?, h, ih]
    | some t => simp [List.findSome?, h]

theorem param_step (self : ColumnParallelQLinearImpl) (init : List StateDict) (sd : StateDict)
    (prefixes : List String) (param nm : String) (acc acc1 : List (Option Tensor))
    (flag1 : Bool) (w w1 : Tensor)
    (hacc : (init = [] ∧ acc = []) ∨
      (init ≠ [] ∧ acc = prefixes.map (slot_tensor self init param)))
    (hm : details.merge_weights nm
      (prefixes.map (fun p =>
        sd.get_sharded_tensor (p ++ param) 1 self.rank_ self.world_size_))
      1 true acc w = Except.ok (flag1, acc1, w1)) :
    acc1 = prefixes.map (slot_tensor self (init ++ [sd]) param) ∧
    flag1 = acc1.all Option.isSome ∧
    (flag1 = true → Tensor.cat (acc1.filterMap id) 1 = some w1) := by
  obtain ⟨hfill, hflag, hcat, -⟩ := details.merge_weights_ok _ _ _ _ _ _ _ _ _ hm
  refine ⟨?_, hflag, hcat⟩
  rcases hacc with ⟨hi, ha⟩ | ⟨-, ha⟩
  · subst hi ha
    rw [details.fill_slots_nil] at hfill
    injection hfill with hfill
    rw [← hfill]
    apply List.map_congr_left
    intro p _
    rw [slot_tensor_append]
    simp [slot_tensor]
  · subst ha
    obtain ⟨hr, -⟩ := details.fill_slots_map nm _ _ prefixes acc1 hfill
    rw [hr]
    apply List.map_congr_left
    intro p _
    rw [slot_tensor_append]

theorem load_state_dicts_fused_inv (self : ColumnParallelQLinearImpl) (prefixes : List String)
    (hq : self.qweight_list_ = []) (hz : self.qzeros_list_ = []) (hs : self.scales_list_ = [])
    (stores : List StateDict) :
    ∀ layer, self.load_state_dicts_fused stores prefixes = Except.ok layer →
      layer.rank_ = self.rank_ ∧ layer.world_size_ = self.world_size_ ∧
      ((stores = [] ∧ layer = self) ∨
       (stores ≠ [] ∧
        (layer.qweight_list_ = prefixes.map (slot_tensor self stores "qweight") ∧
         layer.qweight_is_loaded_ = layer.qweight_list_.all Option.isSome ∧
         (layer.qweight_is_loaded_ = true →
           Tensor.cat (layer.qweight_list_.filterMap id) 1 = some layer.qweight_)) ∧
        (layer.qzeros_list_ = prefixes.map (slot_tensor self stores "qzeros") ∧
         layer.qzeros_is_loaded_ = layer.qzeros_list_.all Option.isSome ∧
         (layer.qzeros_is_loaded_ = true →
           Tensor.cat (layer.qzeros_list_.filterMap id) 1 = some layer.qzeros_)) ∧
        (layer.scales_list_ = prefixes.map (slot_tensor self stores "scales") ∧
         layer.scales_is_loaded_ = layer.scales_list_.all Option.isSome ∧
         (layer.scales_is_loaded_ = true →
           Tensor.cat (layer.scales_list_.filterMap id) 1 = some layer.scales_)))) := by
  induction stores using List.reverseRecOn with
  | nil =>
    intro layer h
    simp only [load_state_dicts_fused, List.foldlM_nil, pure, Except.pure] at h
    injection h with h
    subst h
    exact ⟨rfl, rfl, Or.inl ⟨rfl, rfl⟩⟩
  | append_singleton init sd ih =>
    intro layer h
    simp only [load_state_dicts_fused, List.foldlM_append, List.foldlM_cons, List.foldlM_nil,
      bind, Except.bind] at h
    cases hmid : List.foldlM (fun layer sd => layer.load_state_dict_fused sd prefixes) self init
      with
    | error e => rw [hmid] at h; cases h
    | ok mid =>
      rw [hmid] at h
      simp only at h
      cases hl : mid.load_state_dict_fused sd prefixes with
      | error e => rw [hl] at h; cases h
      | ok last =>
        rw [hl] at h
        simp only [pure, Except.pure] at h
        injection h with h
        subst h
        obtain ⟨hr, hw, hinv⟩ := ih mid hmid
        obtain ⟨lr, lw, mq, mz, ms⟩ := load_state_dict_fused_ok mid last sd prefixes hl
        rw [hr, hw] at mq mz ms
        refine ⟨lr.trans hr, lw.trans hw, Or.inr ⟨by simp, ?_, ?_, ?_⟩⟩
        · apply param_step self init sd prefixes "qweight" name mid.qweight_list_ _ _
            mid.qweight_ _ _ mq
          rcases hinv with ⟨hi, hm⟩ | ⟨hi, hm, -, -⟩
          · exact Or.inl ⟨hi, by rw [hm, hq]⟩
          · exact Or.inr ⟨hi, hm.1⟩
        · apply param_step self init sd prefixes "qzeros" name mid.qzeros_list_ _ _
            mid.qzeros_ _ _ mz
          rcases hinv with ⟨hi, hm⟩ | ⟨hi, -, hm, -⟩
          · exact Or.inl ⟨hi, by rw [hm, hz]⟩
          · exact Or.inr ⟨hi, hm.1⟩
        · apply param_step self init sd prefixes "scales" name mid.scales_list_ _ _
            mid.scales_ _ _ ms
          rcases hinv with ⟨hi, hm⟩ | ⟨hi, -, -, hm⟩
          · exact Or.inl ⟨hi, by rw [hm, hs]⟩
          · exact Or.inr ⟨hi, hm.1⟩

end ColumnParallelQLinearImpl


theorem all_isSome_eq_map_some (l : List (Option Tensor)) (h : l.all Option.isSome = true) :
    l = (l.filterMap id).map some := by
  induction l with
  | nil => rfl
  | cons a rest ih =>
    simp only [List.all_cons, Bool.and_eq_true] at h
    cases a with
    | none => simp at h
    | some t =>
      simp only [List.filterMap_cons, id, List.map_cons]
      rw [← ih h.2]

/-! ## Fused loading: the claims -/

/-- C6. Fused-mode completion and order: for a freshly constructed column-parallel
layer, any prefix list and any run of fused-mode `load_state_dict` calls with that
list none of which aborts, each of `qweight`, `qzeros`, `scales` has its `is_loaded`
flag true only when every prefix slot has received a defined sub-tensor from one of
the calls so far, and then the parameter is the concatenation along dimension 1 of
the slot tensors taken in prefix order. -/
theorem fused_completion_and_order
    (in_features out_features bits group_size qweight_pack_dim rank world_size : Int)
    (fresh layer : ColumnParallelQLinearImpl) (stores : List StateDict)
    (prefixes : List String)
    (hc : (ColumnParallelQLinearImpl.construct in_features out_features bits group_size
      qweight_pack_dim rank world_size).1 = Except.ok fresh)
    (hrun : fresh.load_state_dicts_fused stores prefixes = Except.ok layer) :
    (layer.qweight_is_loaded_ = true →
      (∀ p ∈ prefixes, ∃ sd ∈ stores, ∃ t,
        sd.get_sharded_tensor (p ++ "qweight") 1 fresh.rank_ fresh.world_size_ = some t) ∧
      ∃ ts, prefixes.map (fresh.slot_tensor stores "qweight") = ts.map some ∧
        Tensor.cat ts 1 = some layer.qweight_) ∧
    (layer.qzeros_is_loaded_ = true →
      (∀ p ∈ prefixes, ∃ sd ∈ stores, ∃ t,
        sd.get_sharded_tensor (p ++ "qzeros") 1 fresh.rank_ fresh.world_size_ = some t) ∧
      ∃ ts, prefixes.map (fresh.slot_tensor stores "qzeros") = ts.map some ∧
        Tensor.cat ts 1 = some layer.qzeros_) ∧
    (layer.scales_is_loaded_ = true →
      (∀ p ∈ prefixes, ∃ sd ∈ stores, ∃ t,
        sd.get_sharded_tensor (p ++ "scales") 1 fresh.rank_ fresh.world_size_ = some t) ∧
      ∃ ts, prefixes.map (fresh.slot_tensor stores "scales") = ts.map some ∧
        Tensor.cat ts 1 = some layer.scales_) := by
  obtain ⟨fq, fz, fs, eq, ez, es⟩ :=
    ColumnParallelQLinearImpl.column_construct_fresh _ _ _ _ _ _ _ _ hc
  have key : ∀ (param : String) (flag : Bool) (list : List (Option Tensor)) (w : Tensor),
      list = prefixes.map (fresh.slot_tensor stores param) →
      flag = list.all Option.isSome →
      (flag = true → Tensor.cat (list.filterMap id) 1 = some w) →
      flag = true →
      (∀ p ∈ prefixes, ∃ sd ∈ stores, ∃ t,
        sd.get_sharded_tensor (p ++ param) 1 fresh.rank_ fresh.world_size_ = some t) ∧
      ∃ ts, prefixes.map (fresh.slot_tensor stores param) = ts.map some ∧
        Tensor.cat ts 1 = some w := by
    intro param flag list w hl hf hcat htrue
    have hall : list.all Option.isSome = true := by rw [← hf]; exact htrue
    refine ⟨?_, list.filterMap id, ?_, hcat htrue⟩
    · intro p hp
      apply (ColumnParallelQLinearImpl.slot_tensor_isSome fresh stores param p).mp
      have := List.all_eq_true.mp hall (fresh.slot_tensor stores param p)
        (by rw [hl]; exact List.mem_map_of_mem _ hp)
      exact this
    · rw [← hl]
      exact all_isSome_eq_map_some list hall
  obtain ⟨-, -, hinv⟩ :=
    ColumnParallelQLinearImpl.load_state_dicts_fused_inv fresh prefixes eq ez es stores layer hrun
  rcases hinv with ⟨-, hl⟩ | ⟨-, ⟨q1, q2, q3⟩, ⟨z1, z2, z3⟩, ⟨s1, s2, s3⟩⟩
  · subst hl
    refine ⟨?_, ?_, ?_⟩
    · intro h; rw [fq] at h; cases h
    · intro h; rw [fz] at h; cases h
    · intro h; rw [fs] at h; cases h
  · exact ⟨key "qweight" _ _ _ q1 q2 q3, key "qzeros" _ _ _ z1 z2 z3,
      key "scales" _ _ _ s1 s2 s3⟩

/-- C8. Fused-mode duplicate fill: when, after a run of fused-mode calls on a freshly
constructed column-parallel layer, a further fused-mode call obtains a defined
sub-tensor for slot `i` of a parameter although an earlier call of the run already
obtained one for that slot, the further call aborts. -/
theorem fused_duplicate_fill_fatal
    (in_features out_features bits group_size qweight_pack_dim rank world_size : Int)
    (fresh layer : ColumnParallelQLinearImpl) (stores : List StateDict)
    (prefixes : List String) (sd_new : StateDict) (param : String) (i : Nat)
    (hi : i < prefixes.length)
    (hparam : param = "qweight" ∨ param = "qzeros" ∨ param = "scales")
    (hc : (ColumnParallelQLinearImpl.construct in_features out_features bits group_size
      qweight_pack_dim rank world_size).1 = Except.ok fresh)
    (hrun : fresh.load_state_dicts_fused stores prefixes = Except.ok layer)
    (hfilled : ∃ sd ∈ stores, ∃ t,
      sd.get_sharded_tensor (prefixes[i] ++ param) 1 fresh.rank_ fresh.world_size_ = some t)
    (hnew : ∃ t,
      sd_new.get_sharded_tensor (prefixes[i] ++ param) 1 layer.rank_ layer.world_size_
        = some t) :
    ∃ msg, layer.load_state_dict_fused sd_new prefixes = Except.error msg := by
  obtain ⟨-, -, -, eq, ez, es⟩ :=
    ColumnParallelQLinearImpl.column_construct_fresh _ _ _ _ _ _ _ _ hc
  obtain ⟨hr, hw, hinv⟩ :=
    ColumnParallelQLinearImpl.load_state_dicts_fused_inv fresh prefixes eq ez es stores layer hrun
  have hne : stores ≠ [] := by
    rintro rfl
    obtain ⟨sd, hsd, -⟩ := hfilled
    cases hsd
  have hslot : (fresh.slot_tensor stores param prefixes[i]).isSome = true :=
    (ColumnParallelQLinearImpl.slot_tensor_isSome fresh stores param _).mpr hfilled
  have key : ∀ (w : Tensor) (list : List (Option Tensor)),
      list = prefixes.map (fresh.slot_tensor stores param) →
      ∃ e, details.merge_weights ColumnParallelQLinearImpl.name
        (prefixes.map (fun p =>
          sd_new.get_sharded_tensor (p ++ param) 1 layer.rank_ layer.world_size_))
        1 true list w = Except.error e := by
    intro w list hl
    cases hf : details.fill_slots ColumnParallelQLinearImpl.name
        (prefixes.map (fun p =>
          sd_new.get_sharded_tensor (p ++ param) 1 layer.rank_ layer.world_size_)) list with
    | error e => exact ⟨e, details.merge_weights_error _ _ _ _ _ _ _ hf⟩
    | ok acc =>
      rw [hl] at hf
      obtain ⟨-, hd⟩ := details.fill_slots_map _ _ _ prefixes acc hf
      have := hd prefixes[i] (List.getElem_mem hi) hslot
      obtain ⟨t, ht⟩ := hnew
      rw [ht] at this
      cases this
  rcases hinv with ⟨he, -⟩ | ⟨-, ⟨q1, -⟩, ⟨z1, -⟩, ⟨s1, -⟩⟩
  · exact absurd he hne
  · apply ColumnParallelQLinearImpl.load_state_dict_fused_error
    rcases hparam with rfl | rfl | rfl
    · exact Or.inl (key _ _ q1)
    · exact Or.inr (Or.inl (key _ _ z1))
    · exact Or.inr (Or.inr (key _ _ s1))

/-- C7, refuted as stated: on rank 0 of 2, the fused load of the q, k, v tensors of
`example_qkv_store` leaves `qweight` with the elements 1, 3, 5, and the direct load of
their concatenation along dimension 1 (`example_prefused_store`) leaves it with 1, 2, 3;
the two loads do not leave the same `qweight`. -/
theorem fused_merge_equivalence_counterexample :
    Tensor.cat [{ sizes := [1, 2], data := [1, 2] }, { sizes := [1, 2], data := [3, 4] },
      { sizes := [1, 2], data := [5, 6] }] 1 =
        some { sizes := [1, 6], data := [1, 2, 3, 4, 5, 6] } ∧
    ((ColumnParallelQLinearImpl.construct 8 6 4 8 0 0 2).1.bind (fun layer =>
        layer.load_state_dict_fused example_qkv_store qkv_prefixes)).map
          (fun layer => layer.qweight_) =
      Except.ok { sizes := [1, 3], data := [1, 3, 5] } ∧
    ((ColumnParallelQLinearImpl.construct 8 6 4 8 0 0 2).1.bind (fun layer =>
        layer.load_state_dict example_prefused_store)).map (fun layer => layer.qweight_) =
      Except.ok { sizes := [1, 3], data := [1, 2, 3] } ∧
    ((ColumnParallelQLinearImpl.construct 8 6 4 8 0 0 2).1.bind (fun layer =>
        layer.load_state_dict_fused example_qkv_store qkv_prefixes)).map
          (fun layer => layer.qweight_) ≠
    ((ColumnParallelQLinearImpl.construct 8 6 4 8 0 0 2).1.bind (fun layer =>
        layer.load_state_dict example_prefused_store)).map (fun layer => layer.qweight_) := by
  have e1 : ((ColumnParallelQLinearImpl.construct 8 6 4 8 0 0 2).1.bind (fun layer =>
        layer.load_state_dict_fused example_qkv_store qkv_prefixes)).map
          (fun layer => layer.qweight_) =
      Except.ok { sizes := [1, 3], data := [1, 3, 5] } := rfl
  have e2 : ((ColumnParallelQLinearImpl.construct 8 6 4 8 0 0 2).1.bind (fun layer =>
        layer.load_state_dict example_prefused_store)).map (fun layer => layer.qweight_) =
      Except.ok { sizes := [1, 3], data := [1, 2, 3] } := rfl
  refine ⟨by decide, e1, e2, ?_⟩
  rw [e1, e2]
  intro h
  injection h with h
  exact absurd h (by decide)

/-- C7, amended. For a column-parallel layer with empty accumulators, of any rank and
world size: when the store of the fused load returns for the layer the shards `Q`, `K`,
`V` of the three sub-tensors of each parameter and the store of the direct load returns,
under the bare parameter name, their concatenation along dimension 1, the fused load
with the prefixes `q_proj.`, `k_proj.`, `v_proj.` and the direct load abort together
or leave the same `qweight`, `qzeros`, `scales`, all three loaded. -/
theorem fused_merge_equivalence (self : ColumnParallelQLinearImpl) (fused direct : StateDict)
    (Qw Kw Vw Mw Qz Kz Vz Mz Qs Ks Vs Ms : Tensor)
    (hq : self.qweight_list_ = []) (hz : self.qzeros_list_ = []) (hs : self.scales_list_ = [])
    (hQw : fused.get_sharded_tensor ("q_proj." ++ "qweight") 1 self.rank_ self.world_size_
      = some Qw)
    (hKw : fused.get_sharded_tensor ("k_proj." ++ "qweight") 1 self.rank_ self.world_size_
      = some Kw)
    (hVw : fused.get_sharded_tensor ("v_proj." ++ "qweight") 1 self.rank_ self.world_size_
      = some Vw)
    (hQz : fused.get_sharded_tensor ("q_proj." ++ "qzeros") 1 self.rank_ self.world_size_
      = some Qz)
    (hKz : fused.get_sharded_tensor ("k_proj." ++ "qzeros") 1 self.rank_ self.world_size_
      = some Kz)
    (hVz : fused.get_sharded_tensor ("v_proj." ++ "qzeros") 1 self.rank_ self.world_size_
      = some Vz)
    (hQs : fused.get_sharded_tensor ("q_proj." ++ "scales") 1 self.rank_ self.world_size_
      = some Qs)
    (hKs : fused.get_sharded_tensor ("k_proj." ++ "scales") 1 self.rank_ self.world_size_
      = some Ks)
    (hVs : fused.get_sharded_tensor ("v_proj." ++ "scales") 1 self.rank_ self.world_size_
      = some Vs)
    (hMw : Tensor.cat [Qw, Kw, Vw] 1 = some Mw) (hMz : Tensor.cat [Qz, Kz, Vz] 1 = some Mz)
    (hMs : Tensor.cat [Qs, Ks, Vs] 1 = some Ms)
    (hdw : direct.get_sharded_tensor "qweight" 1 self.rank_ self.world_size_ = some Mw)
    (hdz : direct.get_sharded_tensor "qzeros" 1 self.rank_ self.world_size_ = some Mz)
    (hds : direct.get_sharded_tensor "scales" 1 self.rank_ self.world_size_ = some Ms) :
    ((self.load_state_dict_fused fused qkv_prefixes).toOption.map (fun layer =>
        (layer.qweight_, layer.qzeros_, layer.scales_,
          layer.qweight_is_loaded_, layer.qzeros_is_loaded_, layer.scales_is_loaded_))) =
    ((self.load_state_dict direct).toOption.map (fun layer =>
        (layer.qweight_, layer.qzeros_, layer.scales_,
          layer.qweight_is_loaded_, layer.qzeros_is_loaded_, layer.scales_is_loaded_))) := by
  have merge : ∀ (Q K V M w : Tensor), Tensor.cat [Q, K, V] 1 = some M →
      details.merge_weights ColumnParallelQLinearImpl.name [some Q, some K, some V] 1 true [] w =
        (if w.sizes = M.sizes then Except.ok (true, [some Q, some K, some V], w.copy_ M)
          else Except.error ("weight size mismatch for " ++ ColumnParallelQLinearImpl.name)) := by
    intro Q K V M w hM
    unfold details.merge_weights
    rw [details.fill_slots_nil]
    simp only [bind, Except.bind, List.all_cons, Option.isSome_some, List.all_nil, Bool.and_self,
      if_true, List.filterMap_cons, id, List.filterMap_nil, hM, CHECK, beq_iff_eq, pure,
      Except.pure]
    split_ifs <;> rfl
  have hf : self.load_state_dict_fused fused qkv_prefixes =
      (do
        let a ← details.merge_weights ColumnParallelQLinearImpl.name [some Qw, some Kw, some Vw]
          1 true [] self.qweight_
        let b ← details.merge_weights ColumnParallelQLinearImpl.name [some Qz, some Kz, some Vz]
          1 true [] self.qzeros_
        let c ← details.merge_weights ColumnParallelQLinearImpl.name [some Qs, some Ks, some Vs]
          1 true [] self.scales_
        pure { self with qweight_is_loaded_ := a.1, qweight_list_ := a.2.1, qweight_ := a.2.2,
                         qzeros_is_loaded_ := b.1, qzeros_list_ := b.2.1, qzeros_ := b.2.2,
                         scales_is_loaded_ := c.1, scales_list_ := c.2.1, scales_ := c.2.2 }) := by
    unfold ColumnParallelQLinearImpl.load_state_dict_fused
    simp only [ColumnParallelQLinearImpl.fused_loop_eq, qkv_prefixes, List.map_cons,
      List.map_nil, hQw, hKw, hVw, hQz, hKz, hVz, hQs, hKs, hVs, hq, hz, hs, bind, Except.bind]
  rw [hf, merge _ _ _ _ _ hMw, merge _ _ _ _ _ hMz, merge _ _ _ _ _ hMs]
  unfold ColumnParallelQLinearImpl.load_state_dict
  simp only [hdw, hdz, hds, CHECK, beq_iff_eq, bind, Except.bind, pure, Except.pure]
  by_cases h1 : self.qweight_.sizes = Mw.sizes <;>
  by_cases h2 : self.qzeros_.sizes = Mz.sizes <;>
  by_cases h3 : self.scales_.sizes = Ms.sizes <;>
  simp [h1, h2, h3, Except.toOption]


/-! ## The claims at the example checkpoints -/

/-- C1, at the example layers: the checkpoint without `qzeros` leaves both layers
incomplete. -/
theorem completeness_gate_witness :
    (ColumnParallelQLinearImpl.construct 8 6 4 8 0 0 1).1 = Except.ok example_layer ∧
    (RowParallelQLinearImpl.construct 8 6 4 8 0 0 1).1 = Except.ok example_row_layer ∧
    ∃ (clayer : ColumnParallelQLinearImpl) (rlayer : RowParallelQLinearImpl),
      example_layer.load_state_dicts [example_partial_store] = Except.ok clayer ∧
      example_row_layer.load_state_dicts [example_partial_store] = Except.ok rlayer ∧
      (clayer.verify_loaded_weights "qkv_proj").isOk = false ∧
      (rlayer.verify_loaded_weights "o_proj").isOk = false :=
  ⟨rfl, rfl, _, _, rfl, rfl,
    ((completeness_gate 8 6 4 8 0 0 1 example_layer _ [example_partial_store] "qkv_proj"
      rfl rfl 8 6 4 8 0 0 1 example_row_layer _ [example_partial_store] "o_proj"
      rfl rfl).1).2 (Or.inr (Or.inl (by decide))),
    ((completeness_gate 8 6 4 8 0 0 1 example_layer _ [example_partial_store] "qkv_proj"
      rfl rfl 8 6 4 8 0 0 1 example_row_layer _ [example_partial_store] "o_proj"
      rfl rfl).2).2 (Or.inr (Or.inl (by decide)))⟩

/-- C2, at the example layers: the checkpoint without `qzeros` sets `qweight` and
leaves the `qzeros` flag as it was. -/
theorem direct_load_post_state_and_frame_witness :
    ∃ (clayer : ColumnParallelQLinearImpl) (rlayer : RowParallelQLinearImpl),
      example_layer.load_state_dict example_partial_store = Except.ok clayer ∧
      example_row_layer.load_state_dict example_partial_store = Except.ok rlayer ∧
      (clayer.qweight_ = { sizes := [1, 6], data := [1, 2, 3, 4, 5, 6] } ∧
        clayer.qweight_is_loaded_ = true) ∧
      (rlayer.qzeros_ = example_row_layer.qzeros_ ∧
        rlayer.qzeros_is_loaded_ = example_row_layer.qzeros_is_loaded_) :=
  ⟨_, _, rfl, rfl,
    (direct_load_post_state_and_frame example_layer _ example_partial_store rfl
      example_row_layer _ example_partial_store rfl).1.1 _ rfl,
    (direct_load_post_state_and_frame example_layer _ example_partial_store rfl
      example_row_layer _ example_partial_store rfl).2.2.2.2.1 rfl⟩

/-- C6, at the example layer: one fused call with all of q, k, v completes `qweight`. -/
theorem fused_completion_and_order_witness :
    ∃ layer : ColumnParallelQLinearImpl,
      example_layer.load_state_dicts_fused [example_qkv_store] qkv_prefixes = Except.ok layer ∧
      layer.qweight_is_loaded_ = true ∧
      ∃ ts, qkv_prefixes.map (example_layer.slot_tensor [example_qkv_store] "qweight")
          = ts.map some ∧
        Tensor.cat ts 1 = some layer.qweight_ :=
  ⟨_, rfl, rfl,
    ((fused_completion_and_order 8 6 4 8 0 0 1 example_layer _ [example_qkv_store]
      qkv_prefixes rfl rfl).1 rfl).2⟩

/-- C7 amended, at the example layer on rank 0 of 1: the fused load of the q, k, v
checkpoint and the direct load of the pre-fused checkpoint agree. -/
theorem fused_merge_equivalence_witness :
    ((example_layer.load_state_dict_fused example_qkv_store qkv_prefixes).toOption.map
      (fun layer => (layer.qweight_, layer.qzeros_, layer.scales_,
          layer.qweight_is_loaded_, layer.qzeros_is_loaded_, layer.scales_is_loaded_))) =
    ((example_layer.load_state_dict example_prefused_store).toOption.map
      (fun layer => (layer.qweight_, layer.qzeros_, layer.scales_,
          layer.qweight_is_loaded_, layer.qzeros_is_loaded_, layer.scales_is_loaded_))) :=
  fused_merge_equivalence example_layer example_qkv_store example_prefused_store
    _ _ _ _ _ _ _ _ _ _ _ _ rfl rfl rfl rfl rfl rfl rfl rfl rfl rfl rfl rfl rfl rfl rfl rfl rfl rfl

/-- C8, at the example layer: a second fused call with the same checkpoint aborts. -/
theorem fused_duplicate_fill_fatal_witness :
    ∃ layer : ColumnParallelQLinearImpl,
      example_layer.load_state_dicts_fused [example_qkv_store] qkv_prefixes = Except.ok layer ∧
      ∃ msg, layer.load_state_dict_fused example_qkv_store qkv_prefixes = Except.error msg :=
  ⟨_, rfl,
    fused_duplicate_fill_fatal 8 6 4 8 0 0 1 example_layer _ [example_qkv_store] qkv_prefixes
      example_qkv_store "qweight" 0 (by decide) (Or.inl rfl) rfl rfl
      ⟨example_qkv_store, List.mem_singleton.mpr rfl, _, rfl⟩ ⟨_, rfl⟩⟩


/-! ## Later claims on construction -/

theorem pack_factor_eq_zero_iff (bits : Int) (hb : bits ≠ 0) :
    (32 : Int).tdiv bits = 0 ↔ bits < -32 ∨ 32 < bits := by
  constructor
  · intro h
    by_contra hc
    push_neg at hc
    have h1 : -32 ≤ bits := hc.1
    have h2 : bits ≤ 32 := hc.2
    interval_cases bits <;> simp_all <;> revert h <;> decide
  · rintro (h | h)
    · have : (32 : Int).tdiv (-(-bits)) = 0 := by
        rw [Int.tdiv_neg, Int.tdiv_eq_zero_of_lt (by decide) (by omega)]
        rfl
      simpa using this
    · exact Int.tdiv_eq_zero_of_lt (by decide) h

/-- C11, refuted as stated: 3 does not divide 32, and with 3 bits, a group size of 1,
packing dimension 0 and 12 features on 3 ranks both constructors succeed; the column
layer gets the pack factor 10 (`qweight` has 12 / 10 = 1 row). Neither do 5, 6 and 7
divide 32, and with these bits both constructors succeed as well. -/
theorem config_rejection_bits_counterexample :
    ¬ (3 : Int) ∣ 32 ∧
    (ColumnParallelQLinearImpl.construct 12 12 3 1 0 0 3).1.isOk = true ∧
    (RowParallelQLinearImpl.construct 12 12 3 1 0 0 3).1.isOk = true ∧
    (ColumnParallelQLinearImpl.construct 12 12 3 1 0 0 3).1.map (fun layer => layer.qweight_.sizes)
      = Except.ok [1, 4] ∧
    (¬ (5 : Int) ∣ 32 ∧ (ColumnParallelQLinearImpl.construct 12 12 5 1 0 0 3).1.isOk = true ∧
      (RowParallelQLinearImpl.construct 12 12 5 1 0 0 3).1.isOk = true) ∧
    (¬ (6 : Int) ∣ 32 ∧ (ColumnParallelQLinearImpl.construct 12 12 6 1 0 0 3).1.isOk = true ∧
      (RowParallelQLinearImpl.construct 12 12 6 1 0 0 3).1.isOk = true) ∧
    (¬ (7 : Int) ∣ 32 ∧ (ColumnParallelQLinearImpl.construct 12 12 7 1 0 0 3).1.isOk = true ∧
      (RowParallelQLinearImpl.construct 12 12 7 1 0 0 3).1.isOk = true) := by
  refine ⟨by decide, by decide, by decide, by rfl, ⟨by decide, by decide, by decide⟩,
    ⟨by decide, by decide, by decide⟩, ⟨by decide, by decide, by decide⟩⟩

/-- C11, amended. For both the column- and the row-parallel quantized constructor and
for all values of the other arguments, construction fails, before any parameter is
registered, for every `bits` value that is 0, greater than 32 or less than -32: there
`32 / bits`, or the quotient by the pack factor `32 / bits = 0`, is a division by zero.
No check compares `bits` with the divisors of 32: for every `bits` from 1 to 32,
dividing 32 or not, construction succeeds when the group size is positive with a group
row count that does not overflow `int64_t`, the packing dimension is 0 or 1 and the
features are non-negative, the partitioned one divisible by a positive world size. -/
theorem config_rejection_bits
    (in_features out_features bits group_size qweight_pack_dim rank world_size : Int)
    (rin_features rout_features rgroup_size rqweight_pack_dim rrank rworld_size : Int) :
    (bits = 0 ∨ bits < -32 ∨ 32 < bits →
      (∃ msg, ColumnParallelQLinearImpl.construct in_features out_features bits group_size
        qweight_pack_dim rank world_size = (Except.error msg, { parameters := [] })) ∧
      (∃ msg, RowParallelQLinearImpl.construct rin_features rout_features bits rgroup_size
        rqweight_pack_dim rrank rworld_size = (Except.error msg, { parameters := [] }))) ∧
    (1 ≤ bits → bits ≤ 32 →
      (0 < group_size → qweight_pack_dim = 0 ∨ qweight_pack_dim = 1 → 0 < world_size →
        world_size ∣ out_features → 0 ≤ in_features → 0 ≤ out_features →
        in_features + group_size - 1 < 2 ^ 63 →
        (ColumnParallelQLinearImpl.construct in_features out_features bits group_size
          qweight_pack_dim rank world_size).1.isOk = true) ∧
      (0 < rgroup_size → rqweight_pack_dim = 0 ∨ rqweight_pack_dim = 1 → 0 < rworld_size →
        rworld_size ∣ rin_features → 0 ≤ rin_features → 0 ≤ rout_features →
        rin_features.tdiv rworld_size + rgroup_size - 1 < 2 ^ 63 →
        (RowParallelQLinearImpl.construct rin_features rout_features bits rgroup_size
          rqweight_pack_dim rrank rworld_size).1.isOk = true)) := by
  constructor
  · intro hb
    have hc : bits = 0 ∨ (32 : Int).tdiv bits = 0 := by
      by_cases h0 : bits = 0
      · exact Or.inl h0
      · rcases hb with hb | hb
        · exact absurd hb h0
        · exact Or.inr ((pack_factor_eq_zero_iff bits h0).mpr hb)
    constructor
    · apply ColumnParallelQLinearImpl.column_construct_error
      rintro ⟨-, -, -, -, h1, h2⟩
      rcases hc with hc | hc
      · exact h1 hc
      · exact h2 hc
    · apply RowParallelQLinearImpl.row_construct_error
      rintro ⟨-, -, -, -, h1, h2⟩
      rcases hc with hc | hc
      · exact h1 hc
      · exact h2 hc
  · intro hb1 hb2
    constructor
    · intro hg hp hw hd hin hout hbound
      rw [ColumnParallelQLinearImpl.column_construct_ok in_features out_features bits
        group_size qweight_pack_dim rank world_size hg hp hw (Int.tmod_eq_zero_of_dvd hd)
        (by omega) hb2 hin hout hbound]
      rfl
    · intro hg hp hw hd hin hout hbound
      rw [RowParallelQLinearImpl.row_construct_ok rin_features rout_features bits
        rgroup_size rqweight_pack_dim rrank rworld_size hg hp hw (Int.tmod_eq_zero_of_dvd hd)
        (by omega) hb2 hin hout hbound]
      rfl

/-- C11 amended, at concrete arguments: with 33 bits both constructors fail with an
empty registry, and with 3, 5, 6 and 7 bits they succeed. -/
theorem config_rejection_bits_witness :
    ((∃ msg, ColumnParallelQLinearImpl.construct 12 12 33 1 0 0 3 =
        (Except.error msg, { parameters := [] })) ∧
      (∃ msg, RowParallelQLinearImpl.construct 12 12 33 1 0 0 3 =
        (Except.error msg, { parameters := [] }))) ∧
    (ColumnParallelQLinearImpl.construct 12 12 3 1 0 0 3).1.isOk = true ∧
    (ColumnParallelQLinearImpl.construct 12 12 5 1 0 0 3).1.isOk = true ∧
    (RowParallelQLinearImpl.construct 12 12 6 1 0 0 3).1.isOk = true ∧
    (RowParallelQLinearImpl.construct 12 12 7 1 0 0 3).1.isOk = true :=
  ⟨(config_rejection_bits 12 12 33 1 0 0 3 12 12 1 0 0 3).1 (Or.inr (Or.inr (by decide))),
   ((config_rejection_bits 12 12 3 1 0 0 3 12 12 1 0 0 3).2 (by decide) (by decide)).1
      (by decide) (by decide) (by decide) (by decide) (by decide) (by decide) (by decide),
   ((config_rejection_bits 12 12 5 1 0 0 3 12 12 1 0 0 3).2 (by decide) (by decide)).1
      (by decide) (by decide) (by decide) (by decide) (by decide) (by decide) (by decide),
   ((config_rejection_bits 12 12 6 1 0 0 3 12 12 1 0 0 3).2 (by decide) (by decide)).2
      (by decide) (by decide) (by decide) (by decide) (by decide) (by decide) (by decide),
   ((config_rejection_bits 12 12 7 1 0 0 3 12 12 1 0 0 3).2 (by decide) (by decide)).2
      (by decide) (by decide) (by decide) (by decide) (by decide) (by decide) (by decide)⟩

theorem round_up_mul (group_size k : Int) (hg : 0 < group_size) (hk : 0 ≤ k)
    (hb : group_size * k + group_size - 1 < 2 ^ 63) :
    round_up (group_size * k) group_size = k := by
  have hnn : 0 ≤ group_size * k := Int.mul_nonneg (le_of_lt hg) hk
  rw [round_up_of_bound _ _ (by omega) hb]
  rw [Int.tdiv_eq_ediv (by omega) (le_of_lt hg)]
  exact ((Int.ediv_emod_unique hg).mpr
    (⟨by ring, by omega, by omega⟩ :
      (group_size - 1) + group_size * k = group_size * k + group_size - 1 ∧
      0 ≤ group_size - 1 ∧ group_size - 1 < group_size)).1

/-- C17, refuted as stated: with `in_features = 3 * 2^61` on 2 ranks in groups of
`3 * 2^60`, which divide `in_features / world_size = 3 * 2^60`, the sum
`in_features + group_size - 1` overflows `int64_t`: `round_up in_features group_size`
is -2, while `world_size * round_up (in_features / world_size) group_size` is 2. -/
theorem row_group_rows_tile_counterexample :
    (0 : Int) ≤ 3 * 2 ^ 61 ∧ (2 : Int) ∣ 3 * 2 ^ 61 ∧
    (3 * 2 ^ 60 : Int) ∣ (3 * 2 ^ 61 : Int).tdiv 2 ∧
    (2 : Int) * round_up ((3 * 2 ^ 61 : Int).tdiv 2) (3 * 2 ^ 60) = 2 ∧
    round_up (3 * 2 ^ 61) (3 * 2 ^ 60) = -2 := by
  refine ⟨by decide, by decide, by decide, by decide, by decide⟩

/-- C17, amended. Row-parallel group rows tile the checkpoint: for `in_features ≥ 0`, a
positive world size dividing `in_features` and a positive group size dividing
`in_features / world_size`, with `in_features + group_size - 1 < 2^63`,
`world_size * round_up (in_features / world_size) group_size` equals
`round_up in_features group_size`, which is the ceiling of
`in_features / group_size`; the `qzeros` and `scales` of a row-parallel layer
constructed with these arguments have `round_up (in_features / world_size) group_size`
rows, which is the `world_size`-th part of the rows of the unsharded tensor. -/
theorem row_group_rows_tile (in_features world_size group_size : Int)
    (hin : 0 ≤ in_features) (hw : 0 < world_size) (hg : 0 < group_size)
    (hdw : world_size ∣ in_features) (hdg : group_size ∣ in_features.tdiv world_size)
    (hbound : in_features + group_size - 1 < 2 ^ 63) :
    world_size * round_up (in_features.tdiv world_size) group_size =
      round_up in_features group_size ∧
    round_up in_features group_size = ⌈(in_features : ℚ) / (group_size : ℚ)⌉ ∧
    (round_up in_features group_size).tdiv world_size =
      round_up (in_features.tdiv world_size) group_size ∧
    (∀ (out_features bits qweight_pack_dim rank : Int) (layer : RowParallelQLinearImpl),
      (RowParallelQLinearImpl.construct in_features out_features bits group_size
        qweight_pack_dim rank world_size).1 = Except.ok layer →
      layer.qzeros_.sizes.head? = some (round_up (in_features.tdiv world_size) group_size) ∧
      layer.scales_.sizes.head? = some (round_up (in_features.tdiv world_size) group_size)) := by
  have hrows : ∀ (out_features bits qweight_pack_dim rank : Int)
      (layer : RowParallelQLinearImpl),
      (RowParallelQLinearImpl.construct in_features out_features bits group_size
        qweight_pack_dim rank world_size).1 = Except.ok layer →
      layer.qzeros_.sizes.head? = some (round_up (in_features.tdiv world_size) group_size) ∧
      layer.scales_.sizes.head? =
        some (round_up (in_features.tdiv world_size) group_size) := by
    intro out_features bits qweight_pack_dim rank layer hl
    obtain ⟨-, -, -, -, -, -, -, -, -, hl⟩ :=
      RowParallelQLinearImpl.row_construct_inv in_features out_features bits group_size
        qweight_pack_dim rank world_size layer hl
    subst hl
    simp [Tensor.zeros]
  refine ⟨?_, round_up_eq_ceil in_features group_size hin hg hbound, ?_, hrows⟩
  all_goals
    obtain ⟨a, ha⟩ := hdw
    have hw0 : world_size ≠ 0 := ne_of_gt hw
    have hta : in_features.tdiv world_size = a := by
      rw [Int.tdiv_eq_ediv_of_dvd ⟨a, ha⟩, ha, Int.mul_ediv_cancel_left _ hw0]
    rw [hta] at hdg ⊢
    obtain ⟨k, hk⟩ := hdg
    have ha0 : 0 ≤ a := by
      by_contra hneg
      push_neg at hneg
      have : world_size * a < 0 := Int.mul_neg_of_pos_of_neg hw hneg
      omega
    have hk0 : 0 ≤ k := by
      by_contra hneg
      push_neg at hneg
      have : group_size * k < 0 := Int.mul_neg_of_pos_of_neg hg hneg
      omega
    have hle : a ≤ in_features := by
      rw [ha]
      exact le_mul_of_one_le_left ha0 hw
    have h1 : round_up a group_size = k := by
      rw [hk]
      exact round_up_mul group_size k hg hk0 (by rw [← hk]; omega)
    have h2 : round_up in_features group_size = world_size * k := by
      have e : in_features = group_size * (world_size * k) := by
        rw [ha, hk]
        ring
      rw [e]
      exact round_up_mul group_size (world_size * k) hg (Int.mul_nonneg (le_of_lt hw) hk0)
        (by rw [← e]; exact hbound)
  · rw [h1, h2]
  · rw [h1, h2, Int.tdiv_eq_ediv_of_dvd ⟨k, rfl⟩, Int.mul_ediv_cancel_left _ hw0]

/-- C17 amended, at 24 input features on 3 ranks in groups of 4: each rank holds 2 of
the 6 group rows. -/
theorem row_group_rows_tile_witness :
    (3 : Int) * round_up ((24 : Int).tdiv 3) 4 = round_up 24 4 ∧
    (RowParallelQLinearImpl.construct 24 8 4 4 0 0 3).1.map (fun layer => layer.qzeros_.sizes)
      = Except.ok [2, 1] :=
  ⟨(row_group_rows_tile 24 3 4 (by decide) (by decide) (by decide) (by decide)
      (by decide) (by decide)).1, by rfl⟩

/-- C19. The in-loop duplicate checks of the fused load are unreachable: for every
layer, store and prefix list the prefix loop runs to its end without a failed check,
leaving in slot `i` of each local list what the store returns for prefix `i`; a list
that names the same prefix twice is not rejected by the loop, both slots receive the
tensor of that prefix. -/
theorem fused_loop_checks_unreachable (self : ColumnParallelQLinearImpl) (sd : StateDict)
    (prefixes : List String) (p : String) :
    (List.range prefixes.length).foldlM
      (ColumnParallelQLinearImpl.fused_loop_body self sd prefixes)
      (List.replicate prefixes.length none, List.replicate prefixes.length none,
        List.replicate prefixes.length none) =
    Except.ok
      (prefixes.map (fun q =>
          sd.get_sharded_tensor (q ++ "qweight") 1 self.rank_ self.world_size_),
       prefixes.map (fun q =>
          sd.get_sharded_tensor (q ++ "qzeros") 1 self.rank_ self.world_size_),
       prefixes.map (fun q =>
          sd.get_sharded_tensor (q ++ "scales") 1 self.rank_ self.world_size_)) ∧
    (List.range [p, p].length).foldlM
      (ColumnParallelQLinearImpl.fused_loop_body self sd [p, p])
      (List.replicate [p, p].length none, List.replicate [p, p].length none,
        List.replicate [p, p].length none) =
    Except.ok
      ([sd.get_sharded_tensor (p ++ "qweight") 1 self.rank_ self.world_size_,
        sd.get_sharded_tensor (p ++ "qweight") 1 self.rank_ self.world_size_],
       [sd.get_sharded_tensor (p ++ "qzeros") 1 self.rank_ self.world_size_,
        sd.get_sharded_tensor (p ++ "qzeros") 1 self.rank_ self.world_size_],
       [sd.get_sharded_tensor (p ++ "scales") 1 self.rank_ self.world_size_,
        sd.get_sharded_tensor (p ++ "scales") 1 self.rank_ self.world_size_]) := by
  refine ⟨ColumnParallelQLinearImpl.fused_loop_eq self sd prefixes, ?_⟩
  rw [ColumnParallelQLinearImpl.fused_loop_eq self sd [p, p]]
  rfl


/-! ## Monotonicity of the loaded flags -/

/-- C16, refuted as stated: the direct load of `example_prefused_store` sets the three
flags of `example_layer`; a following fused load with the q, k, v prefixes from a
store that holds no tensor does not abort and leaves the three flags false. -/
theorem is_loaded_monotone_counterexample :
    (example_layer.load_state_dict example_prefused_store).map (fun layer =>
        (layer.qweight_is_loaded_, layer.qzeros_is_loaded_, layer.scales_is_loaded_)) =
      Except.ok (true, true, true) ∧
    ((example_layer.load_state_dict example_prefused_store).bind (fun layer =>
        layer.load_state_dict_fused (StateDict.ofDict []) qkv_prefixes)).map (fun layer =>
        (layer.qweight_is_loaded_, layer.qzeros_is_loaded_, layer.scales_is_loaded_)) =
      Except.ok (false, false, false) := by
  refine ⟨by rfl, by rfl⟩

/-- C16, amended. A flag that is true stays true under every non-aborting direct-mode
load, of the column-parallel and of the row-parallel layer, from any state and with
any store. For a column-parallel layer loaded since its construction by fused-mode
calls with one prefix list, a flag that is true after some of these calls stays true
under every further non-aborting fused-mode call with that list, whatever the store
holds. -/
theorem is_loaded_monotone
    (cself clayer : ColumnParallelQLinearImpl) (sd : StateDict)
    (hc : cself.load_state_dict sd = Except.ok clayer)
    (rself rlayer : RowParallelQLinearImpl) (rsd : StateDict)
    (hr : rself.load_state_dict rsd = Except.ok rlayer)
    (in_features out_features bits group_size qweight_pack_dim rank world_size : Int)
    (fresh layer1 layer2 : ColumnParallelQLinearImpl) (stores more : List StateDict)
    (prefixes : List String)
    (hf : (ColumnParallelQLinearImpl.construct in_features out_features bits group_size
      qweight_pack_dim rank world_size).1 = Except.ok fresh)
    (h1 : fresh.load_state_dicts_fused stores prefixes = Except.ok layer1)
    (h2 : layer1.load_state_dicts_fused more prefixes = Except.ok layer2) :
    ((cself.qweight_is_loaded_ = true → clayer.qweight_is_loaded_ = true) ∧
     (cself.qzeros_is_loaded_ = true → clayer.qzeros_is_loaded_ = true) ∧
     (cself.scales_is_loaded_ = true → clayer.scales_is_loaded_ = true)) ∧
    ((rself.qweight_is_loaded_ = true → rlayer.qweight_is_loaded_ = true) ∧
     (rself.qzeros_is_loaded_ = true → rlayer.qzeros_is_loaded_ = true) ∧
     (rself.scales_is_loaded_ = true → rlayer.scales_is_loaded_ = true)) ∧
    ((layer1.qweight_is_loaded_ = true → layer2.qweight_is_loaded_ = true) ∧
     (layer1.qzeros_is_loaded_ = true → layer2.qzeros_is_loaded_ = true) ∧
     (layer1.scales_is_loaded_ = true → layer2.scales_is_loaded_ = true)) := by
  have direct : ∀ (get : Option Tensor) (before after : Bool),
      (∀ t, get = some t → after = true) → (get = none → after = before) →
      before = true → after = true := by
    intro get before after hs hn hb
    cases hg : get with
    | none => rw [hn hg, hb]
    | some t => exact hs t hg
  refine ⟨?_, ?_, ?_⟩
  · obtain ⟨-, -, -, -, -, q1, q2, z1, z2, s1, s2⟩ :=
      ColumnParallelQLinearImpl.column_load_state_dict_step cself clayer sd hc
    exact ⟨direct _ _ _ (fun t ht => (q1 t ht).2.2) (fun hn => (q2 hn).2),
      direct _ _ _ (fun t ht => (z1 t ht).2.2) (fun hn => (z2 hn).2),
      direct _ _ _ (fun t ht => (s1 t ht).2.2) (fun hn => (s2 hn).2)⟩
  · obtain ⟨-, -, -, -, -, q1, q2, z1, z2, s1, s2⟩ :=
      RowParallelQLinearImpl.row_load_state_dict_step rself rlayer rsd hr
    exact ⟨direct _ _ _ (fun t ht => (q1 t ht).2.2) (fun hn => (q2 hn).2),
      direct _ _ _ (fun t ht => (z1 t ht).2.2) (fun hn => (z2 hn).2),
      direct _ _ _ (fun t ht => (s1 t ht).2.2) (fun hn => (s2 hn).2)⟩
  · obtain ⟨fq, fz, fs, eq, ez, es⟩ :=
      ColumnParallelQLinearImpl.column_construct_fresh _ _ _ _ _ _ _ _ hf
    have h12 : fresh.load_state_dicts_fused (stores ++ more) prefixes = Except.ok layer2 := by
      unfold ColumnParallelQLinearImpl.load_state_dicts_fused at h1 h2 ⊢
      rw [List.foldlM_append, h1]
      exact h2
    obtain ⟨-, -, i1⟩ := ColumnParallelQLinearImpl.load_state_dicts_fused_inv fresh prefixes
      eq ez es stores layer1 h1
    obtain ⟨-, -, i2⟩ := ColumnParallelQLinearImpl.load_state_dicts_fused_inv fresh prefixes
      eq ez es (stores ++ more) layer2 h12
    have key : ∀ (param : String) (list1 list2 : List (Option Tensor)),
        list1 = prefixes.map (fresh.slot_tensor stores param) →
        list2 = prefixes.map (fresh.slot_tensor (stores ++ more) param) →
        list1.all Option.isSome = true → list2.all Option.isSome = true := by
      intro param list1 list2 hl1 hl2 hall
      rw [hl2, List.all_eq_true]
      intro x hx
      obtain ⟨q, hq, rfl⟩ := List.mem_map.mp hx
      have hsome := List.all_eq_true.mp hall (fresh.slot_tensor stores param q)
        (by rw [hl1]; exact List.mem_map_of_mem _ hq)
      obtain ⟨s, hs, t, ht⟩ :=
        (ColumnParallelQLinearImpl.slot_tensor_isSome fresh stores param q).mp hsome
      exact (ColumnParallelQLinearImpl.slot_tensor_isSome fresh (stores ++ more) param q).mpr
        ⟨s, List.mem_append_left _ hs, t, ht⟩
    rcases i1 with ⟨-, hl⟩ | ⟨-, ⟨a1, a2, -⟩, ⟨b1, b2, -⟩, ⟨c1, c2, -⟩⟩
    · subst hl
      rw [fq, fz, fs]
      refine ⟨?_, ?_, ?_⟩ <;> intro h <;> cases h
    · rcases i2 with ⟨he, -⟩ | ⟨-, ⟨x1, x2, -⟩, ⟨y1, y2, -⟩, ⟨z1, z2, -⟩⟩
      · have hs : stores = [] := (List.append_eq_nil.mp he).1
        have hm : more = [] := (List.append_eq_nil.mp he).2
        subst hs hm
        simp only [ColumnParallelQLinearImpl.load_state_dicts_fused, List.foldlM_nil, pure,
          Except.pure] at h1 h2
        injection h1 with h1
        injection h2 with h2
        subst h1 h2
        exact ⟨id, id, id⟩
      · refine ⟨?_, ?_, ?_⟩
        · intro h
          rw [x2]
          exact key "qweight" _ _ a1 x1 (by rw [← a2]; exact h)
        · intro h
          rw [y2]
          exact key "qzeros" _ _ b1 y1 (by rw [← b2]; exact h)
        · intro h
          rw [z2]
          exact key "scales" _ _ c1 z1 (by rw [← c2]; exact h)

/-- C16 amended, at the example layer: after the fused load of the q, k, v checkpoint
the flag of `qweight` is true, and it is still true after a fused load from a store
that holds no tensor. -/
theorem is_loaded_monotone_witness :
    ∃ layer1 layer2 : ColumnParallelQLinearImpl,
      example_layer.load_state_dicts_fused [example_qkv_store] qkv_prefixes
        = Except.ok layer1 ∧
      layer1.load_state_dicts_fused [StateDict.ofDict []] qkv_prefixes = Except.ok layer2 ∧
      layer1.qweight_is_loaded_ = true ∧ layer2.qweight_is_loaded_ = true :=
  ⟨_, _, rfl, rfl, rfl,
    (is_loaded_monotone example_layer _ example_partial_store rfl
      example_row_layer _ example_partial_store rfl
      8 6 4 8 0 0 1 example_layer _ _ [example_qkv_store] [StateDict.ofDict []] qkv_prefixes
      rfl rfl rfl).2.2.1 rfl⟩


/-! ## The factories -/

/-- C15. Factory dispatch: `create_column_parallel_linear` and
`create_row_parallel_linear` build the quantized implementation, with
`quant_args.bits()` and `quant_args.group_size()`, exactly when
`quant_args.quant_method()` is the string "gptq", and the dense implementation for
every other method; the `ColumnParallelLinear` constructor without quantization
arguments builds the dense implementation. -/
theorem factory_dispatch (in_features out_features : Int)
    (gather_output input_is_parallelized : Bool) (quant_args : QuantizationArgs)
    (parallel_args : ParallelArgs) :
    (create_column_parallel_linear in_features out_features gather_output quant_args
        parallel_args =
      if quant_args.quant_method = "gptq" then
        ParallelLinearImpl.ColumnParallelQuantLinearImpl in_features out_features
          quant_args.bits quant_args.group_size gather_output parallel_args
      else
        ParallelLinearImpl.ColumnParallelLinearImpl in_features out_features gather_output
          parallel_args) ∧
    ((∃ bits group_size, create_column_parallel_linear in_features out_features gather_output
        quant_args parallel_args =
          ParallelLinearImpl.ColumnParallelQuantLinearImpl in_features out_features
            bits group_size gather_output parallel_args) ↔
      quant_args.quant_method = "gptq") ∧
    (create_row_parallel_linear in_features out_features input_is_parallelized quant_args
        parallel_args =
      if quant_args.quant_method = "gptq" then
        ParallelLinearImpl.RowParallelQuantLinearImpl in_features out_features
          quant_args.bits quant_args.group_size input_is_parallelized parallel_args
      else
        ParallelLinearImpl.RowParallelLinearImpl in_features out_features
          input_is_parallelized parallel_args) ∧
    ((∃ bits group_size, create_row_parallel_linear in_features out_features
        input_is_parallelized quant_args parallel_args =
          ParallelLinearImpl.RowParallelQuantLinearImpl in_features out_features
            bits group_size input_is_parallelized parallel_args) ↔
      quant_args.quant_method = "gptq") ∧
    (ColumnParallelLinear.ctor in_features out_features gather_output quant_args
        parallel_args).impl =
      create_column_parallel_linear in_features out_features gather_output quant_args
        parallel_args ∧
    (RowParallelLinear.ctor in_features out_features input_is_parallelized quant_args
        parallel_args).impl =
      create_row_parallel_linear in_features out_features input_is_parallelized quant_args
        parallel_args ∧
    (ColumnParallelLinear.ctor_no_quant in_features out_features gather_output
        parallel_args).impl =
      ParallelLinearImpl.ColumnParallelLinearImpl in_features out_features gather_output
        parallel_args := by
  refine ⟨?_, ?_, ?_, ?_, rfl, rfl, ?_⟩
  · unfold create_column_parallel_linear
    by_cases h : quant_args.quant_method = "gptq" <;> simp [h]
  · unfold create_column_parallel_linear
    by_cases h : quant_args.quant_method = "gptq"
    · simp [h]
    · simp [h]
  · unfold create_row_parallel_linear
    by_cases h : quant_args.quant_method = "gptq" <;> simp [h]
  · unfold create_row_parallel_linear
    by_cases h : quant_args.quant_method = "gptq"
    · simp [h]
    · simp [h]
  · simp [ColumnParallelLinear.ctor_no_quant, create_column_parallel_linear,
      QuantizationArgs.value_initialized]

/-! ## The name reported by the completeness check -/

/-- C12, refuted as stated: for layer 0 of an Aquila model whose checkpoint lacks only
`model.layers.0.self_attn.o_proj.qweight`, the check reports the name
`model.layers.0.self_attn.o_proj..qweight`, with two dots before `qweight`; the loader
looks the tensor up under `model.layers.0.self_attn.o_proj.qweight`, and a lookup of
the reported name finds nothing. When the checkpoint holds no tensor, the name reported
for the fused layer is `model.layers.0.self_attn.[q_proj,k_proj,v_proj]..qweight`. -/
theorem verify_reported_name_counterexample :
    (hf.AquilaAttentionImpl.construct { hidden_size := 4, n_heads := 2, n_kv_heads := none }
      { quant_method := "gptq", bits := 8, group_size := 4 } { rank := 0, world_size := 1 } 0).1
      = Except.ok example_attention ∧
    hf.load_and_verify_self_attn example_attention example_aquila_store "model.layers.0." =
      Except.error "qweight is not loaded for model.layers.0.self_attn.o_proj..qweight" ∧
    "qweight is not loaded for model.layers.0.self_attn.o_proj..qweight" ≠
      "qweight is not loaded for model.layers.0.self_attn.o_proj.qweight" ∧
    hf.load_and_verify_self_attn example_attention example_aquila_full_store "model.layers.0."
      = Except.ok () ∧
    ((((example_aquila_full_store.select "model.layers.0.").select "self_attn.").select
      "o_proj.").get_sharded_tensor "qweight" 0 0 1) =
      example_aquila_full_store.get_sharded_tensor "model.layers.0.self_attn.o_proj.qweight"
        0 0 1 ∧
    (example_aquila_full_store.get_sharded_tensor "model.layers.0.self_attn.o_proj.qweight"
      0 0 1).isSome = true ∧
    example_aquila_full_store.get_sharded_tensor "model.layers.0.self_attn.o_proj..qweight"
      0 0 1 = none ∧
    hf.load_and_verify_self_attn example_attention (StateDict.ofDict []) "model.layers.0." =
      Except.error
        "qweight is not loaded for model.layers.0.self_attn.[q_proj,k_proj,v_proj]..qweight" := by
  refine ⟨by rfl, by rfl, by decide, by rfl, by rfl, by rfl, by rfl, by rfl⟩

theorem verify_message (cself : ColumnParallelQLinearImpl)
    (rself : RowParallelQLinearImpl) (prefix_ : String) :
    cself.verify_loaded_weights prefix_ =
      (if cself.qweight_is_loaded_ = false then
        Except.error ("qweight is not loaded for " ++ (prefix_ ++ ".qweight"))
      else if cself.qzeros_is_loaded_ = false then
        Except.error ("qzeros is not loaded for " ++ (prefix_ ++ ".qzeros"))
      else if cself.scales_is_loaded_ = false then
        Except.error ("scales is not loaded for " ++ (prefix_ ++ ".scales"))
      else Except.ok ()) ∧
    rself.verify_loaded_weights prefix_ =
      (if rself.qweight_is_loaded_ = false then
        Except.error ("qweight is not loaded for " ++ (prefix_ ++ ".qweight"))
      else if rself.qzeros_is_loaded_ = false then
        Except.error ("qzeros is not loaded for " ++ (prefix_ ++ ".qzeros"))
      else if rself.scales_is_loaded_ = false then
        Except.error ("scales is not loaded for " ++ (prefix_ ++ ".scales"))
      else Except.ok ()) := by
  constructor
  · unfold ColumnParallelQLinearImpl.verify_loaded_weights
    cases cself.qweight_is_loaded_ <;> cases cself.qzeros_is_loaded_ <;>
      cases cself.scales_is_loaded_ <;> simp [CHECK, bind, Except.bind]
  · unfold RowParallelQLinearImpl.verify_loaded_weights
    cases rself.qweight_is_loaded_ <;> cases rself.qzeros_is_loaded_ <;>
      cases rself.scales_is_loaded_ <;> simp [CHECK, bind, Except.bind]

/-- C12, amended. Whenever `verify_loaded_weights(prefix)` of the column-parallel or of
the row-parallel layer fails, it reports the first parameter that is not loaded, in the
order `qweight`, `qzeros`, `scales`, under a name that starts with the prefix the
caller passed and ends with the name of that parameter; the check succeeds when all
three are loaded. -/
theorem verify_reported_name (cself : ColumnParallelQLinearImpl)
    (rself : RowParallelQLinearImpl) (prefix_ : String) :
    ∃ sep : String,
      cself.verify_loaded_weights prefix_ =
        (if cself.qweight_is_loaded_ = false then
          Except.error ("qweight is not loaded for " ++ (prefix_ ++ (sep ++ "qweight")))
        else if cself.qzeros_is_loaded_ = false then
          Except.error ("qzeros is not loaded for " ++ (prefix_ ++ (sep ++ "qzeros")))
        else if cself.scales_is_loaded_ = false then
          Except.error ("scales is not loaded for " ++ (prefix_ ++ (sep ++ "scales")))
        else Except.ok ()) ∧
      rself.verify_loaded_weights prefix_ =
        (if rself.qweight_is_loaded_ = false then
          Except.error ("qweight is not loaded for " ++ (prefix_ ++ (sep ++ "qweight")))
        else if rself.qzeros_is_loaded_ = false then
          Except.error ("qzeros is not loaded for " ++ (prefix_ ++ (sep ++ "qzeros")))
        else if rself.scales_is_loaded_ = false then
          Except.error ("scales is not loaded for " ++ (prefix_ ++ (sep ++ "scales")))
        else Except.ok ()) :=
  ⟨".", verify_message cself rself prefix_⟩

/-! ## The q/k/v split of the Aquila attention block -/

theorem wrap64_mul_left (x y : Int) : wrap64 (wrap64 x * y) = wrap64 (x * y) := by
  apply wrap64_congr
  rw [Int.mul_emod, wrap64_emod, ← Int.mul_emod]

theorem wrap64_add_right (x y : Int) : wrap64 (x + wrap64 y) = wrap64 (x + y) := by
  apply wrap64_congr
  rw [Int.add_emod, wrap64_emod, ← Int.add_emod]

theorem mul64_eq_of_le (x c h : Int) (hx0 : 0 ≤ x) (hxc : x ≤ c)
    (hlo : -2 ^ 63 ≤ c * h) (hhi : c * h < 2 ^ 63) : mul64 x h = x * h := by
  unfold mul64
  apply wrap64_eq
  · rcases le_or_lt 0 h with hh | hh
    · have : 0 ≤ x * h := Int.mul_nonneg hx0 hh
      omega
    · have : c * h ≤ x * h := Int.mul_le_mul_of_nonpos_right hxc (le_of_lt hh)
      omega
  · rcases le_or_lt 0 h with hh | hh
    · have : x * h ≤ c * h := Int.mul_le_mul_of_nonneg_right hxc hh
      omega
    · have : x * h ≤ 0 := Int.mul_nonpos_of_nonneg_of_nonpos hx0 (le_of_lt hh)
      omega

/-- C18, refuted as stated: with `hidden_size = 3 * 2^60`, 3 heads, 3 key-value heads
and 3 ranks, `n_heads` divides `hidden_size` and `world_size` divides `n_heads` and
`n_kv_heads`; `head_dim` is `2^60` and the three entries of `qkv_sizes_` sum to
`3 * 2^60`. The product `(n_heads + 2 * n_kv_heads) * head_dim = 9 * 2^60` overflows
`int64_t`: the `out_features` handed to `qkv_proj_` is `-7 * 2^60`, its remainder by 3
is -1, and the column-parallel constructor fails at its divisibility check. -/
theorem aquila_qkv_split_counterexample :
    ((3 : Int) ∣ 3 * 2 ^ 60 ∧ (3 : Int) ∣ 3) ∧
    (hf.AquilaAttentionImpl.qkv_sizes ((3 : Int).tdiv 3) ((3 : Int).tdiv 3)
      ((3 * 2 ^ 60 : Int).tdiv 3)).sum = 3 * 2 ^ 60 ∧
    hf.AquilaAttentionImpl.qkv_out_features 3 3 ((3 * 2 ^ 60 : Int).tdiv 3) = -7 * 2 ^ 60 ∧
    (hf.AquilaAttentionImpl.qkv_out_features 3 3 ((3 * 2 ^ 60 : Int).tdiv 3)).tmod 3 = -1 ∧
    (ColumnParallelQLinearImpl.construct (3 * 2 ^ 60)
      (hf.AquilaAttentionImpl.qkv_out_features 3 3 ((3 * 2 ^ 60 : Int).tdiv 3))
      4 128 0 0 3).1.isOk = false := by
  refine ⟨⟨by decide, by decide⟩, by decide, by decide, by decide, by decide⟩

/-- C18, amended. Aquila q/k/v split covers the per-rank output exactly: for positive
`n_heads`, `n_kv_heads` and `world_size` with `world_size` dividing `n_heads` and
`n_kv_heads` (and `n_heads` dividing `hidden_size` or not, `head_dim` being the C++
quotient), and with the product `(n_heads + 2 * n_kv_heads) * head_dim` in the range
of `int64_t`, the three entries of
`qkv_sizes_` sum to `((n_heads + 2 * n_kv_heads) * head_dim) / world_size`, the
`out_features` handed to `qkv_proj_` is that product, and `world_size` divides it, so
the divisibility check of the column-parallel constructor passes. When moreover
`hidden_size` is non-negative and the quantization arguments are valid (a positive
group size with `hidden_size + group_size - 1 < 2^63`, a packing dimension 0 or 1, bits
from 1 to 32), the constructor of `qlinear_impl.cpp`, taken at these features, builds
a layer whose per-rank output width is that sum. -/
theorem aquila_qkv_split (args : hf.ModelArgs) (quant_args : QuantizationArgs)
    (parallel_args : ParallelArgs) (qweight_pack_dim : Int)
    (hn : 0 < args.n_heads) (hkv : 0 < args.n_kv_heads.getD args.n_heads)
    (hw : 0 < parallel_args.world_size)
    (hdn : parallel_args.world_size ∣ args.n_heads)
    (hdk : parallel_args.world_size ∣ args.n_kv_heads.getD args.n_heads)
    (hlo : -2 ^ 63 ≤ (args.n_heads + 2 * args.n_kv_heads.getD args.n_heads) *
      args.hidden_size.tdiv args.n_heads)
    (hhi : (args.n_heads + 2 * args.n_kv_heads.getD args.n_heads) *
      args.hidden_size.tdiv args.n_heads < 2 ^ 63) :
    (hf.AquilaAttentionImpl.qkv_sizes (args.n_heads.tdiv parallel_args.world_size)
        ((args.n_kv_heads.getD args.n_heads).tdiv parallel_args.world_size)
        (args.hidden_size.tdiv args.n_heads)).sum =
      ((args.n_heads + 2 * args.n_kv_heads.getD args.n_heads) *
        args.hidden_size.tdiv args.n_heads).tdiv parallel_args.world_size ∧
    hf.AquilaAttentionImpl.qkv_out_features args.n_heads
        (args.n_kv_heads.getD args.n_heads) (args.hidden_size.tdiv args.n_heads) =
      (args.n_heads + 2 * args.n_kv_heads.getD args.n_heads) *
        args.hidden_size.tdiv args.n_heads ∧
    (hf.AquilaAttentionImpl.qkv_out_features args.n_heads
        (args.n_kv_heads.getD args.n_heads) (args.hidden_size.tdiv args.n_heads)).tmod
      parallel_args.world_size = 0 ∧
    (0 ≤ args.hidden_size → 0 < quant_args.group_size →
      (qweight_pack_dim = 0 ∨ qweight_pack_dim = 1) →
      1 ≤ quant_args.bits → quant_args.bits ≤ 32 →
      args.hidden_size + quant_args.group_size - 1 < 2 ^ 63 →
      ∃ layer, (ColumnParallelQLinearImpl.construct args.hidden_size
          (hf.AquilaAttentionImpl.qkv_out_features args.n_heads
            (args.n_kv_heads.getD args.n_heads) (args.hidden_size.tdiv args.n_heads))
          quant_args.bits quant_args.group_size qweight_pack_dim parallel_args.rank
          parallel_args.world_size).1 = Except.ok layer ∧
        layer.scales_.sizes =
          [round_up args.hidden_size quant_args.group_size,
            (hf.AquilaAttentionImpl.qkv_sizes (args.n_heads.tdiv parallel_args.world_size)
              ((args.n_kv_heads.getD args.n_heads).tdiv parallel_args.world_size)
              (args.hidden_size.tdiv args.n_heads)).sum]) := by
  have hw0 : parallel_args.world_size ≠ 0 := ne_of_gt hw
  have hH : 0 ≤ args.hidden_size → 0 ≤ args.hidden_size.tdiv args.n_heads :=
    fun h => Int.tdiv_nonneg h (le_of_lt hn)
  generalize args.n_kv_heads.getD args.n_heads = kv at *
  generalize args.hidden_size.tdiv args.n_heads = H at *
  obtain ⟨a, ha⟩ := hdn
  obtain ⟨b, hbk⟩ := hdk
  have hta : args.n_heads.tdiv parallel_args.world_size = a := by
    rw [Int.tdiv_eq_ediv_of_dvd ⟨a, ha⟩, ha, Int.mul_ediv_cancel_left _ hw0]
  have htb : kv.tdiv parallel_args.world_size = b := by
    rw [Int.tdiv_eq_ediv_of_dvd ⟨b, hbk⟩, hbk, Int.mul_ediv_cancel_left _ hw0]
  have ha0 : 0 ≤ a := by
    by_contra hneg
    push_neg at hneg
    have : parallel_args.world_size * a < 0 := Int.mul_neg_of_pos_of_neg hw hneg
    omega
  have hb0 : 0 ≤ b := by
    by_contra hneg
    push_neg at hneg
    have : parallel_args.world_size * b < 0 := Int.mul_neg_of_pos_of_neg hw hneg
    omega
  have hale : a ≤ args.n_heads + 2 * kv := by
    have : a ≤ parallel_args.world_size * a := le_mul_of_one_le_left ha0 hw
    omega
  have hble : b ≤ args.n_heads + 2 * kv := by
    have : b ≤ parallel_args.world_size * b := le_mul_of_one_le_left hb0 hw
    omega
  have hout : hf.AquilaAttentionImpl.qkv_out_features args.n_heads kv H =
      (args.n_heads + 2 * kv) * H := by
    unfold hf.AquilaAttentionImpl.qkv_out_features mul64 add64
    rw [wrap64_mul_left, wrap64_congr (x := (args.n_heads + wrap64 (2 * kv)) * H)
      (y := (args.n_heads + 2 * kv) * H), wrap64_eq _ hlo hhi]
    rw [Int.mul_emod, Int.add_emod, wrap64_emod, ← Int.add_emod, ← Int.mul_emod]
  have hprod : (args.n_heads + 2 * kv) * H = parallel_args.world_size * ((a + 2 * b) * H) := by
    rw [hbk, ha]
    ring
  have hquot : ((args.n_heads + 2 * kv) * H).tdiv parallel_args.world_size =
      (a + 2 * b) * H := by
    rw [Int.tdiv_eq_ediv_of_dvd ⟨_, hprod⟩, hprod, Int.mul_ediv_cancel_left _ hw0]
  have hsum : (hf.AquilaAttentionImpl.qkv_sizes (args.n_heads.tdiv parallel_args.world_size)
      (kv.tdiv parallel_args.world_size) H).sum =
      ((args.n_heads + 2 * kv) * H).tdiv parallel_args.world_size := by
    rw [hquot, hta, htb]
    simp only [hf.AquilaAttentionImpl.qkv_sizes, List.sum_cons, List.sum_nil,
      mul64_eq_of_le a _ H ha0 hale hlo hhi, mul64_eq_of_le b _ H hb0 hble hlo hhi]
    ring
  have hmod : (hf.AquilaAttentionImpl.qkv_out_features args.n_heads kv H).tmod
      parallel_args.world_size = 0 := by
    rw [hout]
    exact Int.tmod_eq_zero_of_dvd ⟨_, hprod⟩
  refine ⟨hsum, hout, hmod, ?_⟩
  intro hh hg hp hb1 hb2 hbound
  have hout0 : 0 ≤ hf.AquilaAttentionImpl.qkv_out_features args.n_heads kv H := by
    rw [hout]
    exact Int.mul_nonneg (by omega) (hH hh)
  have hcol := ColumnParallelQLinearImpl.column_construct_ok args.hidden_size
    (hf.AquilaAttentionImpl.qkv_out_features args.n_heads kv H)
    quant_args.bits quant_args.group_size qweight_pack_dim parallel_args.rank
    parallel_args.world_size hg hp hw hmod (by omega) hb2 hh hout0 hbound
  rw [hcol]
  refine ⟨_, rfl, ?_⟩
  simp only [Tensor.zeros, hsum, hout]

/-- C18 amended, at hidden size 4096 with 32 heads, 8 key-value heads and 4 ranks: the
split is 1024 + 256 + 256 = 1536. -/
theorem aquila_qkv_split_witness :
    (hf.AquilaAttentionImpl.qkv_sizes ((32 : Int).tdiv 4) ((8 : Int).tdiv 4)
        ((4096 : Int).tdiv 32)).sum =
      (((32 : Int) + 2 * 8) * (4096 : Int).tdiv 32).tdiv 4 ∧
    hf.AquilaAttentionImpl.qkv_sizes ((32 : Int).tdiv 4) ((8 : Int).tdiv 4)
        ((4096 : Int).tdiv 32) = [1024, 256, 256] :=
  ⟨(aquila_qkv_split { hidden_size := 4096, n_heads := 32, n_kv_heads := some 8 }
      { quant_method := "gptq", bits := 4, group_size := 128 } { rank := 0, world_size := 4 } 0
      (by decide) (by decide) (by decide) (by decide) (by decide) (by decide)
      (by decide)).1, by decide⟩

/-! ## The weight codec -/

theorem flatten_getD (c : Nat) :
    ∀ (rows : List (List Int)) (i j : Nat), (∀ row ∈ rows, row.length = c) → j < c →
      rows.flatten.getD (i * c + j) 0 = (rows.getD i []).getD j 0 := by
  intro rows
  induction rows with
  | nil =>
    intro i j _ _
    simp
  | cons row rest ih =>
    intro i j hlen hj
    have hrow : row.length = c := hlen row (List.mem_cons_self _ _)
    cases i with
    | zero =>
      simp only [Nat.zero_mul, Nat.zero_add, List.flatten_cons]
      rw [List.getD_append _ _ _ _ (by rw [hrow]; exact hj)]
      simp
    | succ i =>
      simp only [List.flatten_cons]
      rw [List.getD_append_right _ _ _ _ (by rw [hrow]; nlinarith)]
      have hidx : (i + 1) * c + j - row.length = i * c + j := by
        rw [hrow, Nat.succ_mul]
        omega
      rw [hidx, ih i j (fun r hr => hlen r (List.mem_cons_of_mem _ hr)) hj]
      simp

theorem Tensor.get2_tabulate (rows cols : Nat) (f : Nat → Nat → Int) (i j : Nat)
    (hi : i < rows) (hj : j < cols) : (Tensor.tabulate rows cols f).get2 i j = f i j := by
  unfold Tensor.get2 Tensor.tabulate
  simp only [List.getD_cons_succ, List.getD_cons_zero, Int.toNat_ofNat]
  rw [flatten_getD cols _ i j (by
    intro row hrow
    obtain ⟨k, -, rfl⟩ := List.mem_map.mp hrow
    simp) hj]
  simp [List.getD_eq_getElem?_getD, List.getElem?_range hi, List.getElem?_range hj]

theorem Tensor.tabulate_congr (rows cols : Nat) (f g : Nat → Nat → Int)
    (h : ∀ i j, i < rows → j < cols → f i j = g i j) :
    Tensor.tabulate rows cols f = Tensor.tabulate rows cols g := by
  unfold Tensor.tabulate
  congr 2
  apply List.map_congr_left
  intro i hi
  apply List.map_congr_left
  intro j hj
  exact h i j (List.mem_range.mp hi) (List.mem_range.mp hj)

/-- C14. Codec path equivalence: for all `qweights`, `qzeros`, `scales` and `bits`, the
`construct_weights` overload without `g_idx` returns the same `[in_features,
out_features]` matrix as the overload with `g_idx` when `g_idx[i] = i / group_size` for
every input feature `i`, and its element `(i, j)` is
`scales[i / group_size, j] * (unpack(qweight)[i, j] - unpack(qzeros)[i / group_size, j])`. -/
theorem codec_path_equivalence (qweights qzeros scales g_idx : Tensor) (bits group_size : Nat)
    (hg : ∀ i, i < (qweights.sizes.getD 0 0).toNat * (32 / bits) →
      g_idx.data.getD i 0 = ((i / group_size : Nat) : Int)) :
    details.construct_weights_no_g_idx qweights qzeros scales bits group_size =
      details.construct_weights qweights qzeros scales g_idx bits ∧
    (details.construct_weights_no_g_idx qweights qzeros scales bits group_size).sizes =
      [(((qweights.sizes.getD 0 0).toNat * (32 / bits) : Nat) : Int),
        (((qweights.sizes.getD 1 0).toNat : Nat) : Int)] ∧
    (∀ i j, i < (qweights.sizes.getD 0 0).toNat * (32 / bits) →
      j < (qweights.sizes.getD 1 0).toNat →
      (details.construct_weights_no_g_idx qweights qzeros scales bits group_size).get2 i j =
        scales.get2 (i / group_size) j *
          (details.unpack_qweight qweights bits i j -
            details.unpack_qzeros qzeros bits (i / group_size) j)) := by
  refine ⟨?_, rfl, ?_⟩
  · unfold details.construct_weights_no_g_idx details.construct_weights details.dequantize
    apply Tensor.tabulate_congr
    intro i j hi _
    simp only [hg i hi, Int.toNat_ofNat]
  · intro i j hi hj
    unfold details.construct_weights_no_g_idx details.dequantize
    rw [Tensor.get2_tabulate _ _ _ i j hi hj]

/-- C14, at one packed word per column with 4 bits and groups of 8: the two overloads
return the same 8 × 2 matrix. -/
theorem codec_path_equivalence_witness :
    details.construct_weights_no_g_idx { sizes := [1, 2], data := [33, 67] }
        { sizes := [1, 1], data := [1] } { sizes := [1, 2], data := [10, 100] } 4 8 =
      details.construct_weights { sizes := [1, 2], data := [33, 67] }
        { sizes := [1, 1], data := [1] } { sizes := [1, 2], data := [10, 100] }
        { sizes := [8], data := [0, 0, 0, 0, 0, 0, 0, 0] } 4 ∧
    (details.construct_weights_no_g_idx { sizes := [1, 2], data := [33, 67] }
        { sizes := [1, 1], data := [1] } { sizes := [1, 2], data := [10, 100] } 4 8).data =
      [0, 300, 10, 400, -10, 0, -10, 0, -10, 0, -10, 0, -10, 0, -10, 0] :=
  ⟨(codec_path_equivalence { sizes := [1, 2], data := [33, 67] }
      { sizes := [1, 1], data := [1] } { sizes := [1, 2], data := [10, 100] }
      { sizes := [8], data := [0, 0, 0, 0, 0, 0, 0, 0] } 4 8 (by decide)).1, by decide⟩


/-! ## The collective -/

theorem window_mapM (tensors : List Tensor) (i : Nat) :
    ∀ w, i + w ≤ tensors.length →
      (List.range w).mapM (fun r =>
        match tensors[i + r]? with
        | some t => (Except.ok t : Except String Tensor)
        | none => Except.error "index out of range") =
      Except.ok ((tensors.drop i).take w) := by
  intro w
  induction w with
  | zero =>
    intro _
    rfl
  | succ w ih =>
    intro hw
    have hlt : i + w < tensors.length := by omega
    rw [List.range_succ, List.mapM_append, ih (by omega)]
    simp only [List.mapM_cons, List.mapM_nil, bind, Except.bind, pure, Except.pure,
      List.getElem?_eq_getElem hlt]
    congr 1
    rw [List.take_succ, List.getElem?_drop, List.getElem?_eq_getElem hlt]
    rfl

theorem expected_fold (tensors : List Tensor) (i : Nat) (z : Tensor) :
    ∀ w, i + w ≤ tensors.length →
      all_reduce_expected tensors i w z =
        Except.ok (((tensors.drop i).take w).foldl Tensor.add z) := by
  intro w
  induction w with
  | zero =>
    intro _
    simp [all_reduce_expected]
  | succ w ih =>
    intro hw
    have hlt : i + w < tensors.length := by omega
    simp only [all_reduce_expected, ih (by omega), bind, Except.bind,
      List.getElem?_eq_getElem hlt]
    congr 1
    rw [List.take_succ, List.getElem?_drop, List.getElem?_eq_getElem hlt]
    simp [List.foldl_append]

theorem fold_add_data (len : Nat) :
    ∀ (ts : List Tensor) (acc : Tensor), acc.data.length = len →
      (∀ t ∈ ts, t.data.length = len) →
      (ts.foldl Tensor.add acc).sizes = acc.sizes ∧
      (ts.foldl Tensor.add acc).data =
        (List.range len).map (fun k => acc.data.getD k 0 + (ts.map (fun u => u.data.getD k 0)).sum)
      := by
  intro ts
  induction ts with
  | nil =>
    intro acc hacc _
    refine ⟨rfl, ?_⟩
    apply List.ext_getElem?
    intro k
    by_cases hk : k < len
    · have hk2 : k < acc.data.length := by rw [hacc]; exact hk
      simp [List.getElem?_range hk, List.getElem?_eq_getElem hk2, List.getD_eq_getElem?_getD]
    · have hk2 : acc.data.length ≤ k := by rw [hacc]; omega
      simp [List.getElem?_eq_none, hk2, Nat.le_of_not_lt hk]
  | cons t rest ih =>
    intro acc hacc hts
    have ht : t.data.length = len := hts t (List.mem_cons_self _ _)
    have hadd : (acc.add t).data.length = len := by
      simp [Tensor.add, hacc, ht]
    obtain ⟨hs, hd⟩ := ih (acc.add t) hadd (fun u hu => hts u (List.mem_cons_of_mem _ hu))
    refine ⟨by rw [List.foldl_cons, hs]; rfl, ?_⟩
    rw [List.foldl_cons, hd]
    apply List.map_congr_left
    intro k hk
    have hk1 : k < len := List.mem_range.mp hk
    have hka : k < acc.data.length := by rw [hacc]; exact hk1
    have hkt : k < t.data.length := by rw [ht]; exact hk1
    have hkz : k < (List.zipWith (fun x y => x + y) acc.data t.data).length := by
      simp [hacc, ht, hk1]
    simp only [Tensor.add, List.map_cons, List.sum_cons, List.getD_eq_getElem?_getD,
      List.getElem?_eq_getElem hkz, List.getElem?_eq_getElem hka,
      List.getElem?_eq_getElem hkt, Option.getD_some, List.getElem_zipWith]
    ring

theorem allreduce_eq_fold (sizes : List Int) (len : Nat) (ts : List Tensor) (z : Tensor)
    (hts : ∀ t ∈ ts, t.sizes = sizes ∧ t.data.length = len)
    (hz : z.sizes = sizes) (hzl : z.data.length = len) (hz0 : ∀ k, z.data.getD k 0 = 0) :
    ∀ out ∈ ProcessGroup.allreduce ts, out = ts.foldl Tensor.add z := by
  intro out hout
  obtain ⟨t, ht, rfl⟩ := List.mem_map.mp hout
  obtain ⟨hs, hd⟩ := fold_add_data len ts z hzl (fun u hu => (hts u hu).2)
  have heq : ∀ a b : Tensor, a.sizes = b.sizes → a.data = b.data → a = b := by
    intro a b h1 h2
    cases a
    cases b
    simp_all
  apply heq
  · rw [hs, hz]
    exact (hts t ht).1
  · rw [hd, (hts t ht).2]
    apply List.map_congr_left
    intro k _
    rw [hz0 k, zero_add]

theorem zeros_like_getD (t : Tensor) (k : Nat) : t.zeros_like.data.getD k 0 = 0 := by
  unfold Tensor.zeros_like
  rw [List.getD_eq_getElem?_getD, List.getElem?_map]
  cases t.data[k]? <;> rfl

theorem all_reduce_step_ok (tensors : List Tensor) (world_size rank i : Nat)
    (sizes : List Int) (len : Nat) (hW : 1 ≤ world_size)
    (hi : i + world_size ≤ tensors.length)
    (hshape : ∀ t ∈ tensors, t.sizes = sizes ∧ t.data.length = len)
    (hr : rank < world_size) :
    all_reduce_step tensors { rank := rank, world_size := world_size } i = Except.ok true := by
  have hlt : i < tensors.length := by omega
  have hwin : ∀ t ∈ (tensors.drop i).take world_size, t.sizes = sizes ∧ t.data.length = len :=
    fun t ht => hshape t (List.mem_of_mem_drop (List.mem_of_mem_take ht))
  have hfirst := hshape tensors[i] (List.getElem_mem hlt)
  have hlen : rank < (ProcessGroup.allreduce ((tensors.drop i).take world_size)).length := by
    simp only [ProcessGroup.allreduce, List.length_map, List.length_take, List.length_drop]
    omega
  have hout := allreduce_eq_fold sizes len ((tensors.drop i).take world_size)
    tensors[i].zeros_like hwin hfirst.1 (by simp [Tensor.zeros_like, hfirst.2])
    (zeros_like_getD tensors[i]) _ (List.getElem_mem hlen)
  simp only [all_reduce_step, window_mapM tensors i world_size hi, bind, Except.bind,
    List.getElem?_eq_getElem hlen, List.getElem?_eq_getElem hlt,
    expected_fold tensors i _ world_size hi, pure, Except.pure]
  rw [hout]
  simp

theorem mapM_range_true (f : Nat → Except String Bool) :
    ∀ m, (∀ i, i < m → f i = Except.ok true) →
      (List.range m).mapM f = Except.ok (List.replicate m true) := by
  intro m
  induction m with
  | zero =>
    intro _
    rfl
  | succ m ih =>
    intro h
    rw [List.range_succ, List.mapM_append, ih (fun i hi => h i (by omega))]
    simp only [List.mapM_cons, List.mapM_nil, bind, Except.bind, pure, Except.pure,
      h m (by omega), List.replicate_succ']

/-- C13. Collective correctness: for a world size `W ≥ 1` and a list of `n ≥ W`
tensors of one shape, when every rank `r < W` passes `tensors[i + r]` to `allreduce`
in lock-step for a window start `i ≤ n - W`, every index `i + r` lies below `n`, and
afterwards the tensor of every rank is the element-wise sum of `tensors[i]`, ...,
`tensors[i + W - 1]`; every `EXPECT_TRUE` of `all_reduce_test` holds. -/
theorem allreduce_collective_correctness (tensors : List Tensor) (world_size rank : Nat)
    (sizes : List Int) (len : Nat) (hW : 1 ≤ world_size)
    (hn : world_size ≤ tensors.length) (h64 : tensors.length < 2 ^ 64)
    (hshape : ∀ t ∈ tensors, t.sizes = sizes ∧ t.data.length = len)
    (hr : rank < world_size) :
    (∀ i, i ≤ tensors.length - world_size → i + rank < tensors.length) ∧
    (∀ i, i ≤ tensors.length - world_size →
      (ProcessGroup.allreduce ((tensors.drop i).take world_size)).length = world_size ∧
      ∀ out ∈ ProcessGroup.allreduce ((tensors.drop i).take world_size),
        out = ((tensors.drop i).take world_size).foldl Tensor.add
          { sizes := sizes, data := List.replicate len 0 }) ∧
    all_reduce_test tensors { rank := rank, world_size := world_size } =
      Except.ok (List.replicate (tensors.length - world_size + 1) true) := by
  refine ⟨fun i hi => by omega, ?_, ?_⟩
  · intro i hi
    constructor
    · simp only [ProcessGroup.allreduce, List.length_map, List.length_take, List.length_drop]
      omega
    · apply allreduce_eq_fold sizes len
      · exact fun t ht => hshape t (List.mem_of_mem_drop (List.mem_of_mem_take ht))
      · rfl
      · simp
      · intro k
        rw [List.getD_eq_getElem?_getD, List.getElem?_replicate]
        split <;> rfl
  · have hbound : (tensors.length + 2 ^ 64 - world_size) % 2 ^ 64 + 1 =
        tensors.length - world_size + 1 := by
      norm_num at h64 ⊢
      omega
    unfold all_reduce_test
    rw [hbound]
    apply mapM_range_true
    intro i hi
    exact all_reduce_step_ok tensors world_size rank i sizes len hW (by omega) hshape hr

/-- C13, at three tensors of two elements and two ranks: both windows pass, and the
ranks end the first window with the sum of the first two tensors. -/
theorem allreduce_collective_correctness_witness :
    all_reduce_test [{ sizes := [2], data := [1, 2] }, { sizes := [2], data := [3, 4] },
        { sizes := [2], data := [5, 6] }] { rank := 1, world_size := 2 } =
      Except.ok [true, true] ∧
    ProcessGroup.allreduce [{ sizes := [2], data := [1, 2] }, { sizes := [2], data := [3, 4] }] =
      [{ sizes := [2], data := [4, 6] }, { sizes := [2], data := [4, 6] }] :=
  ⟨(allreduce_collective_correctness [{ sizes := [2], data := [1, 2] },
      { sizes := [2], data := [3, 4] }, { sizes := [2], data := [5, 6] }] 2 1 [2] 2
      (by decide) (by decide) (by decide) (by decide) (by decide)).2.2, by decide⟩

end llm
